import Mathlib

/-!
# ELCOM packet codec of the eLichens Foxberry driver

Shallow embedding of `eLichens_stm32/lib/elCom.c` (with the constants and types of
`elCom.h`) and theorems about the framing protocol, followed by the driver
(`ELICHENS_driver.cpp`), the UART callbacks of `main.c` and the string functions
of `xprintf.c`.

Modelling conventions

* A `uint8_t *` is modelled by the memory it points to: a `Buffer` maps an offset
  from the pointer to the byte stored there.  No capacity is attached to a
  pointer, exactly as in the C code; whether the offsets that are accessed fit in
  the 255-byte arrays of the driver is a separate question.
* Machine integers are natural numbers; every place where the C code narrows a
  value to `uint8_t` or `uint16_t` carries an explicit `% 256` or `% 65536`.
* A `uint16_t` is laid out in memory low byte first (the STM32 and AVR targets of
  the driver are little-endian).
* `CRC_computeCRC` is declared in `crc_el.h`, which is not part of the sources.
  It is a parameter of the model: a function of the bytes `[0, count)` it is
  handed, whose result is narrowed to the `uint16_t` variable it is assigned to.
-/

namespace Elcom

/-! ## Memory -/

/-- Memory reached through a `uint8_t *`: offset from the pointer to byte. -/
abbrev Buffer := Nat → Nat

/-- Store through a pointer: `dest[k] = v`. -/
def poke (dest : Buffer) (k v : Nat) : Buffer :=
  fun i => if i = k then v else dest i

/-- The call `memset(s + k, c, n)`. -/
def memset (s : Buffer) (k c n : Nat) : Buffer :=
  fun i => if k ≤ i ∧ i < k + n then c else s i

/-- The call `memcpy(dest + k, src + j, n)` between two distinct objects. -/
def memcpy (dest : Buffer) (k : Nat) (src : Buffer) (j n : Nat) : Buffer :=
  fun i => if k ≤ i ∧ i < k + n then src (j + (i - k)) else dest i

/-- Object representation of a `uint16_t` (little-endian), as seen through
`(uint8_t*)&v`. -/
def bytesOfU16 (v : Nat) : Buffer :=
  fun i => if i = 0 then v % 256 else if i = 1 then v / 256 % 256 else 0

/-- Value of the `uint16_t` filled by `memcpy(&v, src + k, 2)` (little-endian). -/
def u16OfBytes (src : Buffer) (k : Nat) : Nat :=
  src k + 256 * src (k + 1)

/-- Value of the `uint32_t` filled by `memcpy(&v, src + k, 4)` (little-endian). -/
def u32OfBytes (src : Buffer) (k : Nat) : Nat :=
  src k + 256 * src (k + 1) + 65536 * src (k + 2) + 16777216 * src (k + 3)

/-- Value of the `int32_t` filled by `memcpy(&v, src + k, 4)` (little-endian,
two's complement). -/
def i32OfBytes (src : Buffer) (k : Nat) : Int :=
  if u32OfBytes src k < 2 ^ 31 then (u32OfBytes src k : Int)
  else (u32OfBytes src k : Int) - 2 ^ 32

/-- The two's-complement reduction of an integer to the range of `int32_t`. -/
def wrapInt32 (z : Int) : Int :=
  (z + 2 ^ 31) % 2 ^ 32 - 2 ^ 31

/-- Result of an addition or subtraction of `int32_t` values whose exact value is
`z`: `z` itself when it lies in the range of `int32_t`.  Outside that range the
operation overflows, which C leaves undefined: the value is then `overflow z`,
where the parameter `overflow` stands for what the compiled program happens to
do (a two's-complement wrap, `wrapInt32`, or a computation on the exact value,
the identity); the source does not determine it. -/
def int32Result (overflow : Int → Int) (z : Int) : Int :=
  if -2 ^ 31 ≤ z ∧ z < 2 ^ 31 then z else overflow z

/-- The bytes `[0, count)` of a buffer, the range handed to the checksum. -/
def bytesOf (b : Buffer) (count : Nat) : List Nat :=
  (List.range count).map b

/-- Every cell of the memory holds a byte. -/
def IsBytes (b : Buffer) : Prop := ∀ i, b i < 256

/-! ## Constants of `elCom.h` -/

abbrev ELCOM_DATA_BUFFER_SIZE : Nat := 255

abbrev ELCOM_CMD_GET_MODEL_NAME : Nat := 0x10
abbrev ELCOM_CMD_GET_PROD_NAME : Nat := 0x11
abbrev ELCOM_CMD_GET_FW_VER : Nat := 0x12
abbrev ELCOM_CMD_GET_SEN_SN : Nat := 0x13
abbrev ELCOM_CMD_GET_RUN_TIME : Nat := 0x14
abbrev ELCOM_CMD_GET_PROD_DATE : Nat := 0x16
abbrev ELCOM_CMD_GET_SEN_DATA : Nat := 0x21
abbrev ELCOM_CMD_GET_SEN_TEMP : Nat := 0x22
abbrev ELCOM_CMD_GET_SEN_DATA_FMT : Nat := 0x23
abbrev ELCOM_CMD_GET_SEN_NAME : Nat := 0x26
abbrev ELCOM_CMD_ERROR_SLAVE : Nat := 0x40

abbrev ELCOM_FIELD_START_OF_PACKET_POS : Nat := 0
abbrev ELCOM_FIELD_VER_POS : Nat := 1
abbrev ELCOM_FIELD_CMD_POS : Nat := 2
abbrev ELCOM_FIELD_LEN_POS : Nat := 3
abbrev ELCOM_FIELD_DATA_POS : Nat := 4

abbrev ELCOM_FIELD_START_OF_PACKET_SIZE : Nat := 1
abbrev ELCOM_FIELD_VER_SIZE : Nat := 1
abbrev ELCOM_FIELD_CMD_SIZE : Nat := 1
abbrev ELCOM_FIELD_LEN_SIZE : Nat := 1
abbrev ELCOM_FIELD_CRC_SIZE : Nat := 2
abbrev ELCOM_FIELD_END_OF_PACKET_SIZE : Nat := 1
abbrev ELCOM_FIELD_HEADER_SIZE : Nat :=
  ELCOM_FIELD_START_OF_PACKET_SIZE + ELCOM_FIELD_VER_SIZE + ELCOM_FIELD_CMD_SIZE
    + ELCOM_FIELD_LEN_SIZE
abbrev ELCOM_FIELD_FOOTER_SIZE : Nat :=
  ELCOM_FIELD_CRC_SIZE + ELCOM_FIELD_END_OF_PACKET_SIZE
abbrev ELCOM_FIELD_DATA_MAX_SIZE : Nat :=
  ELCOM_DATA_BUFFER_SIZE - ELCOM_FIELD_CMD_SIZE - ELCOM_FIELD_CRC_SIZE
    - ELCOM_FIELD_END_OF_PACKET_SIZE

abbrev ELCOM_FIELD_START_OF_PACKET_VALUE : Nat := 0x5B
abbrev ELCOM_FIELD_VER_VALUE : Nat := 0x01
abbrev ELCOM_FIELD_END_OF_PACKET_VALUE : Nat := 0x5D

/-! ## Types of `elCom.h` -/

/-- Buffer structure holding a parsed ELCOM packet; `data` is the memory at
`&packet.data`, of which the array occupies the first
`ELCOM_FIELD_DATA_MAX_SIZE` cells. -/
structure ELCOM_packet_t where
  cmd : Nat
  dataLength : Nat
  data : Buffer

/-- Error code returned by the ELCOM functions. -/
inductive ELCOM_errorCode_t where
  | ELCOM_NO_ERROR
  | ELCOM_INVALID_SOP
  | ELCOM_INVALID_VER
  | ELCOM_INVALID_CRC
  | ELCOM_INVALID_EOP
  | ELCOM_COMMAND_UNKNOW
  | ELCOM_SLAVE_TIMEOUT
  | ELCOM_SLAVE_ERROR
  deriving DecidableEq, Repr

open ELCOM_errorCode_t

/-- Error code sent by the error slave command. -/
inductive ELCOM_slaveErrorCode_t where
  | ELCOM_FAIL_UNKNOW
  | ELCOM_FAIL_INVALID_CMD
  | ELCOM_FAIL_DATASIZE
  | ELCOM_FAIL_INVALIDVALUE
  | ELCOM_FAIL_NO_RIGHT
  | ELCOM_FAIL_OPERATION
  deriving DecidableEq, Repr

open ELCOM_slaveErrorCode_t

/-- Value of the enumeration constant, as stored in a `uint8_t`. -/
def ELCOM_slaveErrorCode_t.toNat : ELCOM_slaveErrorCode_t → Nat
  | ELCOM_FAIL_UNKNOW => 0x01
  | ELCOM_FAIL_INVALID_CMD => 0x02
  | ELCOM_FAIL_DATASIZE => 0x03
  | ELCOM_FAIL_INVALIDVALUE => 0x04
  | ELCOM_FAIL_NO_RIGHT => 0x05
  | ELCOM_FAIL_OPERATION => 0x06

/-! ## Functions of `elCom.c` -/

/-- Check whether the packet header is valid or not. -/
def ELCOM_validateHeader (packetData : Buffer) : ELCOM_errorCode_t :=
  if packetData ELCOM_FIELD_START_OF_PACKET_POS ≠ ELCOM_FIELD_START_OF_PACKET_VALUE
      ∨ packetData ELCOM_FIELD_VER_POS ≠ ELCOM_FIELD_VER_VALUE then
    ELCOM_INVALID_SOP
  else if packetData ELCOM_FIELD_VER_POS ≠ ELCOM_FIELD_VER_VALUE then
    ELCOM_INVALID_VER
  else
    ELCOM_NO_ERROR

/-- Check whether the packet footer is valid or not.  The index is computed in
`int`, so it does not wrap. -/
def ELCOM_validateEOP (packetData : Buffer) : ELCOM_errorCode_t :=
  if packetData (packetData ELCOM_FIELD_LEN_POS + ELCOM_FIELD_HEADER_SIZE + ELCOM_FIELD_CRC_SIZE)
      ≠ ELCOM_FIELD_END_OF_PACKET_VALUE then
    ELCOM_INVALID_EOP
  else
    ELCOM_NO_ERROR

/-- Check the checksum contained in a received packet.  `crc_data_length` is a
`uint8_t`, so the sum is narrowed modulo 256. -/
def ELCOM_validateCheksum (CRC_computeCRC : List Nat → Nat) (packetData : Buffer) :
    ELCOM_errorCode_t :=
  let dataLength := packetData ELCOM_FIELD_LEN_POS
  let crc_data_length :=
    (ELCOM_FIELD_START_OF_PACKET_SIZE + ELCOM_FIELD_VER_SIZE + ELCOM_FIELD_LEN_SIZE
      + ELCOM_FIELD_CMD_SIZE + dataLength) % 256
  let packetCrc := u16OfBytes packetData crc_data_length
  let computeCrc := CRC_computeCRC (bytesOf packetData crc_data_length) % 65536
  if packetCrc ≠ computeCrc then
    ELCOM_INVALID_CRC
  else
    ELCOM_NO_ERROR

/-- Extract the data length in the packet. -/
def ELCOM_extractDataLength (packetData : Buffer) : Nat :=
  packetData ELCOM_FIELD_LEN_POS

/-- Extract the command field value. -/
def ELCOM_extractCommand (packetData : Buffer) : Nat :=
  packetData ELCOM_FIELD_CMD_POS

/-- Extract the data from a given packet and place it in a buffer; returns the
destination memory after the call. -/
def ELCOM_extractData (packetData : Buffer) (dataOut : Buffer) (dataLength : Nat) : Buffer :=
  if dataLength > ELCOM_FIELD_DATA_MAX_SIZE then
    dataOut
  else
    memcpy dataOut 0 packetData ELCOM_FIELD_DATA_POS dataLength

/-- Check if a received packet is valid and parse the fields into a structure.
Returns the error code and the content of `*packetOut` after the call. -/
def ELCOM_parseReceivedPacket (CRC_computeCRC : List Nat → Nat) (dataBufferIn : Buffer)
    (packetOut : ELCOM_packet_t) : ELCOM_errorCode_t × ELCOM_packet_t :=
  let packetOut := { packetOut with cmd := 0 }
  let packetOut := { packetOut with dataLength := 0 }
  let packetOut := { packetOut with data := memset packetOut.data 0 0 ELCOM_FIELD_DATA_MAX_SIZE }
  let err_code := ELCOM_validateHeader dataBufferIn
  if err_code ≠ ELCOM_NO_ERROR then (err_code, packetOut) else
  let err_code := ELCOM_validateEOP dataBufferIn
  if err_code ≠ ELCOM_NO_ERROR then (err_code, packetOut) else
  let err_code := ELCOM_validateCheksum CRC_computeCRC dataBufferIn
  if err_code ≠ ELCOM_NO_ERROR then (err_code, packetOut) else
  let packetOut := { packetOut with dataLength := ELCOM_extractDataLength dataBufferIn }
  let packetOut := { packetOut with cmd := ELCOM_extractCommand dataBufferIn }
  let packetOut :=
    { packetOut with data := ELCOM_extractData dataBufferIn packetOut.data packetOut.dataLength }
  if ELCOM_CMD_ERROR_SLAVE = packetOut.cmd then (ELCOM_SLAVE_ERROR, packetOut)
  else (ELCOM_NO_ERROR, packetOut)

/-- Construct an ELCOM packet with the values passed in the structure and fill
the output buffer with it.  `bufferIndex` is kept as the offset
`bufferIndex - dataBufferOut`.  Returns the `uint8_t` result and the memory at
`dataBufferOut` after the call. -/
def ELCOM_prepareSendPacket (CRC_computeCRC : List Nat → Nat) (packetToSend : ELCOM_packet_t)
    (dataBufferOut : Buffer) : Nat × Buffer :=
  let bufferIndex := 0
  let dataBufferOut := memset dataBufferOut 0 0 ELCOM_DATA_BUFFER_SIZE
  -- SOP
  let dataBufferOut := poke dataBufferOut bufferIndex ELCOM_FIELD_START_OF_PACKET_VALUE
  let bufferIndex := bufferIndex + ELCOM_FIELD_START_OF_PACKET_SIZE
  -- VER
  let dataBufferOut := poke dataBufferOut bufferIndex ELCOM_FIELD_VER_VALUE
  let bufferIndex := bufferIndex + ELCOM_FIELD_VER_SIZE
  -- CMD
  let dataBufferOut := poke dataBufferOut bufferIndex packetToSend.cmd
  let bufferIndex := bufferIndex + ELCOM_FIELD_CMD_SIZE
  -- LEN
  let dataLength := packetToSend.dataLength
  let dataBufferOut := poke dataBufferOut bufferIndex dataLength
  let bufferIndex := bufferIndex + ELCOM_FIELD_LEN_SIZE
  -- Data
  let dataBufferOut := memcpy dataBufferOut bufferIndex packetToSend.data 0 dataLength
  let bufferIndex := bufferIndex + dataLength
  -- CRC
  let crc := CRC_computeCRC (bytesOf dataBufferOut bufferIndex) % 65536
  let dataBufferOut := memcpy dataBufferOut bufferIndex (bytesOfU16 crc) 0 ELCOM_FIELD_CRC_SIZE
  let bufferIndex := bufferIndex + ELCOM_FIELD_CRC_SIZE
  -- EOP
  let dataBufferOut := poke dataBufferOut bufferIndex ELCOM_FIELD_END_OF_PACKET_VALUE
  let bufferIndex := bufferIndex + ELCOM_FIELD_END_OF_PACKET_SIZE
  (bufferIndex % 256, dataBufferOut)

/-- ELCOM error handler: builds the `ELCOM_CMD_ERROR_SLAVE` response on an error.
Returns the slave error code and the content of `*packetOut` after the call. -/
def ELCOM_handleError (errorCode : ELCOM_errorCode_t) (packetOut : ELCOM_packet_t) :
    ELCOM_slaveErrorCode_t × ELCOM_packet_t :=
  let packetOut := { packetOut with data := memset packetOut.data 0 0 ELCOM_FIELD_DATA_MAX_SIZE }
  let slaveErrorCode :=
    match errorCode with
    | ELCOM_COMMAND_UNKNOW => ELCOM_FAIL_INVALID_CMD
    | ELCOM_NO_ERROR => ELCOM_FAIL_OPERATION
    | _ => ELCOM_FAIL_OPERATION
  let packetOut := { packetOut with cmd := ELCOM_CMD_ERROR_SLAVE }
  let packetOut := { packetOut with data := poke packetOut.data 0 slaveErrorCode.toNat }
  let packetOut := { packetOut with dataLength := 1 }
  (slaveErrorCode, packetOut)

/-- The heuristic of the wait loop: `(dataLength = buffer[3]) != 0 &&
buffer[dataLength + 6] != 0`, narrowed to the `uint8_t` result.  The index is
computed in `int`, so it does not wrap. -/
def ELCOM_isResponseComplete (buffer : Buffer) : Nat :=
  let dataLength := buffer ELCOM_FIELD_LEN_POS
  if dataLength ≠ 0 ∧ buffer (dataLength + 6) ≠ 0 then 1 else 0

/-! ## The driver (`ELICHENS_driver.h`, `ELICHENS_driver.cpp`) -/

/-- Format used in the sensor data. -/
structure ELCOM_DataFormat_t where
  decimalPoint : Nat
  unitCode : Nat
  resInt : Nat
  resExp : Nat

/-- Sensor definition.  The four function pointers are modelled as functions of
the state `W` of the transport that stands behind them and of the memory of the
receive buffer, which the receive path fills; they return their result with the
new transport state and receive memory, or `none` when they do not return. -/
structure ELICHENS_Sensor_t (W : Type) where
  dataFormat : ELCOM_DataFormat_t
  packet : ELCOM_packet_t
  bufferTx : Buffer
  bufferRx : Buffer
  uartTransmit : Buffer → Nat → W → Buffer → Option (ELCOM_errorCode_t × W × Buffer)
  uartReceive : W → Buffer → Option (ELCOM_errorCode_t × W × Buffer)
  uartWaitUntilReceived : W → Buffer → Option (ELCOM_errorCode_t × W × Buffer)
  uartAbortReceive : W → Buffer → Option (W × Buffer)

/-- An invocation of one of the callbacks of the sensor, with its arguments. -/
inductive Call where
  | uartReceive
  | uartTransmit (data : Buffer) (size : Nat)
  | uartWaitUntilReceived
  | uartAbortReceive

/-- Generic function to send an ELCOM packet to the sensor and process its
response.  Returns the error code, the sensor and the transport state after the
call, and the callbacks it invoked, in order. -/
def EL_sendAndReceivePacket {W : Type} (CRC_computeCRC : List Nat → Nat)
    (sensor : ELICHENS_Sensor_t W) (w : W) :
    Option (ELCOM_errorCode_t × ELICHENS_Sensor_t W × W × List Call) :=
  let prepared := ELCOM_prepareSendPacket CRC_computeCRC sensor.packet sensor.bufferTx
  let size := prepared.1
  let sensor := { sensor with bufferTx := prepared.2 }
  -- Start listening
  match sensor.uartReceive w sensor.bufferRx with
  | none => none
  | some (err_code, w, rx) =>
    let sensor := { sensor with bufferRx := rx }
    if ELCOM_NO_ERROR ≠ err_code then
      some (err_code, sensor, w, [Call.uartReceive])
    else
      -- Send the packet
      match sensor.uartTransmit sensor.bufferTx size w sensor.bufferRx with
      | none => none
      | some (err_code, w, rx) =>
        let sensor := { sensor with bufferRx := rx }
        if ELCOM_NO_ERROR ≠ err_code then
          match sensor.uartAbortReceive w sensor.bufferRx with
          | none => none
          | some (w, rx) =>
            some (err_code, { sensor with bufferRx := rx }, w,
              [Call.uartReceive, Call.uartTransmit sensor.bufferTx size, Call.uartAbortReceive])
        else
          -- Wait for response
          match sensor.uartWaitUntilReceived w sensor.bufferRx with
          | none => none
          | some (err_code, w, rx) =>
            let sensor := { sensor with bufferRx := rx }
            if ELCOM_NO_ERROR ≠ err_code then
              match sensor.uartAbortReceive w sensor.bufferRx with
              | none => none
              | some (w, rx) =>
                some (err_code, { sensor with bufferRx := rx }, w,
                  [Call.uartReceive, Call.uartTransmit sensor.bufferTx size,
                    Call.uartWaitUntilReceived, Call.uartAbortReceive])
            else
              -- Parse response
              let parsed := ELCOM_parseReceivedPacket CRC_computeCRC sensor.bufferRx sensor.packet
              some (parsed.1, { sensor with packet := parsed.2 }, w,
                [Call.uartReceive, Call.uartTransmit sensor.bufferTx size,
                  Call.uartWaitUntilReceived])

/-- Serial number query.  `*sn` is a `uint32_t`; the last component of the result
is its value after the call. -/
def ELCOM_getSysSn {W : Type} (CRC_computeCRC : List Nat → Nat)
    (sensor : ELICHENS_Sensor_t W) (w : W) :
    Option (ELCOM_errorCode_t × ELICHENS_Sensor_t W × W × List Call × Nat) :=
  let sn := 0
  let sensor := { sensor with packet := { sensor.packet with cmd := ELCOM_CMD_GET_SEN_SN } }
  let sensor := { sensor with packet := { sensor.packet with dataLength := 0 } }
  match EL_sendAndReceivePacket CRC_computeCRC sensor w with
  | none => none
  | some (err_code, sensor, w, calls) =>
    if ELCOM_NO_ERROR ≠ err_code then
      some (err_code, sensor, w, calls, sn)
    else
      let sn := (List.range sensor.packet.dataLength).foldl
        (fun sn i =>
          let sn := 10 * sn % 2 ^ 32
          let c := sensor.packet.data i
          if c ≥ 48 ∧ c ≤ 57 then (sn + (c - 48)) % 2 ^ 32 else sn)
        sn
      some (err_code, sensor, w, calls, sn)

/-- The macro `DIV_ROUND_CLOSEST(x, divisor)` at the types of its only use:
`x` an `int32_t` and `divisor` an `int`.  The two tests `((typeof(x))-1) > 0` and
`((typeof(divisor))-1) > 0` compare -1 with 0; the sum and the difference are
`int32_t` operations, whose result on overflow is the parameter `overflow`
(`int32Result`), and the division truncates towards zero. -/
def DIV_ROUND_CLOSEST (overflow : Int → Int) (x divisor : Int) : Int :=
  let __x := x
  let __d := divisor
  if (-1 : Int) > 0 ∨ (-1 : Int) > 0 ∨ __x > 0 then
    Int.tdiv (int32Result overflow (__x + Int.tdiv __d 2)) __d
  else
    Int.tdiv (int32Result overflow (__x - Int.tdiv __d 2)) __d

/-- Sensor's data: status code, error code and concentration value in PPM. -/
structure ELICHENS_SensorData_t where
  status : Nat
  error : Nat
  value : Int

/-- Model name query.  `modelName` is the memory at the destination pointer; the
last component of the result is that memory after the call. -/
def ELCOM_getSysModelName {W : Type} (CRC_computeCRC : List Nat → Nat)
    (sensor : ELICHENS_Sensor_t W) (w : W) (modelName : Buffer) :
    Option (ELCOM_errorCode_t × ELICHENS_Sensor_t W × W × List Call × Buffer) :=
  let sensor := { sensor with packet := { sensor.packet with cmd := ELCOM_CMD_GET_MODEL_NAME } }
  let sensor := { sensor with packet := { sensor.packet with dataLength := 0 } }
  match EL_sendAndReceivePacket CRC_computeCRC sensor w with
  | none => none
  | some (err_code, sensor, w, calls) =>
    if ELCOM_NO_ERROR ≠ err_code then
      -- Empty name
      some (err_code, sensor, w, calls, poke modelName 0 0)
    else
      let modelName := memcpy modelName 0 sensor.packet.data 0 sensor.packet.dataLength
      let modelName := poke modelName sensor.packet.dataLength 0
      some (err_code, sensor, w, calls, modelName)

/-- Product name query. -/
def ELCOM_getSysProdName {W : Type} (CRC_computeCRC : List Nat → Nat)
    (sensor : ELICHENS_Sensor_t W) (w : W) (prodName : Buffer) :
    Option (ELCOM_errorCode_t × ELICHENS_Sensor_t W × W × List Call × Buffer) :=
  let sensor := { sensor with packet := { sensor.packet with cmd := ELCOM_CMD_GET_PROD_NAME } }
  let sensor := { sensor with packet := { sensor.packet with dataLength := 0 } }
  match EL_sendAndReceivePacket CRC_computeCRC sensor w with
  | none => none
  | some (err_code, sensor, w, calls) =>
    if ELCOM_NO_ERROR ≠ err_code then
      -- Empty name
      some (err_code, sensor, w, calls, poke prodName 0 0)
    else
      let prodName := memcpy prodName 0 sensor.packet.data 0 sensor.packet.dataLength
      let prodName := poke prodName sensor.packet.dataLength 0
      some (err_code, sensor, w, calls, prodName)

/-- Firmware version query. -/
def ELCOM_getSysFwVer {W : Type} (CRC_computeCRC : List Nat → Nat)
    (sensor : ELICHENS_Sensor_t W) (w : W) (version : Buffer) :
    Option (ELCOM_errorCode_t × ELICHENS_Sensor_t W × W × List Call × Buffer) :=
  let sensor := { sensor with packet := { sensor.packet with cmd := ELCOM_CMD_GET_FW_VER } }
  let sensor := { sensor with packet := { sensor.packet with dataLength := 0 } }
  match EL_sendAndReceivePacket CRC_computeCRC sensor w with
  | none => none
  | some (err_code, sensor, w, calls) =>
    if ELCOM_NO_ERROR ≠ err_code then
      -- Invalid version
      some (err_code, sensor, w, calls, poke version 0 0)
    else if sensor.packet.dataLength ≠ 6 then
      -- Unexpected length
      some (ELCOM_SLAVE_ERROR, sensor, w, calls, poke version 0 0)
    else
      let version := memcpy version 0 sensor.packet.data 0 sensor.packet.dataLength
      let version := poke version sensor.packet.dataLength 0
      some (err_code, sensor, w, calls, version)

/-- Run time query.  `runtime` is the previous value of `*runtime`. -/
def ELCOM_getSysRunTime {W : Type} (CRC_computeCRC : List Nat → Nat)
    (sensor : ELICHENS_Sensor_t W) (w : W) (runtime : Nat) :
    Option (ELCOM_errorCode_t × ELICHENS_Sensor_t W × W × List Call × Nat) :=
  let sensor := { sensor with packet := { sensor.packet with cmd := ELCOM_CMD_GET_RUN_TIME } }
  let sensor := { sensor with packet := { sensor.packet with dataLength := 0 } }
  match EL_sendAndReceivePacket CRC_computeCRC sensor w with
  | none => none
  | some (err_code, sensor, w, calls) =>
    if ELCOM_NO_ERROR ≠ err_code then
      some (err_code, sensor, w, calls, runtime)
    else
      let runtime := u32OfBytes sensor.packet.data 0
      some (err_code, sensor, w, calls, runtime)

/-- Measure query.  `data` is the previous content of `*data`; `overflow` is the
parameter of `DIV_ROUND_CLOSEST`. -/
def ELCOM_getSenData {W : Type} (CRC_computeCRC : List Nat → Nat) (overflow : Int → Int)
    (sensor : ELICHENS_Sensor_t W) (w : W) (data : ELICHENS_SensorData_t) :
    Option (ELCOM_errorCode_t × ELICHENS_Sensor_t W × W × List Call × ELICHENS_SensorData_t) :=
  let sensor := { sensor with packet := { sensor.packet with cmd := ELCOM_CMD_GET_SEN_DATA } }
  let sensor := { sensor with packet := { sensor.packet with dataLength := 1 } }
  let sensor := { sensor with packet := { sensor.packet with data := poke sensor.packet.data 0 0 } }
  match EL_sendAndReceivePacket CRC_computeCRC sensor w with
  | none => none
  | some (err_code, sensor, w, calls) =>
    if ELCOM_NO_ERROR ≠ err_code then
      let data := { data with status := 0xFF }
      let data := { data with error := 0xFF }
      let data := { data with value := 0 }
      some (err_code, sensor, w, calls, data)
    else
      -- byte 0 is the sensor index
      let data := { data with status := sensor.packet.data 1 }
      let data := { data with error := sensor.packet.data 2 }
      let tmp := i32OfBytes sensor.packet.data 3
      let data := { data with value := DIV_ROUND_CLOSEST overflow tmp 100 }
      some (err_code, sensor, w, calls, data)

/-- Internal temperature query.  The floating-point computation `tmp / 100.` and
its narrowing to `float` are the parameter `divide100`, with values in a type `F`
standing for `float`; `temperature` is the previous value of `*temperature`.
In IEEE 754 arithmetic `divide100` is `floatDivide100`. -/
def ELCOM_getSenTemp {W F : Type} (CRC_computeCRC : List Nat → Nat) (divide100 : Int → F)
    (sensor : ELICHENS_Sensor_t W) (w : W) (temperature : F) :
    Option (ELCOM_errorCode_t × ELICHENS_Sensor_t W × W × List Call × F) :=
  let sensor := { sensor with packet := { sensor.packet with cmd := ELCOM_CMD_GET_SEN_TEMP } }
  let sensor := { sensor with packet := { sensor.packet with dataLength := 1 } }
  let sensor := { sensor with packet := { sensor.packet with data := poke sensor.packet.data 0 0 } }
  match EL_sendAndReceivePacket CRC_computeCRC sensor w with
  | none => none
  | some (err_code, sensor, w, calls) =>
    if ELCOM_NO_ERROR ≠ err_code then
      some (err_code, sensor, w, calls, temperature)
    else
      -- byte 0 is the sensor index
      let tmp := i32OfBytes sensor.packet.data 1
      let temperature := divide100 tmp
      some (err_code, sensor, w, calls, temperature)

/-- Rounding of a rational to the nearest integer, ties to the even one. -/
def roundTiesEven (q : ℚ) : Int :=
  if q - ⌊q⌋ < 1 / 2 then ⌊q⌋
  else if 1 / 2 < q - ⌊q⌋ then ⌊q⌋ + 1
  else if ⌊q⌋ % 2 = 0 then ⌊q⌋ else ⌊q⌋ + 1

/-- IEEE 754 rounding to nearest, ties to even, into a binary format with `p`
significant bits: with `2 ^ e ≤ |q| < 2 ^ (e + 1)` the result is the multiple of
`2 ^ (e - (p - 1))` nearest to `q`.  The exponent range is left out: the
quotients of an `int32_t` by 100 are 0 or lie between 0.01 and 2.2e7 in absolute
value, within the normal range of `float` and `double`. -/
def roundBinary (p : Nat) (q : ℚ) : ℚ :=
  if q = 0 then 0
  else roundTiesEven (q / 2 ^ (Int.log 2 |q| - ((p : Int) - 1)))
    * 2 ^ (Int.log 2 |q| - ((p : Int) - 1))

/-- The expression `tmp / 100.` of `ELCOM_getSenTemp` as stored into the `float`
`*temperature`, in IEEE 754 arithmetic, with rational values: `tmp` is converted
to `double`, the quotient by the `double` 100 is rounded to `double`, and the
assignment converts it to the 24 significant bits of `float`.  `pd` is the
number of significant bits of `double`: 53, or 24 on the targets whose `double`
is a `float`. -/
def floatDivide100 (pd : Nat) (tmp : Int) : ℚ :=
  roundBinary 24 (roundBinary pd (roundBinary pd (tmp : ℚ) / 100))

/-- Data format query.  `format` is the previous content of `*format`, an object
of its own; the call of `main`, whose output is the field `dataFormat` of the
sensor, is `main_getSenDataFmt`. -/
def ELCOM_getSenDataFmt {W : Type} (CRC_computeCRC : List Nat → Nat)
    (sensor : ELICHENS_Sensor_t W) (w : W) (format : ELCOM_DataFormat_t) :
    Option (ELCOM_errorCode_t × ELICHENS_Sensor_t W × W × List Call × ELCOM_DataFormat_t) :=
  let sensor := { sensor with packet := { sensor.packet with cmd := ELCOM_CMD_GET_SEN_DATA_FMT } }
  let sensor := { sensor with packet := { sensor.packet with dataLength := 1 } }
  let sensor := { sensor with packet := { sensor.packet with data := poke sensor.packet.data 0 0 } }
  match EL_sendAndReceivePacket CRC_computeCRC sensor w with
  | none => none
  | some (err_code, sensor, w, calls) =>
    if ELCOM_NO_ERROR ≠ err_code then
      some (err_code, sensor, w, calls, format)
    else
      -- byte 0 is the sensor index
      let format := { format with decimalPoint := sensor.packet.data 1 }
      let format := { format with unitCode := sensor.packet.data 2 }
      let format := { format with resInt := sensor.packet.data 3 }
      let format := { format with resExp := sensor.packet.data 4 }
      some (err_code, sensor, w, calls, format)

/-- Sensor name query.  `dataLength - 1` is computed in `int`: for a data length
of 0 the copy would be of `(size_t)-1` bytes and the terminator would go to
`name[-1]`, which has no defined result (`none`). -/
def ELCOM_getSenName {W : Type} (CRC_computeCRC : List Nat → Nat)
    (sensor : ELICHENS_Sensor_t W) (w : W) (name : Buffer) :
    Option (ELCOM_errorCode_t × ELICHENS_Sensor_t W × W × List Call × Buffer) :=
  let sensor := { sensor with packet := { sensor.packet with cmd := ELCOM_CMD_GET_SEN_NAME } }
  let sensor := { sensor with packet := { sensor.packet with dataLength := 1 } }
  let sensor := { sensor with packet := { sensor.packet with data := poke sensor.packet.data 0 0 } }
  match EL_sendAndReceivePacket CRC_computeCRC sensor w with
  | none => none
  | some (err_code, sensor, w, calls) =>
    if ELCOM_NO_ERROR ≠ err_code then
      -- Empty name
      some (err_code, sensor, w, calls, poke name 0 0)
    else if sensor.packet.dataLength = 0 then
      none
    else
      -- byte 0 is the sensor index
      let name := memcpy name 0 sensor.packet.data 1 (sensor.packet.dataLength - 1)
      let name := poke name (sensor.packet.dataLength - 1) 0
      some (err_code, sensor, w, calls, name)

/-! ## The UART callbacks of the STM32 application (`main.c`)

The STM32 HAL is not part of the sources.  What the callbacks use of it is kept
in `Hal`: the successive readings of the tick counter, the status the two UART
calls on `huart1` answer with, what the receive interrupt stores into the armed
buffer between two readings of the tick counter, and the log of the UART calls.
The log output of `log_message` (on `huart2`) is left out. -/

/-- HAL status of `stm32l0xx_hal_def.h`. -/
inductive HAL_StatusTypeDef where
  | HAL_OK
  | HAL_ERROR
  | HAL_BUSY
  | HAL_TIMEOUT
  deriving DecidableEq, Repr

/-- A call of the HAL on `huart1`. -/
inductive HalCall where
  | HAL_UART_Transmit (data : List Nat) (timeout : Nat)
  | HAL_UART_Receive_IT
  | HAL_UART_Abort_IT
  deriving DecidableEq, Repr

/-- State of the HAL as the callbacks see it. -/
structure Hal where
  tick : Nat → Nat
  tickReads : Nat
  received : Nat → Buffer → Buffer
  transmitStatus : HAL_StatusTypeDef
  receiveStatus : HAL_StatusTypeDef
  uartCalls : List HalCall

open HAL_StatusTypeDef

/-- Reading of the `uint32_t` tick counter. -/
def HAL_GetTick (hal : Hal) : Nat × Hal :=
  (hal.tick hal.tickReads % 2 ^ 32, { hal with tickReads := hal.tickReads + 1 })

/-- Error code of the driver for a HAL status. -/
def el_errorCodeFromHAL (res : HAL_StatusTypeDef) : ELCOM_errorCode_t :=
  if HAL_OK = res then ELCOM_NO_ERROR
  else if HAL_TIMEOUT = res then ELCOM_SLAVE_TIMEOUT
  else ELCOM_SLAVE_ERROR

/-- Transmit callback: `HAL_UART_Transmit(&huart1, data, size, 10 * size)`. -/
def el_uartTransmit (data : Buffer) (size : Nat) (hal : Hal) (bufferRx : Buffer) :
    Option (ELCOM_errorCode_t × Hal × Buffer) :=
  let res := hal.transmitStatus
  let hal :=
    { hal with uartCalls := hal.uartCalls ++ [HalCall.HAL_UART_Transmit (bytesOf data size)
        (10 * size)] }
  some (el_errorCodeFromHAL res, hal, bufferRx)

/-- Abort callback: `HAL_UART_Abort_IT(&huart1)`. -/
def el_uartAbortReceive (hal : Hal) (bufferRx : Buffer) : Option (Hal × Buffer) :=
  some ({ hal with uartCalls := hal.uartCalls ++ [HalCall.HAL_UART_Abort_IT] }, bufferRx)

/-- The loop of `el_uartWaitUntilReceived`, `start` being the first reading of the
tick counter.  Each iteration reads the tick counter, sees the receive buffer
with what was received by then, and either finds the response complete (aborts
and returns), goes on polling, or leaves the 250-tick window.  The subtraction
is that of `uint32_t`.  `none` when the fuel is exhausted. -/
def el_uartWaitLoop (start : Nat) :
    Nat → Hal → Buffer → Option (ELCOM_errorCode_t × Hal × Buffer)
  | 0, _, _ => none
  | fuel + 1, hal, bufferRx =>
    let now := HAL_GetTick hal
    let bufferRx := hal.received hal.tickReads bufferRx
    if (now.1 + 2 ^ 32 - start) % 2 ^ 32 < 250 then
      if ELCOM_isResponseComplete bufferRx ≠ 0 then
        -- Yet we need to abort
        match el_uartAbortReceive now.2 bufferRx with
        | none => none
        | some (hal, bufferRx) => some (ELCOM_NO_ERROR, hal, bufferRx)
      else
        -- Continue waiting
        el_uartWaitLoop start fuel now.2 bufferRx
    else
      some (ELCOM_SLAVE_TIMEOUT, now.2, bufferRx)

/-- Wait callback, polling `sensor.bufferRx` for at most `fuel` iterations. -/
def el_uartWaitUntilReceived (fuel : Nat) (hal : Hal) (bufferRx : Buffer) :
    Option (ELCOM_errorCode_t × Hal × Buffer) :=
  let start := HAL_GetTick hal
  el_uartWaitLoop start.1 fuel start.2 bufferRx

/-- Receive callback: clears the buffer and calls
`HAL_UART_Receive_IT(&huart1, data, ELCOM_DATA_BUFFER_SIZE)`. -/
def el_uartReceive (hal : Hal) (data : Buffer) : Option (ELCOM_errorCode_t × Hal × Buffer) :=
  -- Clear the buffer
  let data := memset data 0 0 ELCOM_DATA_BUFFER_SIZE
  -- Start listening to incoming message
  let res := hal.receiveStatus
  let hal := { hal with uartCalls := hal.uartCalls ++ [HalCall.HAL_UART_Receive_IT] }
  some (el_errorCodeFromHAL res, hal, data)

/-- The sensor defined in `main.c`: zero-initialised data and the four UART
callbacks. -/
def sensor (fuel : Nat) : ELICHENS_Sensor_t Hal :=
  { dataFormat := { decimalPoint := 0, unitCode := 0, resInt := 0, resExp := 0 }
    packet := { cmd := 0, dataLength := 0, data := fun _ => 0 }
    bufferTx := fun _ => 0
    bufferRx := fun _ => 0
    uartTransmit := el_uartTransmit
    uartReceive := el_uartReceive
    uartWaitUntilReceived := el_uartWaitUntilReceived fuel
    uartAbortReceive := el_uartAbortReceive }

/-- The call `ELCOM_getSenDataFmt(&sensor, &sensor.dataFormat)` of `main`: the
output of the query is the field `dataFormat` of the sensor itself.  The query
does not read that field and stores into it after the transaction, so the
sensor after the call is the one the query returns, holding the format it
returns. -/
def main_getSenDataFmt {W : Type} (CRC_computeCRC : List Nat → Nat)
    (sensor : ELICHENS_Sensor_t W) (w : W) :
    Option (ELCOM_errorCode_t × ELICHENS_Sensor_t W × W × List Call) :=
  match ELCOM_getSenDataFmt CRC_computeCRC sensor w sensor.dataFormat with
  | none => none
  | some (err_code, sensor, w, calls, format) =>
    some (err_code, { sensor with dataFormat := format }, w, calls)

/-! ## The string functions of the STM32 application (`xprintf.c`)

A `char *` that is read is modelled by the characters found from the pointer on,
up to the terminating NUL, which is left out: reading at the end of the list
reads the NUL, and advancing the pointer drops the first character.  Characters
are their codes.  The destination of `xputc` (the memory at `outptr` for
`xsprintf` and `xvsprintf`, the device of `xfunc_out` otherwise) is modelled by
the sequence of the characters put so far.  `int`, `unsigned int`, `long` and
`unsigned long` are the 32-bit types of the STM32 target.  `xprintf.h` is not
part of the sources: its switch `_CR_CRLF` is a parameter. -/

/-- Put a character; with `_CR_CRLF` a line feed is preceded by a carriage
return. -/
def xputc (CR_CRLF : Bool) (c : Nat) (out : List Nat) : List Nat :=
  let out := if CR_CRLF = true ∧ c = 10 then out ++ [13] else out
  out ++ [c]

/-- Put a null-terminated string. -/
def xputs (CR_CRLF : Bool) : List Nat → List Nat → List Nat
  | [], out => out
  | c :: str, out => if c = 0 then out else xputs CR_CRLF str (xputc CR_CRLF c out)

/-- An argument fetched by `va_arg`: a 32-bit word (`int`, `unsigned int`, `long`)
or a pointer to a string. -/
inductive VaArg where
  | word (v : Nat)
  | str (p : List Nat)

/-- The loop `for (w = 0; c >= '0' && c <= '9'; c = *fmt++) w = w * 10 + c - '0'`
of `xvprintf`, in `unsigned int`.  Returns `w`, `c` and `fmt` at the exit. -/
def xvprintf_width : Nat → Nat → List Nat → Nat × Nat × List Nat
  | w, c, [] =>
    if c ≥ 48 ∧ c ≤ 57 then ((w * 10 + c - 48) % 2 ^ 32, 0, []) else (w, c, [])
  | w, c, x :: fmt =>
    if c ≥ 48 ∧ c ≤ 57 then xvprintf_width ((w * 10 + c - 48) % 2 ^ 32) x fmt
    else (w, c, x :: fmt)

/-- The loop `do { d = (char)(v % r); v /= r; if (d > 9) d += (c == 'x') ? 0x27 :
0x07; s[i++] = d + '0'; } while (v && i < sizeof(s))` of `xvprintf`, `s` being
the characters stored so far (`i` their number) and `sizeof(s)` being 16.  The
first argument bounds the number of passes; 16 passes fill the array. -/
def xvprintf_digits (r c : Nat) : Nat → Nat → List Nat → List Nat
  | 0, _, s => s
  | fuel + 1, v, s =>
    let d := v % r % 256
    let v := v / r
    let d := if d > 9 then d + (if c = 120 then 0x27 else 0x07) else d
    let s := s ++ [d + 48]
    if v ≠ 0 ∧ s.length < 16 then xvprintf_digits r c fuel v s else s

/-- The loop `while (!(f & 2) && j++ < w) xputc(d)` of `xvprintf`, `j` being an
`unsigned int`.  Returns `j` and the output at the exit.  The first argument
bounds the number of passes; `w + 1` passes reach the exit. -/
def xvprintf_padLeft (CR_CRLF : Bool) (f d w : Nat) : Nat → Nat → List Nat → Nat × List Nat
  | 0, j, out => (j, out)
  | fuel + 1, j, out =>
    if f &&& 2 = 0 then
      if j < w then xvprintf_padLeft CR_CRLF f d w fuel ((j + 1) % 2 ^ 32) (xputc CR_CRLF d out)
      else ((j + 1) % 2 ^ 32, out)
    else (j, out)

/-- The loop `while (j++ < w) xputc(' ')` of `xvprintf`.  Returns the output at
the exit.  The first argument bounds the number of passes; `w + 1` passes reach
the exit. -/
def xvprintf_padRight (CR_CRLF : Bool) (w : Nat) : Nat → Nat → List Nat → List Nat
  | 0, _, out => out
  | fuel + 1, j, out =>
    if j < w then xvprintf_padRight CR_CRLF w fuel ((j + 1) % 2 ^ 32) (xputc CR_CRLF 32 out)
    else out

/-- The head of a conversion in `xvprintf`, from `f = 0; c = *fmt++` (the first
character after the `%`) to the size prefix: flag, minimum width, prefix.
Returns `f`, `w`, `c` and `fmt` as they are when the end of the format is
tested. -/
def xvprintf_spec (fmt : List Nat) : Nat × Nat × Nat × List Nat :=
  -- Get first char of the sequence
  let c := fmt.headD 0
  let fmt := fmt.tail
  -- Flags
  let f := if c = 48 then 1 else if c = 45 then 2 else 0
  let c1 := if c = 48 ∨ c = 45 then fmt.headD 0 else c
  let fmt1 := if c = 48 ∨ c = 45 then fmt.tail else fmt
  -- Minimum width
  let wcf := xvprintf_width 0 c1 fmt1
  let c := wcf.2.1
  let fmt := wcf.2.2
  -- Prefix: size is long int
  let f := if c = 108 ∨ c = 76 then f ||| 4 else f
  let c2 := if c = 108 ∨ c = 76 then fmt.headD 0 else c
  let fmt2 := if c = 108 ∨ c = 76 then fmt.tail else fmt
  (f, wcf.1, c2, fmt2)

/-- The string conversion of `xvprintf` on the argument `p`: the output after
it. -/
def xvprintf_string (CR_CRLF : Bool) (f w : Nat) (p : List Nat) (out : List Nat) : List Nat :=
  let j := (p.takeWhile (fun ch => decide (ch ≠ 0))).length
  let jo := xvprintf_padLeft CR_CRLF f 32 w (w + 1) j out
  let out := xputs CR_CRLF p jo.2
  xvprintf_padRight CR_CRLF w (w + 1) jo.1 out

/-- The numeric conversions of `xvprintf` (`d` is one of `'B'`, `'O'`, `'D'`,
`'U'`, `'X'`, `c` the type character as written) on the argument word `v`, from
the choice of the radix to the end of the pass: the output after it. -/
def xvprintf_number (CR_CRLF : Bool) (f w c d v : Nat) (out : List Nat) : List Nat :=
  let r := if d = 66 then 2 else if d = 79 then 8 else if d = 88 then 16 else 10
  -- Get an argument and put it in numeral
  let v := v % 2 ^ 32
  let neg := decide (d = 68 ∧ v &&& 0x80000000 ≠ 0)
  let v := if neg = true then (2 ^ 32 - v) % 2 ^ 32 else v
  let f := if neg = true then f ||| 8 else f
  let s := xvprintf_digits r c 16 v []
  let s := if f &&& 8 ≠ 0 then s ++ [45] else s
  let j := s.length
  let d := if f &&& 1 ≠ 0 then 48 else 32
  let jo := xvprintf_padLeft CR_CRLF f d w (w + 1) j out
  let out := s.reverse.foldl (fun out ch => xputc CR_CRLF ch out) jo.2
  xvprintf_padRight CR_CRLF w (w + 1) jo.1 out

/-- The loop `for (;;)` of `xvprintf`: formatted string output.  Returns the
output when the end of the format is reached; `none` when `va_arg` finds no
argument of the type it fetches, or when the passes allowed by the first
argument are used up (one more than the length of the format always
suffices, each pass consuming a character). -/
def xvprintf_loop (CR_CRLF : Bool) :
    Nat → List Nat → List VaArg → List Nat → Option (List Nat)
  | 0, _, _, _ => none
  | fuel + 1, fmt, arp, out =>
    -- Get a char
    let c := fmt.headD 0
    let fmt := fmt.tail
    if c = 0 then some out
    else if c ≠ 37 then xvprintf_loop CR_CRLF fuel fmt arp (xputc CR_CRLF c out)
    else
      let sp := xvprintf_spec fmt
      let f := sp.1
      let w := sp.2.1
      let c := sp.2.2.1
      let fmt := sp.2.2.2
      if c = 0 then some out
      else
        let d := if c ≥ 97 then c - 0x20 else c
        if d = 83 then
          -- String
          match arp with
          | VaArg.str p :: arp =>
            xvprintf_loop CR_CRLF fuel fmt arp (xvprintf_string CR_CRLF f w p out)
          | _ => none
        else if d = 67 then
          -- Character
          match arp with
          | VaArg.word v :: arp => xvprintf_loop CR_CRLF fuel fmt arp (xputc CR_CRLF (v % 256) out)
          | _ => none
        else if d = 66 ∨ d = 79 ∨ d = 68 ∨ d = 85 ∨ d = 88 then
          -- Binary, octal, signed decimal, unsigned decimal, hexadecimal
          match arp with
          | VaArg.word v :: arp =>
            xvprintf_loop CR_CRLF fuel fmt arp (xvprintf_number CR_CRLF f w c d v out)
          | _ => none
        else
          -- Unknown type (passthrough)
          xvprintf_loop CR_CRLF fuel fmt arp (xputc CR_CRLF c out)

/-- Formatted string output: the characters `xvprintf` puts. -/
def xvprintf (CR_CRLF : Bool) (fmt : List Nat) (arp : List VaArg) : Option (List Nat) :=
  xvprintf_loop CR_CRLF (fmt.length + 1) fmt arp []

/-- Put a formatted string to the memory: the characters stored from `buff` on,
the terminating NUL included. -/
def xvsprintf (CR_CRLF : Bool) (fmt : List Nat) (arp : List VaArg) : Option (List Nat) :=
  match xvprintf CR_CRLF fmt arp with
  | none => none
  | some out => some (out ++ [0])

/-- The loop `while (c > ' ')` of `xatoi` on the characters at `*str`, `c` being
the first of them, in `unsigned char` and `unsigned long`.  Returns 0 when the
loop is left by `return 0` and 1 when it ends, with `val` and `*str`. -/
def xatoi_loop (r : Nat) : List Nat → Nat → Nat × Nat × List Nat
  | [], val => (1, val, [])
  | c0 :: str, val =>
    if c0 > 32 then
      let c := if c0 ≥ 97 then c0 - 0x20 else c0
      let c := (c + 256 - 48) % 256
      if c ≥ 17 ∧ c - 7 ≤ 9 then (0, val, c0 :: str)
      else
        let c := if c ≥ 17 then c - 7 else c
        if c ≥ r then (0, val, c0 :: str)
        else xatoi_loop r str ((val * r + c) % 2 ^ 32)
    else (1, val, c0 :: str)

/-- The end of `xatoi`, from `val = 0` on, for the sign `s` and the radix `r`. -/
def xatoi_convert (s r : Nat) (str : List Nat) : Nat × List Nat × Int :=
  let l := xatoi_loop r str 0
  if l.1 = 0 then (0, l.2.2, 0)
  else
    -- apply sign if needed
    let val := if s ≠ 0 then (2 ^ 32 - l.2.1) % 2 ^ 32 else l.2.1
    (1, l.2.2, if val < 2 ^ 31 then (val : Int) else (val : Int) - 2 ^ 32)

/-- Get a value of the string.  Returns the result (0: failed, 1: successful),
`*str` and `*res` after the call. -/
def xatoi (str : List Nat) : Nat × List Nat × Int :=
  -- Skip leading spaces
  let str := str.dropWhile (fun ch => decide (ch = 32))
  let c := str.headD 0
  -- negative?
  let s := if c = 45 then 1 else 0
  let str := if c = 45 then str.tail else str
  let c := str.headD 0
  if c = 48 then
    let str := str.tail
    let c := str.headD 0
    if c = 120 then xatoi_convert s 16 str.tail
    else if c = 98 then xatoi_convert s 2 str.tail
    else if c ≤ 32 then (1, str, 0)
    else if c < 48 ∨ c > 57 then (0, str, 0)
    else xatoi_convert s 8 str
  else
    if c < 48 ∨ c > 57 then (0, str, 0)
    else xatoi_convert s 10 str

/-! ## The checksum (`crc_el.h`)

`CRC_computeCRC` is declared in `crc_el.h`, which is not part of the sources; in
the codec it is a parameter.  Where a statement depends on what the function
computes, it is taken to be a CRC-16, as its name says: a 16-bit shift register
with a generator polynomial, an initial value and a final xor. -/

/-- Modelled from the spec: one bit step of `CRC_computeCRC` (`crc_el.h`, not
among the sources; the spec calls it a pluggable 16-bit checksum whose
polynomial is not part of the contract, the code a CRC).  The shift register of
a CRC-16 with the generator `poly`, shifting out the least significant bit when
`reflected` and the most significant bit otherwise. -/
def crcBit (reflected : Bool) (poly crc : Nat) : Nat :=
  if reflected = true then
    if crc % 2 = 1 then (crc / 2) ^^^ poly else crc / 2
  else
    if crc / 2 ^ 15 % 2 = 1 then (2 * crc % 2 ^ 16) ^^^ poly else 2 * crc % 2 ^ 16

/-- Modelled from the spec: one byte step of `CRC_computeCRC` (`crc_el.h`, not
among the sources), the byte entering at the low end of the register when
`reflected` and at the high end otherwise, followed by eight bit steps. -/
def crcByte (reflected : Bool) (poly crc b : Nat) : Nat :=
  crcBit reflected poly (crcBit reflected poly (crcBit reflected poly (crcBit reflected poly
    (crcBit reflected poly (crcBit reflected poly (crcBit reflected poly (crcBit reflected poly
      (crc ^^^ (if reflected = true then b else b * 256)))))))))

/-- Modelled from the spec: `CRC_computeCRC` (`crc_el.h`, not among the sources)
as a CRC-16 of the bytes it is handed, for a bit order, a generator, an initial
value and a final xor. -/
def crc16 (reflected : Bool) (poly init xorout : Nat) (l : List Nat) : Nat :=
  l.foldl (crcByte reflected poly) init ^^^ xorout

/-- Modelled from the spec: the parameters of a CRC-16 are 16-bit values and the
generator has its constant term, which is the bit 15 of `poly` in the reflected
bit order and its bit 0 otherwise. -/
def IsCrc16 (reflected : Bool) (poly init xorout : Nat) : Prop :=
  poly < 2 ^ 16 ∧ init < 2 ^ 16 ∧ xorout < 2 ^ 16
    ∧ (if reflected = true then 2 ^ 15 ≤ poly else poly % 2 = 1)

instance (reflected : Bool) (poly init xorout : Nat) :
    Decidable (IsCrc16 reflected poly init xorout) := by
  unfold IsCrc16
  infer_instance

/-! ## Auxiliary definitions for the statements -/

/-- The receive buffer as the `j`-th poll of the wait loop sees it, when the
loop starts with the content `rx` at the tick reading of index `r`. -/
def pollBuffer (received : Nat → Buffer → Buffer) (r : Nat) (rx : Buffer) : Nat → Buffer
  | 0 => rx
  | j + 1 => received (r + j) (pollBuffer received r rx j)

/-- Ticks elapsed, in `uint32_t` arithmetic, between the reading of index
`hal.tickReads` (the one `el_uartWaitUntilReceived` starts with) and the reading
of index `k`. -/
def elapsedTicks (hal : Hal) (k : Nat) : Nat :=
  (hal.tick k % 2 ^ 32 + 2 ^ 32 - hal.tick hal.tickReads % 2 ^ 32) % 2 ^ 32

/-- The sensor as a query without data hands it to `EL_sendAndReceivePacket`: the
packet holds the command and the data length 0. -/
def plainRequest {W : Type} (cmd : Nat) (s : ELICHENS_Sensor_t W) : ELICHENS_Sensor_t W :=
  { s with packet := { s.packet with cmd := cmd, dataLength := 0 } }

/-- The sensor as a query on the sensor of index 0 hands it to
`EL_sendAndReceivePacket`: the packet holds the command, the data length 1 and
the index byte 0. -/
def indexedRequest {W : Type} (cmd : Nat) (s : ELICHENS_Sensor_t W) : ELICHENS_Sensor_t W :=
  { s with packet := { cmd := cmd, dataLength := 1, data := poke s.packet.data 0 0 } }

/-- The receive buffer as `el_uartReceive` clears it (`ELCOM_DATA_BUFFER_SIZE` zero
bytes), in which the first `k` bytes of `frame` have been stored since. -/
def receivedPrefix (rx frame : Buffer) (k : Nat) : Buffer :=
  memcpy (memset rx 0 0 ELCOM_DATA_BUFFER_SIZE) 0 frame 0 k

/-- Two results of `EL_sendAndReceivePacket` agree in what a caller observes of
the transaction: both calls do not return, or both return, with the same error
code, the same transport state and the same receive buffer, and, when the
response was decoded (the wait callback was invoked and the abort callback was
not), the same packet: command, data length and the 251 bytes of the data
array. -/
def SameOutcome {W : Type}
    (r1 r2 : Option (ELCOM_errorCode_t × ELICHENS_Sensor_t W × W × List Call)) : Prop :=
  match r1, r2 with
  | none, none => True
  | some (e1, t1, w1, c1), some (e2, t2, w2, c2) =>
    e1 = e2 ∧ w1 = w2 ∧ t1.bufferRx = t2.bufferRx ∧ c1.length = c2.length
    ∧ (Call.uartWaitUntilReceived ∈ c1 → Call.uartAbortReceive ∉ c1 →
        t1.packet.cmd = t2.packet.cmd ∧ t1.packet.dataLength = t2.packet.dataLength
        ∧ ∀ i, i < ELCOM_FIELD_DATA_MAX_SIZE → t1.packet.data i = t2.packet.data i)
  | _, _ => False

/-- The character of the digit `d` of a numeral: `'0'` to `'9'`, then `'a'` to
`'f'`. -/
def digitChar (d : Nat) : Nat :=
  if d > 9 then d + 0x57 else d + 0x30

/-- The complete digit string of `v` in radix `r`, most significant digit first;
`"0"` for 0. -/
def numeral (r v : Nat) : List Nat :=
  if v = 0 then [48] else ((Nat.digits r v).map digitChar).reverse

/-- The last `n` characters of a string, the whole string when it is shorter. -/
def lastChars (n : Nat) (s : List Nat) : List Nat :=
  s.drop (s.length - n)

/-- The minimum width `w` as it is written in a format: its decimal digits, none
for 0. -/
def widthField (w : Nat) : List Nat :=
  ((Nat.digits 10 w).map (fun d => d + 48)).reverse

/-- The format of one conversion: `%`, the flag (none, `0` or `-`), the minimum
width and the type character. -/
def directive (flag : List Nat) (w conv : Nat) : List Nat :=
  37 :: (flag ++ widthField w ++ [conv])

/-- The string `body` justified to at least `w` characters: on the left and
padded with spaces for the flag `-`, on the right otherwise, padded with `0` for
the flag `0` and with spaces without flag. -/
def justified (flag : List Nat) (w : Nat) (body : List Nat) : List Nat :=
  if flag = [45] then body ++ List.replicate (w - body.length) 32
  else List.replicate (w - body.length) (if flag = [48] then 48 else 32) ++ body

/-- The 32-bit word that holds the `int` `z`. -/
def wordOfInt (z : Int) : Nat :=
  (z % 2 ^ 32).toNat

/-- An application of one of the callbacks of a sensor, with the arguments the
callback was applied to; for `uartReceive` the memory of the buffer it is to
fill. -/
inductive Applied where
  | uartReceive (data : Buffer)
  | uartTransmit (data : Buffer) (size : Nat)
  | uartWaitUntilReceived
  | uartAbortReceive

/-- The sensor `s` on a transport that keeps a journal.  The state of the
transport is that of `s` with the journal; each callback runs the callback of
`s` and, when that returns, appends to the journal which callback it is and the
arguments it was applied to.  The journal is written by the callbacks themselves
at the moment they are applied, so the journal a run leaves is the sequence of
the applications the run made. -/
def journaled {W : Type} (s : ELICHENS_Sensor_t W) : ELICHENS_Sensor_t (W × List Applied) :=
  { dataFormat := s.dataFormat
    packet := s.packet
    bufferTx := s.bufferTx
    bufferRx := s.bufferRx
    uartTransmit := fun data size w rx =>
      match s.uartTransmit data size w.1 rx with
      | none => none
      | some (e, w1, rx1) => some (e, (w1, w.2 ++ [Applied.uartTransmit data size]), rx1)
    uartReceive := fun w rx =>
      match s.uartReceive w.1 rx with
      | none => none
      | some (e, w1, rx1) => some (e, (w1, w.2 ++ [Applied.uartReceive rx]), rx1)
    uartWaitUntilReceived := fun w rx =>
      match s.uartWaitUntilReceived w.1 rx with
      | none => none
      | some (e, w1, rx1) => some (e, (w1, w.2 ++ [Applied.uartWaitUntilReceived]), rx1)
    uartAbortReceive := fun w rx =>
      match s.uartAbortReceive w.1 rx with
      | none => none
      | some (w1, rx1) => some ((w1, w.2 ++ [Applied.uartAbortReceive]), rx1) }

/-- The callbacks of the sensor return, whatever they are applied to. -/
def Responsive {W : Type} (s : ELICHENS_Sensor_t W) : Prop :=
  (∀ w rx, (s.uartReceive w rx).isSome = true)
  ∧ (∀ data size w rx, (s.uartTransmit data size w rx).isSome = true)
  ∧ (∀ w rx, (s.uartWaitUntilReceived w rx).isSome = true)
  ∧ (∀ w rx, (s.uartAbortReceive w rx).isSome = true)

/-- What a run leaves behind when it returns: the packet and the two buffers of
the sensor, and the state of the transport. -/
def leftBy {W α : Type} (run : Option (ELCOM_errorCode_t × ELICHENS_Sensor_t W × W × α)) :
    Option (ELCOM_packet_t × Buffer × Buffer × W) :=
  run.map (fun x => (x.2.1.packet, x.2.1.bufferTx, x.2.1.bufferRx, x.2.2.1))

/-- The rational `q` is a binary floating-point number with `p` significant
bits: an integer of absolute value below `2 ^ p` times a power of 2. -/
def IsFloat (p : Nat) (q : ℚ) : Prop := ∃ m k : Int, |m| < 2 ^ p ∧ q = m * 2 ^ k

/-- The sensor as `ELCOM_getSysSn` hands it to `EL_sendAndReceivePacket`: the
packet holds the serial-number command and the data length 0. -/
def snRequest {W : Type} (s : ELICHENS_Sensor_t W) : ELICHENS_Sensor_t W :=
  { s with packet := { s.packet with cmd := ELCOM_CMD_GET_SEN_SN, dataLength := 0 } }

/-- One step of the loop of `ELCOM_getSysSn` on the byte `c`. -/
def snStep (sn c : Nat) : Nat :=
  if c ≥ 48 ∧ c ≤ 57 then (10 * sn % 2 ^ 32 + (c - 48)) % 2 ^ 32 else 10 * sn % 2 ^ 32

/-- The decimal value of a string of ASCII digits. -/
def decimalValue (digits : List Nat) : Nat :=
  digits.foldl (fun r c => 10 * r + (c - 48)) 0

/-- The serial number as the specification words it: `result = result * 10 +
digit` accumulated over the ASCII digit characters only, left to right, in
`uint32_t` arithmetic. -/
def digitsOnlyValue (bytes : List Nat) : Nat :=
  (bytes.filter (fun c => decide (c ≥ 48 ∧ c ≤ 57))).foldl
    (fun r c => (r * 10 + (c - 48)) % 2 ^ 32) 0

/-- Number of `HAL_UART_Abort_IT` calls in a log of HAL calls. -/
def abortCount (calls : List HalCall) : Nat :=
  calls.count HalCall.HAL_UART_Abort_IT


/-- The checksum the encoder stores for a packet: the checksum function applied
to header and data, narrowed to 16 bits. -/
def frameCrc (CRC_computeCRC : List Nat → Nat) (p : ELCOM_packet_t) : Nat :=
  CRC_computeCRC
    ([ELCOM_FIELD_START_OF_PACKET_VALUE, ELCOM_FIELD_VER_VALUE, p.cmd, p.dataLength]
      ++ (List.range p.dataLength).map p.data) % 65536

/-- The output packet as the decoder leaves it when a validation fails. -/
def clearedPacket (packetOut : ELCOM_packet_t) : ELCOM_packet_t :=
  { cmd := 0, dataLength := 0, data := memset packetOut.data 0 0 ELCOM_FIELD_DATA_MAX_SIZE }

/-- The output packet as the decoder leaves it when all validations pass. -/
def extractedPacket (dataBufferIn : Buffer) (packetOut : ELCOM_packet_t) : ELCOM_packet_t :=
  { cmd := dataBufferIn 2, dataLength := dataBufferIn 3,
    data := ELCOM_extractData dataBufferIn
      (memset packetOut.data 0 0 ELCOM_FIELD_DATA_MAX_SIZE) (dataBufferIn 3) }

/-! ## Sample inputs -/

/-- A byte-sum checksum, used to instantiate the checksum parameter. -/
def sumCrc : List Nat → Nat := List.sum

/-- Memory holding only zero bytes. -/
def zeroBuffer : Buffer := fun _ => 0

/-- A measurement request: command 0x21 with the single index byte 0. -/
def samplePacket : ELCOM_packet_t := { cmd := 0x21, dataLength := 1, data := zeroBuffer }

/-- An output packet holding stale content. -/
def stalePacket : ELCOM_packet_t := { cmd := 0x7, dataLength := 9, data := fun _ => 0xAA }

/-- The model-name request: command 0x10 without data. -/
def modelNameRequest : ELCOM_packet_t :=
  { cmd := ELCOM_CMD_GET_MODEL_NAME, dataLength := 0, data := zeroBuffer }

/-- A received buffer announcing 252 data bytes: valid start marker and version,
command 0x10, length byte 252, end marker at offset 258, zero bytes elsewhere. -/
def wrappedLengthBase : Buffer :=
  fun i => if i = 0 then 0x5B else if i = 1 then 0x01 else if i = 2 then 0x10
    else if i = 3 then 252 else if i = 258 then 0x5D else 0

/-- The buffer `wrappedLengthBase` with its checksum field (offsets 256 and 257)
filled: with the checksum of the bytes `[0, 256)` when the checksum of the empty
range differs from 0x015B, and with a different value otherwise. -/
def wrappedLengthBuffer (CRC_computeCRC : List Nat → Nat) : Buffer :=
  memcpy wrappedLengthBase 256
    (bytesOfU16
      (if CRC_computeCRC [] % 65536 = 0x015B then
        (CRC_computeCRC (bytesOf wrappedLengthBase 256) + 1) % 65536
      else CRC_computeCRC (bytesOf wrappedLengthBase 256) % 65536))
    0 2

/-- One bit step of a reflected CRC-16 with polynomial 0xA001. -/
def crc16Bit (crc : Nat) : Nat :=
  if crc % 2 = 1 then (crc / 2) ^^^ 0xA001 else crc / 2

/-- The CRC-16/USB checksum: reflected polynomial 0xA001, initial value 0xFFFF,
final complement. -/
def crc16Usb (l : List Nat) : Nat :=
  (l.foldl
    (fun crc b => crc16Bit (crc16Bit (crc16Bit (crc16Bit (crc16Bit (crc16Bit (crc16Bit
      (crc16Bit (crc ^^^ b)))))))))
    0xFFFF) ^^^ 0xFFFF

/-- A received buffer announcing 255 data bytes with the model-name command:
0x5B, 0x01, 0x10, 0xFF, then 0xB0 at offset 4, the end marker at offset 261 and
zero bytes elsewhere. -/
def oversizedModelName : Buffer :=
  fun i => if i = 0 then 0x5B else if i = 1 then 0x01 else if i = 2 then 0x10
    else if i = 3 then 255 else if i = 4 then 0xB0 else if i = 261 then 0x5D else 0

/-- A sensor on a transport without state whose callbacks all succeed and leave
the receive buffer as it is; its packet is the measurement request. -/
def unitSensor : ELICHENS_Sensor_t Unit :=
  { dataFormat := { decimalPoint := 0, unitCode := 0, resInt := 0, resExp := 0 }
    packet := samplePacket
    bufferTx := zeroBuffer
    bufferRx := zeroBuffer
    uartTransmit := fun _ _ w rx => some (ELCOM_NO_ERROR, w, rx)
    uartReceive := fun w rx => some (ELCOM_NO_ERROR, w, rx)
    uartWaitUntilReceived := fun w rx => some (ELCOM_NO_ERROR, w, rx)
    uartAbortReceive := fun w rx => some (w, rx) }

/-- The frame of a serial-number response carrying the bytes `text`, under the
byte-sum checksum. -/
def snResponse (text : List Nat) : Buffer :=
  (ELCOM_prepareSendPacket sumCrc
    { cmd := ELCOM_CMD_GET_SEN_SN, dataLength := text.length, data := fun i => text.getD i 0 }
    zeroBuffer).2

/-- A sensor on a transport without state whose callbacks succeed and whose wait
callback leaves `frame` in the receive buffer. -/
def respondingSensor (frame : Buffer) : ELICHENS_Sensor_t Unit :=
  { unitSensor with uartWaitUntilReceived := fun w _ => some (ELCOM_NO_ERROR, w, frame) }

/-- The frame of a measurement response under the byte-sum checksum: index byte
0, the status and error bytes, and the four bytes of the raw value, low byte
first. -/
def measurementFrame (status error b0 b1 b2 b3 : Nat) : Buffer :=
  (ELCOM_prepareSendPacket sumCrc
    { cmd := ELCOM_CMD_GET_SEN_DATA, dataLength := 7,
      data := fun i => [0, status, error, b0, b1, b2, b3].getD i 0 }
    zeroBuffer).2

/-- The frame of a response carrying the command `cmd` and the bytes `text`,
under the byte-sum checksum. -/
def textResponse (cmd : Nat) (text : List Nat) : Buffer :=
  (ELCOM_prepareSendPacket sumCrc
    { cmd := cmd, dataLength := text.length, data := fun i => text.getD i 0 }
    zeroBuffer).2

/-- Destination memory holding stale content. -/
def staleText : Buffer := fun _ => 0x58

/-- Sensor data holding stale content. -/
def staleData : ELICHENS_SensorData_t := { status := 0x11, error := 0x22, value := 333 }

/-- A sensor on a transport without state whose start-receive callback answers
`ELCOM_SLAVE_TIMEOUT`. -/
def failingSensor : ELICHENS_Sensor_t Unit :=
  { unitSensor with uartReceive := fun w rx => some (ELCOM_SLAVE_TIMEOUT, w, rx) }

/-- A HAL whose UART calls succeed, whose tick counter advances by 100 between
two readings and on which nothing is received. -/
def quietHal : Hal :=
  { tick := fun k => 100 * k
    tickReads := 0
    received := fun _ rx => rx
    transmitStatus := HAL_OK
    receiveStatus := HAL_OK
    uartCalls := [] }

/-- The frame of a measurement response: command 0x21, seven data bytes (index,
status, error and the raw value 12350), under the byte-sum checksum. -/
def measurementResponse : Buffer :=
  (ELCOM_prepareSendPacket sumCrc
    { cmd := 0x21, dataLength := 7,
      data := fun i => if i = 3 then 0x3E else if i = 4 then 0x30 else 0 }
    zeroBuffer).2

/-- A HAL whose UART calls succeed, whose tick counter advances by 100 between
two readings and on which the measurement response has arrived by the second
poll. -/
def answeringHal : Hal :=
  { tick := fun k => 100 * k
    tickReads := 0
    received := fun k rx => if k = 2 then measurementResponse else rx
    transmitStatus := HAL_OK
    receiveStatus := HAL_OK
    uartCalls := [] }

/-- A serial-number response without data: command 0x13 and data length 0. -/
def emptyReply : ELCOM_packet_t := { cmd := 0x13, dataLength := 0, data := zeroBuffer }

/-- A HAL whose UART calls succeed, whose tick counter advances by 100 between
two readings and on which the 7 bytes of the frame of `emptyReply` have arrived
by the second poll. -/
def emptyAnswerHal : Hal :=
  { tick := fun k => 100 * k
    tickReads := 0
    received := fun k rx =>
      if k = 2 then memcpy rx 0 (ELCOM_prepareSendPacket sumCrc emptyReply zeroBuffer).2 0 7
      else rx
    transmitStatus := HAL_OK
    receiveStatus := HAL_OK
    uartCalls := [] }

/-- A sensor on a transport without state whose callbacks succeed and whose wait
callback leaves the measurement response (command 0x21) in the receive buffer,
about to send the model-name request (command 0x10). -/
def mismatchedSensor : ELICHENS_Sensor_t Unit :=
  { respondingSensor measurementResponse with packet := modelNameRequest }

/-! ## Elementary facts about the memory operations -/

theorem bytesOf_congr (b c : Buffer) (n : Nat) (h : ∀ i, i < n → b i = c i) :
    bytesOf b n = bytesOf c n := by
  unfold bytesOf
  apply List.map_congr_left
  intro i hi
  exact h i (List.mem_range.mp hi)

theorem bytesOf_header_data (b : Buffer) (n : Nat) :
    bytesOf b (4 + n) = [b 0, b 1, b 2, b 3] ++ (List.range n).map (fun i => b (4 + i)) := by
  unfold bytesOf
  rw [List.range_add, List.map_append, List.map_map]
  rfl

theorem u16OfBytes_bytesOfU16 (b : Buffer) (k v : Nat) (hv : v < 65536)
    (h0 : b k = bytesOfU16 v 0) (h1 : b (k + 1) = bytesOfU16 v 1) : u16OfBytes b k = v := by
  unfold u16OfBytes
  rw [h0, h1]
  simp only [bytesOfU16]
  simp
  omega

/-! ## The frame written by `ELCOM_prepareSendPacket` -/

/-- The memory left at `dataBufferOut` by the encoder, as the chain of its stores. -/
theorem prepare_snd (crc : List Nat → Nat) (p : ELCOM_packet_t) (buf : Buffer) :
    (ELCOM_prepareSendPacket crc p buf).2 =
      poke
        (memcpy
          (memcpy (poke (poke (poke (poke (memset buf 0 0 255) 0 0x5B) 1 0x01) 2 p.cmd) 3
            p.dataLength) 4 p.data 0 p.dataLength)
          (4 + p.dataLength)
          (bytesOfU16
            (crc (bytesOf
              (memcpy (poke (poke (poke (poke (memset buf 0 0 255) 0 0x5B) 1 0x01) 2 p.cmd) 3
                p.dataLength) 4 p.data 0 p.dataLength) (4 + p.dataLength)) % 65536))
          0 2)
        (4 + p.dataLength + 2) 0x5D := rfl

theorem prepare_fst (crc : List Nat → Nat) (p : ELCOM_packet_t) (buf : Buffer) :
    (ELCOM_prepareSendPacket crc p buf).1 = (p.dataLength + 7) % 256 := by
  show (0 + 1 + 1 + 1 + 1 + p.dataLength + 2 + 1) % 256 = _
  congr 1
  omega

theorem prepare_at_header (crc : List Nat → Nat) (p : ELCOM_packet_t) (buf : Buffer)
    (i : Nat) (hi : i < 4) :
    (ELCOM_prepareSendPacket crc p buf).2 i =
      poke (poke (poke (poke (memset buf 0 0 255) 0 0x5B) 1 0x01) 2 p.cmd) 3 p.dataLength i := by
  have h1 : ¬ (i = 4 + p.dataLength + 2) := by omega
  have h2 : ¬ (4 + p.dataLength ≤ i ∧ i < 4 + p.dataLength + 2) := by omega
  have h3 : ¬ (4 ≤ i ∧ i < 4 + p.dataLength) := by omega
  rw [prepare_snd]
  simp only [poke, memcpy, h1, h2, h3, if_false]

theorem prepare_at_0 (crc : List Nat → Nat) (p : ELCOM_packet_t) (buf : Buffer) :
    (ELCOM_prepareSendPacket crc p buf).2 0 = 0x5B := by
  rw [prepare_at_header crc p buf 0 (by decide)]
  simp [poke]

theorem prepare_at_1 (crc : List Nat → Nat) (p : ELCOM_packet_t) (buf : Buffer) :
    (ELCOM_prepareSendPacket crc p buf).2 1 = 0x01 := by
  rw [prepare_at_header crc p buf 1 (by decide)]
  simp [poke]

theorem prepare_at_2 (crc : List Nat → Nat) (p : ELCOM_packet_t) (buf : Buffer) :
    (ELCOM_prepareSendPacket crc p buf).2 2 = p.cmd := by
  rw [prepare_at_header crc p buf 2 (by decide)]
  simp [poke]

theorem prepare_at_3 (crc : List Nat → Nat) (p : ELCOM_packet_t) (buf : Buffer) :
    (ELCOM_prepareSendPacket crc p buf).2 3 = p.dataLength := by
  rw [prepare_at_header crc p buf 3 (by decide)]
  simp [poke]

theorem prepare_at_data (crc : List Nat → Nat) (p : ELCOM_packet_t) (buf : Buffer)
    (i : Nat) (hi : i < p.dataLength) :
    (ELCOM_prepareSendPacket crc p buf).2 (4 + i) = p.data i := by
  have h1 : ¬ (4 + i = 4 + p.dataLength + 2) := by omega
  have h2 : ¬ (4 + p.dataLength ≤ 4 + i ∧ 4 + i < 4 + p.dataLength + 2) := by omega
  have h3 : (4 ≤ 4 + i ∧ 4 + i < 4 + p.dataLength) := by omega
  simp only [prepare_snd, poke, memcpy, h1, h2, h3, if_true, if_false, and_self]
  congr 1
  omega

theorem prepare_bytes (crc : List Nat → Nat) (p : ELCOM_packet_t) (buf : Buffer) :
    bytesOf (ELCOM_prepareSendPacket crc p buf).2 (4 + p.dataLength) =
      [0x5B, 0x01, p.cmd, p.dataLength] ++ (List.range p.dataLength).map p.data := by
  rw [bytesOf_header_data, prepare_at_0, prepare_at_1, prepare_at_2, prepare_at_3]
  congr 1
  apply List.map_congr_left
  intro i hi
  exact prepare_at_data crc p buf i (List.mem_range.mp hi)

theorem prepare_crc_arg (crc : List Nat → Nat) (p : ELCOM_packet_t) (buf : Buffer) :
    crc (bytesOf
        (memcpy (poke (poke (poke (poke (memset buf 0 0 255) 0 0x5B) 1 0x01) 2 p.cmd) 3
          p.dataLength) 4 p.data 0 p.dataLength) (4 + p.dataLength)) % 65536
      = frameCrc crc p := by
  unfold frameCrc
  rw [← prepare_bytes crc p buf]
  congr 2
  apply bytesOf_congr
  intro i hi
  have h1 : ¬ (i = 4 + p.dataLength + 2) := by omega
  have h2 : ¬ (4 + p.dataLength ≤ i ∧ i < 4 + p.dataLength + 2) := by omega
  rw [prepare_snd]
  simp only [poke, h1, if_false]
  simp only [memcpy, h2, if_false]

theorem prepare_at_crc_lo (crc : List Nat → Nat) (p : ELCOM_packet_t) (buf : Buffer) :
    (ELCOM_prepareSendPacket crc p buf).2 (4 + p.dataLength) = frameCrc crc p % 256 := by
  have h1 : ¬ (4 + p.dataLength = 4 + p.dataLength + 2) := by omega
  have h2 : (4 + p.dataLength ≤ 4 + p.dataLength ∧ 4 + p.dataLength < 4 + p.dataLength + 2) := by
    omega
  rw [prepare_snd, prepare_crc_arg]
  simp only [poke, h1, if_false]
  simp only [memcpy, h2, if_true]
  simp [bytesOfU16]

theorem prepare_at_crc_hi (crc : List Nat → Nat) (p : ELCOM_packet_t) (buf : Buffer) :
    (ELCOM_prepareSendPacket crc p buf).2 (4 + p.dataLength + 1) = frameCrc crc p / 256 % 256 := by
  have h1 : ¬ (4 + p.dataLength + 1 = 4 + p.dataLength + 2) := by omega
  have h2 : (4 + p.dataLength ≤ 4 + p.dataLength + 1
      ∧ 4 + p.dataLength + 1 < 4 + p.dataLength + 2) := by omega
  have h3 : 0 + (4 + p.dataLength + 1 - (4 + p.dataLength)) = 1 := by omega
  rw [prepare_snd, prepare_crc_arg]
  simp only [poke, h1, if_false]
  simp only [memcpy, h2, if_true, h3]
  simp [bytesOfU16]

theorem prepare_at_eop (crc : List Nat → Nat) (p : ELCOM_packet_t) (buf : Buffer) :
    (ELCOM_prepareSendPacket crc p buf).2 (4 + p.dataLength + 2) = 0x5D := by
  rw [prepare_snd]
  simp [poke]

theorem frameCrc_lt (crc : List Nat → Nat) (p : ELCOM_packet_t) : frameCrc crc p < 65536 := by
  unfold frameCrc
  exact Nat.mod_lt _ (by decide)


/-! ## The decoder as a decision list -/

theorem validateHeader_eq (b : Buffer) :
    ELCOM_validateHeader b =
      if b 0 ≠ 0x5B ∨ b 1 ≠ 0x01 then ELCOM_INVALID_SOP else ELCOM_NO_ERROR := by
  unfold ELCOM_validateHeader
  by_cases h : b 0 ≠ 0x5B ∨ b 1 ≠ 0x01
  · simp only [h, if_true]
  · have h1 : ¬ (b 1 ≠ 0x01) := fun h1 => h (Or.inr h1)
    simp only [h, h1, if_false]

theorem validateEOP_eq (b : Buffer) :
    ELCOM_validateEOP b = if b (b 3 + 6) ≠ 0x5D then ELCOM_INVALID_EOP else ELCOM_NO_ERROR := rfl

theorem validateCheksum_eq (crc : List Nat → Nat) (b : Buffer) :
    ELCOM_validateCheksum crc b =
      if u16OfBytes b ((4 + b 3) % 256) ≠ crc (bytesOf b ((4 + b 3) % 256)) % 65536 then
        ELCOM_INVALID_CRC
      else ELCOM_NO_ERROR := rfl

theorem parse_eq (crc : List Nat → Nat) (b : Buffer) (pkt : ELCOM_packet_t) :
    ELCOM_parseReceivedPacket crc b pkt =
      if b 0 ≠ 0x5B ∨ b 1 ≠ 0x01 then (ELCOM_INVALID_SOP, clearedPacket pkt)
      else if b (b 3 + 6) ≠ 0x5D then (ELCOM_INVALID_EOP, clearedPacket pkt)
      else if u16OfBytes b ((4 + b 3) % 256) ≠ crc (bytesOf b ((4 + b 3) % 256)) % 65536 then
        (ELCOM_INVALID_CRC, clearedPacket pkt)
      else if 0x40 = b 2 then (ELCOM_SLAVE_ERROR, extractedPacket b pkt)
      else (ELCOM_NO_ERROR, extractedPacket b pkt) := by
  unfold ELCOM_parseReceivedPacket
  simp only [validateHeader_eq, validateEOP_eq, validateCheksum_eq]
  by_cases h1 : b 0 = 0x5B
  · by_cases h2 : b 1 = 0x01
    · by_cases h3 : b (b 3 + 6) = 0x5D
      · by_cases h4 : u16OfBytes b ((4 + b 3) % 256) = crc (bytesOf b ((4 + b 3) % 256)) % 65536
        · simp [h1, h2, h3, h4, extractedPacket, ELCOM_extractDataLength, ELCOM_extractCommand]
        · simp [h1, h2, h3, h4, clearedPacket]
      · simp [h1, h2, h3, clearedPacket]
    · simp [h1, h2, clearedPacket]
  · simp [h1, clearedPacket]


/-- Decoding a buffer that carries a well-formed header, length `n ≤ 251`, the
two bytes of `c` in the checksum field and the end marker: only the checksum
comparison and the command remain to be decided. -/
theorem parse_of_framed (crc : List Nat → Nat) (b : Buffer) (pkt : ELCOM_packet_t) (n c : Nat)
    (h0 : b 0 = 0x5B) (h1 : b 1 = 0x01) (h3 : b 3 = n) (hn : n ≤ 251)
    (hlo : b (4 + n) = c % 256) (hhi : b (4 + n + 1) = c / 256 % 256) (hc : c < 65536)
    (he : b (4 + n + 2) = 0x5D) :
    ELCOM_parseReceivedPacket crc b pkt =
      if c ≠ crc (bytesOf b (4 + n)) % 65536 then (ELCOM_INVALID_CRC, clearedPacket pkt)
      else if 0x40 = b 2 then (ELCOM_SLAVE_ERROR, extractedPacket b pkt)
      else (ELCOM_NO_ERROR, extractedPacket b pkt) := by
  have hmod : (4 + n) % 256 = 4 + n := Nat.mod_eq_of_lt (by omega)
  have he' : b (n + 6) = 0x5D := by
    have : n + 6 = 4 + n + 2 := by omega
    rw [this]; exact he
  have hu : u16OfBytes b (4 + n) = c := by
    unfold u16OfBytes
    rw [hlo, hhi]
    omega
  rw [parse_eq, h3, hmod, hu]
  simp [h0, h1, he']

theorem prepare_crc_bytes (crc : List Nat → Nat) (p : ELCOM_packet_t) (buf : Buffer) :
    crc (bytesOf (ELCOM_prepareSendPacket crc p buf).2 (4 + p.dataLength)) % 65536
      = frameCrc crc p := by
  rw [prepare_bytes]
  rfl

/-- Decoding the frame of a packet with at most 251 data bytes passes the three
validations. -/
theorem parse_prepare (crc : List Nat → Nat) (p : ELCOM_packet_t) (buf : Buffer)
    (pkt : ELCOM_packet_t) (hn : p.dataLength ≤ 251) :
    ELCOM_parseReceivedPacket crc (ELCOM_prepareSendPacket crc p buf).2 pkt =
      if 0x40 = p.cmd then
        (ELCOM_SLAVE_ERROR, extractedPacket (ELCOM_prepareSendPacket crc p buf).2 pkt)
      else (ELCOM_NO_ERROR, extractedPacket (ELCOM_prepareSendPacket crc p buf).2 pkt) := by
  rw [parse_of_framed crc _ pkt p.dataLength (frameCrc crc p) (prepare_at_0 crc p buf)
    (prepare_at_1 crc p buf) (prepare_at_3 crc p buf) hn (prepare_at_crc_lo crc p buf)
    (prepare_at_crc_hi crc p buf) (frameCrc_lt crc p) (prepare_at_eop crc p buf)]
  rw [prepare_crc_bytes, prepare_at_2]
  simp

theorem extractedPacket_data (b : Buffer) (pkt : ELCOM_packet_t) (i : Nat)
    (hn : b 3 ≤ 251) (hi : i < b 3) : (extractedPacket b pkt).data i = b (4 + i) := by
  have h1 : ¬ (b 3 > ELCOM_FIELD_DATA_MAX_SIZE) := by
    show ¬ (b 3 > 251)
    omega
  have h2 : 0 ≤ i ∧ i < 0 + b 3 := by omega
  simp only [extractedPacket, ELCOM_extractData, h1, if_false, memcpy, h2, if_true]
  congr 1

/-! ## Round trip and frame layout -/

/-- C1: round trip. For every checksum function and every packet `p` with
`dataLength ≤ 251`, decoding the buffer written by `ELCOM_prepareSendPacket`
yields a packet with the command of `p`, the data length of `p` and the first
`dataLength` data bytes of `p`. -/
theorem prepare_parse_roundtrip (crc : List Nat → Nat) (p : ELCOM_packet_t) (buf : Buffer)
    (pkt : ELCOM_packet_t) (hn : p.dataLength ≤ ELCOM_FIELD_DATA_MAX_SIZE) :
    (ELCOM_parseReceivedPacket crc (ELCOM_prepareSendPacket crc p buf).2 pkt).2.cmd = p.cmd
    ∧ (ELCOM_parseReceivedPacket crc (ELCOM_prepareSendPacket crc p buf).2 pkt).2.dataLength
        = p.dataLength
    ∧ ∀ i, i < p.dataLength →
        (ELCOM_parseReceivedPacket crc (ELCOM_prepareSendPacket crc p buf).2 pkt).2.data i
          = p.data i := by
  have hn' : p.dataLength ≤ 251 := hn
  have hq : (ELCOM_parseReceivedPacket crc (ELCOM_prepareSendPacket crc p buf).2 pkt).2
      = extractedPacket (ELCOM_prepareSendPacket crc p buf).2 pkt := by
    rw [parse_prepare crc p buf pkt hn']
    split <;> rfl
  rw [hq]
  refine ⟨prepare_at_2 crc p buf, prepare_at_3 crc p buf, ?_⟩
  intro i hi
  have h3 := prepare_at_3 crc p buf
  rw [extractedPacket_data _ pkt i (by omega) (by omega)]
  exact prepare_at_data crc p buf i hi

/-- Witness of C1 on the measurement request, with the byte-sum checksum. -/
theorem prepare_parse_roundtrip_witness :
    samplePacket.dataLength ≤ ELCOM_FIELD_DATA_MAX_SIZE
    ∧ (ELCOM_parseReceivedPacket sumCrc
        (ELCOM_prepareSendPacket sumCrc samplePacket zeroBuffer).2 stalePacket).2.cmd = 0x21
    ∧ (ELCOM_parseReceivedPacket sumCrc
        (ELCOM_prepareSendPacket sumCrc samplePacket zeroBuffer).2 stalePacket).2.dataLength = 1
    ∧ ∀ i, i < 1 →
        (ELCOM_parseReceivedPacket sumCrc
          (ELCOM_prepareSendPacket sumCrc samplePacket zeroBuffer).2 stalePacket).2.data i = 0 :=
  ⟨by decide, prepare_parse_roundtrip sumCrc samplePacket zeroBuffer stalePacket (by decide)⟩

/-- C2: for every checksum function and every packet `p` with `dataLength ≤ 251`,
the frame produced by `ELCOM_prepareSendPacket` validates under
`ELCOM_parseReceivedPacket`: the result is none of `ELCOM_INVALID_SOP`,
`ELCOM_INVALID_EOP`, `ELCOM_INVALID_CRC`; it is `ELCOM_NO_ERROR` when the command
is not 0x40 and `ELCOM_SLAVE_ERROR` when it is. -/
theorem prepare_frame_validates (crc : List Nat → Nat) (p : ELCOM_packet_t) (buf : Buffer)
    (pkt : ELCOM_packet_t) (hn : p.dataLength ≤ ELCOM_FIELD_DATA_MAX_SIZE) :
    ((ELCOM_parseReceivedPacket crc (ELCOM_prepareSendPacket crc p buf).2 pkt).1
        ≠ ELCOM_INVALID_SOP
      ∧ (ELCOM_parseReceivedPacket crc (ELCOM_prepareSendPacket crc p buf).2 pkt).1
        ≠ ELCOM_INVALID_EOP
      ∧ (ELCOM_parseReceivedPacket crc (ELCOM_prepareSendPacket crc p buf).2 pkt).1
        ≠ ELCOM_INVALID_CRC)
    ∧ (p.cmd ≠ ELCOM_CMD_ERROR_SLAVE →
        (ELCOM_parseReceivedPacket crc (ELCOM_prepareSendPacket crc p buf).2 pkt).1
          = ELCOM_NO_ERROR)
    ∧ (p.cmd = ELCOM_CMD_ERROR_SLAVE →
        (ELCOM_parseReceivedPacket crc (ELCOM_prepareSendPacket crc p buf).2 pkt).1
          = ELCOM_SLAVE_ERROR) := by
  have hn' : p.dataLength ≤ 251 := hn
  by_cases hc : 0x40 = p.cmd
  · have hr : (ELCOM_parseReceivedPacket crc (ELCOM_prepareSendPacket crc p buf).2 pkt).1
        = ELCOM_SLAVE_ERROR := by
      rw [parse_prepare crc p buf pkt hn', if_pos hc]
    rw [hr]
    exact ⟨⟨by decide, by decide, by decide⟩, fun h => absurd hc.symm h, fun _ => rfl⟩
  · have hr : (ELCOM_parseReceivedPacket crc (ELCOM_prepareSendPacket crc p buf).2 pkt).1
        = ELCOM_NO_ERROR := by
      rw [parse_prepare crc p buf pkt hn', if_neg hc]
    rw [hr]
    exact ⟨⟨by decide, by decide, by decide⟩, fun _ => rfl, fun h => absurd h.symm hc⟩

/-- Witness of C2 on the measurement request, with the byte-sum checksum. -/
theorem prepare_frame_validates_witness :
    samplePacket.dataLength ≤ ELCOM_FIELD_DATA_MAX_SIZE
    ∧ (ELCOM_parseReceivedPacket sumCrc
        (ELCOM_prepareSendPacket sumCrc samplePacket zeroBuffer).2 stalePacket).1
        = ELCOM_NO_ERROR :=
  ⟨by decide,
    (prepare_frame_validates sumCrc samplePacket zeroBuffer stalePacket (by decide)).2.1
      (by decide)⟩


/-- C3: frame layout. For every packet `p` with `dataLength = n ≤ 251` the output
buffer holds 0x5B, 0x01, the command and `n` at offsets 0 to 3, the data bytes
from offset 4, the low and high byte of the checksum of the bytes `[0, 4 + n)` at
offsets `4 + n` and `5 + n`, and 0x5D at offset `6 + n`; the model-name request
(command 0x10, no data) gives the 7-byte frame
`[0x5B, 0x01, 0x10, 0x00, crcLow, crcHigh, 0x5D]` with the checksum taken over
the first four bytes. -/
theorem prepare_frame_layout (crc : List Nat → Nat) (p : ELCOM_packet_t) (buf : Buffer)
    (hn : p.dataLength ≤ ELCOM_FIELD_DATA_MAX_SIZE) :
    ((ELCOM_prepareSendPacket crc p buf).2 0 = 0x5B
      ∧ (ELCOM_prepareSendPacket crc p buf).2 1 = 0x01
      ∧ (ELCOM_prepareSendPacket crc p buf).2 2 = p.cmd
      ∧ (ELCOM_prepareSendPacket crc p buf).2 3 = p.dataLength
      ∧ (∀ i, i < p.dataLength → (ELCOM_prepareSendPacket crc p buf).2 (4 + i) = p.data i)
      ∧ (ELCOM_prepareSendPacket crc p buf).2 (4 + p.dataLength)
          = crc (bytesOf (ELCOM_prepareSendPacket crc p buf).2 (4 + p.dataLength)) % 65536 % 256
      ∧ (ELCOM_prepareSendPacket crc p buf).2 (5 + p.dataLength)
          = crc (bytesOf (ELCOM_prepareSendPacket crc p buf).2 (4 + p.dataLength)) % 65536 / 256
      ∧ (ELCOM_prepareSendPacket crc p buf).2 (6 + p.dataLength) = 0x5D)
    ∧ (p.cmd = ELCOM_CMD_GET_MODEL_NAME → p.dataLength = 0 →
        bytesOf (ELCOM_prepareSendPacket crc p buf).2 7
          = [0x5B, 0x01, 0x10, 0x00, crc [0x5B, 0x01, 0x10, 0x00] % 65536 % 256,
              crc [0x5B, 0x01, 0x10, 0x00] % 65536 / 256, 0x5D]) := by
  have hn' : p.dataLength ≤ 251 := hn
  have hlt := frameCrc_lt crc p
  have h5 : 5 + p.dataLength = 4 + p.dataLength + 1 := by omega
  have h6 : 6 + p.dataLength = 4 + p.dataLength + 2 := by omega
  have hhi : (ELCOM_prepareSendPacket crc p buf).2 (5 + p.dataLength)
      = frameCrc crc p / 256 := by
    rw [h5, prepare_at_crc_hi]
    exact Nat.mod_eq_of_lt (by omega)
  have heop : (ELCOM_prepareSendPacket crc p buf).2 (6 + p.dataLength) = 0x5D := by
    rw [h6, prepare_at_eop]
  refine ⟨⟨prepare_at_0 crc p buf, prepare_at_1 crc p buf, prepare_at_2 crc p buf,
    prepare_at_3 crc p buf, prepare_at_data crc p buf, ?_, ?_, heop⟩, ?_⟩
  · rw [prepare_crc_bytes, prepare_at_crc_lo]
  · rw [prepare_crc_bytes, hhi]
  · intro hcmd hlen
    have hfc : frameCrc crc p = crc [0x5B, 0x01, 0x10, 0x00] % 65536 := by
      unfold frameCrc
      rw [hcmd, hlen]
      rfl
    have hlo := prepare_at_crc_lo crc p buf
    rw [hlen] at hlo hhi heop
    rw [hfc] at hlo hhi
    have h0 := prepare_at_0 crc p buf
    have h1 := prepare_at_1 crc p buf
    have h2 := prepare_at_2 crc p buf
    have h3 := prepare_at_3 crc p buf
    rw [hcmd] at h2
    rw [hlen] at h3
    show [_, _, _, _, _, _, _] = _
    rw [h0, h1, h2, h3, hlo, hhi, heop]

/-- Witness of C3: the model-name request under the byte-sum checksum. -/
theorem prepare_frame_layout_witness :
    modelNameRequest.dataLength ≤ ELCOM_FIELD_DATA_MAX_SIZE
    ∧ bytesOf (ELCOM_prepareSendPacket sumCrc modelNameRequest zeroBuffer).2 7
        = [0x5B, 0x01, 0x10, 0x00, 0x6C, 0x00, 0x5D] :=
  ⟨by decide,
    (prepare_frame_layout sumCrc modelNameRequest zeroBuffer (by decide)).2 rfl rfl⟩

/-- C4, evaluated at a packet with 249 data bytes: the frame occupies the offsets
0 to 255 (end marker at offset 255, so 256 bytes are written), while the
`uint8_t` result of `ELCOM_prepareSendPacket` is 0 and not 256. -/
theorem prepare_size_wraps (crc : List Nat → Nat) (cmd : Nat) (data buf : Buffer) :
    (ELCOM_prepareSendPacket crc { cmd := cmd, dataLength := 249, data := data } buf).1 = 0
    ∧ (ELCOM_prepareSendPacket crc { cmd := cmd, dataLength := 249, data := data } buf).2 255
        = 0x5D := by
  constructor
  · exact (prepare_fst crc { cmd := cmd, dataLength := 249, data := data } buf).trans
      (show (249 + 7) % 256 = 0 by decide)
  · exact prepare_at_eop crc { cmd := cmd, dataLength := 249, data := data } buf

/-- C5, evaluated at a packet whose `dataLength` is 252: `ELCOM_prepareSendPacket`
performs no check and writes a complete frame, header at offsets 0 to 3, 252
bytes copied from the packet's data memory and the end marker at offset 258,
and returns the narrowed size 3. -/
theorem prepare_encodes_oversized (crc : List Nat → Nat) (cmd : Nat) (data buf : Buffer) :
    (ELCOM_prepareSendPacket crc { cmd := cmd, dataLength := 252, data := data } buf).2 0 = 0x5B
    ∧ (ELCOM_prepareSendPacket crc { cmd := cmd, dataLength := 252, data := data } buf).2 1 = 0x01
    ∧ (ELCOM_prepareSendPacket crc { cmd := cmd, dataLength := 252, data := data } buf).2 2 = cmd
    ∧ (ELCOM_prepareSendPacket crc { cmd := cmd, dataLength := 252, data := data } buf).2 3 = 252
    ∧ (∀ i, i < 252 →
        (ELCOM_prepareSendPacket crc { cmd := cmd, dataLength := 252, data := data } buf).2 (4 + i)
          = data i)
    ∧ (ELCOM_prepareSendPacket crc { cmd := cmd, dataLength := 252, data := data } buf).2 258
        = 0x5D
    ∧ (ELCOM_prepareSendPacket crc { cmd := cmd, dataLength := 252, data := data } buf).1 = 3 := by
  exact ⟨prepare_at_0 crc _ buf, prepare_at_1 crc _ buf, prepare_at_2 crc _ buf,
    prepare_at_3 crc _ buf,
    prepare_at_data crc { cmd := cmd, dataLength := 252, data := data } buf,
    prepare_at_eop crc { cmd := cmd, dataLength := 252, data := data } buf,
    (prepare_fst crc { cmd := cmd, dataLength := 252, data := data } buf).trans
      (show (252 + 7) % 256 = 3 by decide)⟩

/-! ## Validation order of the decoder -/

/-- C6: for every input buffer whose byte 0 differs from 0x5B or whose byte 1
differs from 0x01, `ELCOM_parseReceivedPacket` returns `ELCOM_INVALID_SOP`,
whatever the length byte, the end marker and the checksum bytes are. -/
theorem parse_invalid_header (crc : List Nat → Nat) (b : Buffer) (pkt : ELCOM_packet_t)
    (h : b ELCOM_FIELD_START_OF_PACKET_POS ≠ ELCOM_FIELD_START_OF_PACKET_VALUE
      ∨ b ELCOM_FIELD_VER_POS ≠ ELCOM_FIELD_VER_VALUE) :
    (ELCOM_parseReceivedPacket crc b pkt).1 = ELCOM_INVALID_SOP := by
  have h' : b 0 ≠ 0x5B ∨ b 1 ≠ 0x01 := h
  rw [parse_eq, if_pos h']

/-- Witness of C6: a frame that is well formed except for its version byte. -/
theorem parse_invalid_header_witness :
    (poke (ELCOM_prepareSendPacket sumCrc samplePacket zeroBuffer).2 1 0x02
        ELCOM_FIELD_START_OF_PACKET_POS ≠ ELCOM_FIELD_START_OF_PACKET_VALUE
      ∨ poke (ELCOM_prepareSendPacket sumCrc samplePacket zeroBuffer).2 1 0x02
        ELCOM_FIELD_VER_POS ≠ ELCOM_FIELD_VER_VALUE)
    ∧ (ELCOM_parseReceivedPacket sumCrc
        (poke (ELCOM_prepareSendPacket sumCrc samplePacket zeroBuffer).2 1 0x02) stalePacket).1
        = ELCOM_INVALID_SOP :=
  ⟨Or.inr (by decide),
    parse_invalid_header sumCrc _ stalePacket (Or.inr (by decide))⟩

/-- C7: for every input buffer with byte 0 = 0x5B and byte 1 = 0x01 whose byte at
offset `4 + L + 2` (`L` the length byte at offset 3) differs from 0x5D,
`ELCOM_parseReceivedPacket` returns `ELCOM_INVALID_EOP`, whether or not the
checksum bytes match. -/
theorem parse_invalid_end_marker (crc : List Nat → Nat) (b : Buffer) (pkt : ELCOM_packet_t)
    (h0 : b 0 = ELCOM_FIELD_START_OF_PACKET_VALUE) (h1 : b 1 = ELCOM_FIELD_VER_VALUE)
    (he : b (4 + b ELCOM_FIELD_LEN_POS + 2) ≠ ELCOM_FIELD_END_OF_PACKET_VALUE) :
    (ELCOM_parseReceivedPacket crc b pkt).1 = ELCOM_INVALID_EOP := by
  have h' : ¬ (b 0 ≠ 0x5B ∨ b 1 ≠ 0x01) := by
    rintro (h | h)
    · exact h h0
    · exact h h1
  have he' : b (b 3 + 6) ≠ 0x5D := by
    have : b 3 + 6 = 4 + b 3 + 2 := by omega
    rw [this]; exact he
  rw [parse_eq, if_neg h', if_pos he']

/-- Witness of C7: a frame with matching checksum bytes whose end marker is
overwritten. -/
theorem parse_invalid_end_marker_witness :
    poke (ELCOM_prepareSendPacket sumCrc samplePacket zeroBuffer).2 7 0x00 0
        = ELCOM_FIELD_START_OF_PACKET_VALUE
    ∧ poke (ELCOM_prepareSendPacket sumCrc samplePacket zeroBuffer).2 7 0x00 1
        = ELCOM_FIELD_VER_VALUE
    ∧ (ELCOM_parseReceivedPacket sumCrc
        (poke (ELCOM_prepareSendPacket sumCrc samplePacket zeroBuffer).2 7 0x00) stalePacket).1
        = ELCOM_INVALID_EOP :=
  ⟨by decide, by decide,
    parse_invalid_end_marker sumCrc _ stalePacket (by decide) (by decide) (by decide)⟩


/-! ## Checksum validation -/

theorem wrappedLengthBuffer_lt (crc : List Nat → Nat) (i : Nat) (hi : i < 256 ∨ 258 ≤ i) :
    wrappedLengthBuffer crc i = wrappedLengthBase i := by
  have h : ¬ (256 ≤ i ∧ i < 256 + 2) := by omega
  simp only [wrappedLengthBuffer, memcpy, h, if_false]

theorem wrappedLengthBuffer_isBytes (crc : List Nat → Nat) : IsBytes (wrappedLengthBuffer crc) := by
  intro i
  by_cases h : 256 ≤ i ∧ i < 256 + 2
  · simp only [wrappedLengthBuffer, memcpy, h, and_self, if_true, bytesOfU16]
    split
    · exact Nat.mod_lt _ (by decide)
    · split
      · exact Nat.mod_lt _ (by decide)
      · decide
  · simp only [wrappedLengthBuffer, memcpy, h, if_false, wrappedLengthBase]
    repeat' split
    all_goals decide

theorem wrappedLengthBuffer_stored (crc : List Nat → Nat) :
    u16OfBytes (wrappedLengthBuffer crc) 256 =
      if crc [] % 65536 = 0x015B then (crc (bytesOf wrappedLengthBase 256) + 1) % 65536
      else crc (bytesOf wrappedLengthBase 256) % 65536 := by
  apply u16OfBytes_bytesOfU16
  · split
    · exact Nat.mod_lt _ (by decide)
    · exact Nat.mod_lt _ (by decide)
  · simp [wrappedLengthBuffer, memcpy]
  · simp [wrappedLengthBuffer, memcpy]

/-- C8, evaluated at a length byte of 252, for every checksum function: the
buffer `wrappedLengthBuffer` has a valid start marker, version and end marker
(offset 258); `ELCOM_validateCheksum` narrows 4 + 252 to the `uint8_t` value 0,
so the decoder compares the bytes at offsets 0 and 1 (0x015B) with the checksum
of the empty range, and its verdict is the opposite of the comparison of the
checksum field at offsets 256 and 257 with the checksum of the bytes
`[0, 256)`. -/
theorem validateCheksum_length_wraps (crc : List Nat → Nat) (pkt : ELCOM_packet_t) :
    IsBytes (wrappedLengthBuffer crc)
    ∧ wrappedLengthBuffer crc 0 = ELCOM_FIELD_START_OF_PACKET_VALUE
    ∧ wrappedLengthBuffer crc 1 = ELCOM_FIELD_VER_VALUE
    ∧ wrappedLengthBuffer crc 3 = 252
    ∧ wrappedLengthBuffer crc (4 + 252 + 2) = ELCOM_FIELD_END_OF_PACKET_VALUE
    ∧ ((ELCOM_parseReceivedPacket crc (wrappedLengthBuffer crc) pkt).1 = ELCOM_INVALID_CRC
        ↔ crc [] % 65536 ≠ 0x015B)
    ∧ ¬ ((ELCOM_parseReceivedPacket crc (wrappedLengthBuffer crc) pkt).1 = ELCOM_INVALID_CRC
        ↔ u16OfBytes (wrappedLengthBuffer crc) (4 + 252)
            ≠ crc (bytesOf (wrappedLengthBuffer crc) (4 + 252)) % 65536) := by
  have e0 : wrappedLengthBuffer crc 0 = 0x5B := wrappedLengthBuffer_lt crc 0 (by omega)
  have e1 : wrappedLengthBuffer crc 1 = 0x01 := wrappedLengthBuffer_lt crc 1 (by omega)
  have e2 : wrappedLengthBuffer crc 2 = 0x10 := wrappedLengthBuffer_lt crc 2 (by omega)
  have e3 : wrappedLengthBuffer crc 3 = 252 := wrappedLengthBuffer_lt crc 3 (by omega)
  have e258 : wrappedLengthBuffer crc 258 = 0x5D := wrappedLengthBuffer_lt crc 258 (by omega)
  have hbytes : bytesOf (wrappedLengthBuffer crc) 256 = bytesOf wrappedLengthBase 256 :=
    bytesOf_congr _ _ 256 (fun i hi => wrappedLengthBuffer_lt crc i (Or.inl hi))
  have hcode : (ELCOM_parseReceivedPacket crc (wrappedLengthBuffer crc) pkt).1
        = ELCOM_INVALID_CRC ↔ crc [] % 65536 ≠ 0x015B := by
    have hu : u16OfBytes (wrappedLengthBuffer crc) 0 = 0x015B := by
      unfold u16OfBytes
      rw [e0, e1]
    rw [parse_eq, e0, e1, e2, e3]
    simp only [Nat.reduceAdd, Nat.reduceMod, e258, hu]
    by_cases hc : crc [] % 65536 = 0x015B
    · simp [hc, bytesOf]
    · have hc' : ¬ (347 = crc [] % 65536) := fun h => hc h.symm
      simp [hc, hc', bytesOf]
  refine ⟨wrappedLengthBuffer_isBytes crc, e0, e1, e3, e258, hcode, ?_⟩
  show ¬ (_ ↔ u16OfBytes (wrappedLengthBuffer crc) 256
      ≠ crc (bytesOf (wrappedLengthBuffer crc) 256) % 65536)
  rw [hcode, wrappedLengthBuffer_stored, hbytes]
  by_cases hc : crc [] % 65536 = 0x015B
  · simp only [hc, if_true]
    have : crc (bytesOf wrappedLengthBase 256) % 65536 < 65536 := Nat.mod_lt _ (by decide)
    intro h
    have h2 := h.mpr (by omega)
    exact h2 rfl
  · simp only [hc, if_false]
    intro h
    exact h.mp hc rfl

/-- The decoder on a frame with one replaced byte, for every checksum function and
every packet `p` with `dataLength = n ≤ 251`: when the byte of the command field
(offset 2) or one byte of the data field (offsets 4 to 4 + n - 1) has been
replaced, the checksum bytes untouched, the answer is `ELCOM_INVALID_CRC` if and
only if the checksum of the mutated bytes `[0, 4 + n)` differs from the checksum
of the original ones. -/
theorem mutation_detected_iff (crc : List Nat → Nat) (p : ELCOM_packet_t) (buf : Buffer)
    (pkt : ELCOM_packet_t) (i v : Nat) (hn : p.dataLength ≤ ELCOM_FIELD_DATA_MAX_SIZE)
    (hi : i = ELCOM_FIELD_CMD_POS ∨ (4 ≤ i ∧ i < 4 + p.dataLength)) :
    (ELCOM_parseReceivedPacket crc (poke (ELCOM_prepareSendPacket crc p buf).2 i v) pkt).1
        = ELCOM_INVALID_CRC
      ↔ crc (bytesOf (poke (ELCOM_prepareSendPacket crc p buf).2 i v) (4 + p.dataLength)) % 65536
          ≠ crc (bytesOf (ELCOM_prepareSendPacket crc p buf).2 (4 + p.dataLength)) % 65536 := by
  have hn' : p.dataLength ≤ 251 := hn
  have hi' : i = 2 ∨ (4 ≤ i ∧ i < 4 + p.dataLength) := hi
  have hne : ∀ k, k ≠ i →
      poke (ELCOM_prepareSendPacket crc p buf).2 i v k = (ELCOM_prepareSendPacket crc p buf).2 k := by
    intro k hk
    simp only [poke, hk, if_false]
  have m0 := (hne 0 (by omega)).trans (prepare_at_0 crc p buf)
  have m1 := (hne 1 (by omega)).trans (prepare_at_1 crc p buf)
  have m3 := (hne 3 (by omega)).trans (prepare_at_3 crc p buf)
  have mlo := (hne (4 + p.dataLength) (by omega)).trans (prepare_at_crc_lo crc p buf)
  have mhi := (hne (4 + p.dataLength + 1) (by omega)).trans (prepare_at_crc_hi crc p buf)
  have meop := (hne (4 + p.dataLength + 2) (by omega)).trans (prepare_at_eop crc p buf)
  rw [parse_of_framed crc _ pkt p.dataLength (frameCrc crc p) m0 m1 m3 hn' mlo mhi
    (frameCrc_lt crc p) meop, prepare_crc_bytes]
  by_cases hc : frameCrc crc p
      = crc (bytesOf (poke (ELCOM_prepareSendPacket crc p buf).2 i v) (4 + p.dataLength)) % 65536
  · rw [← hc]
    simp only [ne_eq, not_true_eq_false, if_false, iff_false]
    split
    · exact fun h => ELCOM_errorCode_t.noConfusion h
    · exact fun h => ELCOM_errorCode_t.noConfusion h
  · have hc' : ¬ (crc (bytesOf (poke (ELCOM_prepareSendPacket crc p buf).2 i v)
        (4 + p.dataLength)) % 65536 = frameCrc crc p) := fun h => hc h.symm
    simp only [ne_eq, hc, hc', not_false_eq_true, if_true]

/-! ## Output packet on failure -/

/-- C10: whenever `ELCOM_parseReceivedPacket` returns `ELCOM_INVALID_SOP`,
`ELCOM_INVALID_EOP` or `ELCOM_INVALID_CRC`, the output packet has command 0,
data length 0 and all 251 data bytes equal to 0, whatever it contained before
the call and whatever the input buffer holds. -/
theorem parse_failure_clears (crc : List Nat → Nat) (b : Buffer) (pkt : ELCOM_packet_t)
    (h : (ELCOM_parseReceivedPacket crc b pkt).1 = ELCOM_INVALID_SOP
      ∨ (ELCOM_parseReceivedPacket crc b pkt).1 = ELCOM_INVALID_EOP
      ∨ (ELCOM_parseReceivedPacket crc b pkt).1 = ELCOM_INVALID_CRC) :
    (ELCOM_parseReceivedPacket crc b pkt).2.cmd = 0
    ∧ (ELCOM_parseReceivedPacket crc b pkt).2.dataLength = 0
    ∧ ∀ i, i < ELCOM_FIELD_DATA_MAX_SIZE → (ELCOM_parseReceivedPacket crc b pkt).2.data i = 0 := by
  have hclear : (clearedPacket pkt).cmd = 0 ∧ (clearedPacket pkt).dataLength = 0
      ∧ ∀ i, i < ELCOM_FIELD_DATA_MAX_SIZE → (clearedPacket pkt).data i = 0 := by
    refine ⟨rfl, rfl, ?_⟩
    intro i hi
    have h2 : 0 ≤ i ∧ i < 0 + ELCOM_FIELD_DATA_MAX_SIZE := by omega
    simp only [clearedPacket, memset]
    rw [if_pos h2]
  rw [parse_eq] at h ⊢
  split_ifs at h ⊢ with h1 h2 h3 h4
  · exact hclear
  · exact hclear
  · exact hclear
  · rcases h with h | h | h <;> cases h
  · rcases h with h | h | h <;> cases h

/-- Witness of C10: a buffer with a wrong start marker, decoded into a packet
holding stale content. -/
theorem parse_failure_clears_witness :
    (ELCOM_parseReceivedPacket sumCrc zeroBuffer stalePacket).1 = ELCOM_INVALID_SOP
    ∧ (ELCOM_parseReceivedPacket sumCrc zeroBuffer stalePacket).2.cmd = 0
    ∧ (ELCOM_parseReceivedPacket sumCrc zeroBuffer stalePacket).2.dataLength = 0
    ∧ ∀ i, i < ELCOM_FIELD_DATA_MAX_SIZE →
        (ELCOM_parseReceivedPacket sumCrc zeroBuffer stalePacket).2.data i = 0 :=
  ⟨by decide, parse_failure_clears sumCrc zeroBuffer stalePacket (Or.inl (by decide))⟩


/-! ## Output packet on success -/

theorem validateHeader_ok (b : Buffer) (h : ELCOM_validateHeader b = ELCOM_NO_ERROR) :
    ¬ (b 0 ≠ 0x5B ∨ b 1 ≠ 0x01) := by
  intro hn
  rw [validateHeader_eq, if_pos hn] at h
  cases h

theorem validateEOP_ok (b : Buffer) (h : ELCOM_validateEOP b = ELCOM_NO_ERROR) :
    ¬ (b (b 3 + 6) ≠ 0x5D) := by
  intro hn
  rw [validateEOP_eq, if_pos hn] at h
  cases h

theorem validateCheksum_ok (crc : List Nat → Nat) (b : Buffer)
    (h : ELCOM_validateCheksum crc b = ELCOM_NO_ERROR) :
    ¬ (u16OfBytes b ((4 + b 3) % 256) ≠ crc (bytesOf b ((4 + b 3) % 256)) % 65536) := by
  intro hn
  rw [validateCheksum_eq, if_pos hn] at h
  cases h

/-- Decoding a buffer that passes the three validations. -/
theorem parse_of_valid (crc : List Nat → Nat) (b : Buffer) (pkt : ELCOM_packet_t)
    (hh : ELCOM_validateHeader b = ELCOM_NO_ERROR) (he : ELCOM_validateEOP b = ELCOM_NO_ERROR)
    (hc : ELCOM_validateCheksum crc b = ELCOM_NO_ERROR) :
    ELCOM_parseReceivedPacket crc b pkt =
      if 0x40 = b 2 then (ELCOM_SLAVE_ERROR, extractedPacket b pkt)
      else (ELCOM_NO_ERROR, extractedPacket b pkt) := by
  rw [parse_eq, if_neg (validateHeader_ok b hh), if_neg (validateEOP_ok b he),
    if_neg (validateCheksum_ok crc b hc)]

theorem extractedPacket_data_skipped (b : Buffer) (pkt : ELCOM_packet_t) (i : Nat)
    (hn : 251 < b 3) (hi : i < 251) : (extractedPacket b pkt).data i = 0 := by
  have h1 : b 3 > ELCOM_FIELD_DATA_MAX_SIZE := hn
  have h2 : 0 ≤ i ∧ i < 0 + ELCOM_FIELD_DATA_MAX_SIZE := by
    show 0 ≤ i ∧ i < 0 + 251
    omega
  simp only [extractedPacket, ELCOM_extractData, h1, if_true, memset]
  rw [if_pos h2]

/-- A slave-error frame, without a bound on the length byte: for every input
buffer that passes the header, end-marker and checksum checks and whose command
byte is 0x40, `ELCOM_parseReceivedPacket` returns `ELCOM_SLAVE_ERROR` with
`cmd = 0x40` and `dataLength` equal to the length byte `L`; when `L` is at most
251 the first `L` data bytes of the output packet are the bytes from offset 4 of
the buffer; when `L` exceeds 251 the 251 data bytes are 0. -/
theorem parse_slave_error (crc : List Nat → Nat) (b : Buffer) (pkt : ELCOM_packet_t)
    (hh : ELCOM_validateHeader b = ELCOM_NO_ERROR) (he : ELCOM_validateEOP b = ELCOM_NO_ERROR)
    (hc : ELCOM_validateCheksum crc b = ELCOM_NO_ERROR)
    (hcmd : b ELCOM_FIELD_CMD_POS = ELCOM_CMD_ERROR_SLAVE) :
    (ELCOM_parseReceivedPacket crc b pkt).1 = ELCOM_SLAVE_ERROR
    ∧ (ELCOM_parseReceivedPacket crc b pkt).2.cmd = ELCOM_CMD_ERROR_SLAVE
    ∧ (ELCOM_parseReceivedPacket crc b pkt).2.dataLength = b ELCOM_FIELD_LEN_POS
    ∧ (b ELCOM_FIELD_LEN_POS ≤ ELCOM_FIELD_DATA_MAX_SIZE →
        ∀ i, i < b ELCOM_FIELD_LEN_POS →
          (ELCOM_parseReceivedPacket crc b pkt).2.data i = b (ELCOM_FIELD_DATA_POS + i))
    ∧ (ELCOM_FIELD_DATA_MAX_SIZE < b ELCOM_FIELD_LEN_POS →
        ∀ i, i < ELCOM_FIELD_DATA_MAX_SIZE → (ELCOM_parseReceivedPacket crc b pkt).2.data i = 0) := by
  have hcmd' : 0x40 = b 2 := hcmd.symm
  rw [parse_of_valid crc b pkt hh he hc, if_pos hcmd']
  refine ⟨rfl, hcmd, rfl, ?_, ?_⟩
  · intro hn i hi
    exact extractedPacket_data b pkt i hn hi
  · intro hn i hi
    exact extractedPacket_data_skipped b pkt i hn hi

theorem parse_data_beyond (crc : List Nat → Nat) (b : Buffer) (pkt : ELCOM_packet_t) (i : Nat)
    (hi : ELCOM_FIELD_DATA_MAX_SIZE ≤ i) :
    (ELCOM_parseReceivedPacket crc b pkt).2.data i = pkt.data i := by
  have hi' : 251 ≤ i := hi
  have hm : memset pkt.data 0 0 ELCOM_FIELD_DATA_MAX_SIZE i = pkt.data i := by
    have h : ¬ (0 ≤ i ∧ i < 0 + ELCOM_FIELD_DATA_MAX_SIZE) := by
      show ¬ (0 ≤ i ∧ i < 0 + 251)
      omega
    simp only [memset]
    rw [if_neg h]
  have he : (extractedPacket b pkt).data i = pkt.data i := by
    simp only [extractedPacket, ELCOM_extractData]
    split
    · exact hm
    · rename_i hle
      have hle' : ¬ (b 3 > 251) := hle
      have h : ¬ (0 ≤ i ∧ i < 0 + b 3) := by omega
      simp only [memcpy]
      rw [if_neg h]
      exact hm
  rw [parse_eq]
  split_ifs
  · exact hm
  · exact hm
  · exact hm
  · exact he
  · exact he

/-- C13: for every buffer, `ELCOM_isResponseComplete` returns a non-zero value if
and only if the length byte at offset 3 is non-zero and the byte at offset
(length byte + 6) is non-zero. -/
theorem isResponseComplete_iff (buffer : Buffer) :
    ELCOM_isResponseComplete buffer ≠ 0
      ↔ buffer ELCOM_FIELD_LEN_POS ≠ 0 ∧ buffer (buffer ELCOM_FIELD_LEN_POS + 6) ≠ 0 := by
  show (if buffer ELCOM_FIELD_LEN_POS ≠ 0 ∧ buffer (buffer ELCOM_FIELD_LEN_POS + 6) ≠ 0
      then 1 else 0) ≠ 0 ↔ _
  constructor
  · intro hne
    by_contra hcon
    exact hne (if_neg hcon)
  · intro h
    rw [if_pos h]
    decide


/-! ## One transaction: `EL_sendAndReceivePacket` -/

/-- C14: for every sensor and request packet, if the start-receive callback
returns an error code `e` other than `ELCOM_NO_ERROR`, `EL_sendAndReceivePacket`
returns `e` and the only callback it has invoked is `uartReceive`: neither the
transmit, nor the wait, nor the abort callback is invoked. -/
theorem send_receive_arming_fails {W : Type} (crc : List Nat → Nat) (s : ELICHENS_Sensor_t W)
    (w w1 : W) (rx1 : Buffer) (e : ELCOM_errorCode_t)
    (hR : s.uartReceive w s.bufferRx = some (e, w1, rx1)) (he : e ≠ ELCOM_NO_ERROR) :
    EL_sendAndReceivePacket crc s w =
      some (e,
        { s with bufferTx := (ELCOM_prepareSendPacket crc s.packet s.bufferTx).2, bufferRx := rx1 },
        w1, [Call.uartReceive]) := by
  have he' : ELCOM_NO_ERROR ≠ e := fun h => he h.symm
  simp only [EL_sendAndReceivePacket, hR, he', ne_eq, not_false_eq_true, if_true]


/-- Witness of C14: a transport whose start-receive callback answers
`ELCOM_SLAVE_ERROR`. -/
theorem send_receive_arming_fails_witness :
    EL_sendAndReceivePacket sumCrc
        { unitSensor with uartReceive := fun w rx => some (ELCOM_SLAVE_ERROR, w, rx) } () =
      some (ELCOM_SLAVE_ERROR,
        { unitSensor with
          uartReceive := fun w rx => some (ELCOM_SLAVE_ERROR, w, rx)
          bufferTx := (ELCOM_prepareSendPacket sumCrc unitSensor.packet unitSensor.bufferTx).2
          bufferRx := unitSensor.bufferRx },
        (), [Call.uartReceive]) :=
  send_receive_arming_fails sumCrc
    { unitSensor with uartReceive := fun w rx => some (ELCOM_SLAVE_ERROR, w, rx) } () ()
    unitSensor.bufferRx ELCOM_SLAVE_ERROR rfl (by decide)

/-- C16: for every sensor and request packet, if arming succeeds and the transmit
callback returns an error code `e` other than `ELCOM_NO_ERROR`,
`EL_sendAndReceivePacket` returns `e` after invoking `uartReceive`,
`uartTransmit` and then `uartAbortReceive` once; the wait callback is not
invoked. -/
theorem send_receive_transmit_fails {W : Type} (crc : List Nat → Nat)
    (s : ELICHENS_Sensor_t W) (w w1 w2 w3 : W) (rx1 rx2 rx3 : Buffer) (e : ELCOM_errorCode_t)
    (hR : s.uartReceive w s.bufferRx = some (ELCOM_NO_ERROR, w1, rx1))
    (hT : s.uartTransmit (ELCOM_prepareSendPacket crc s.packet s.bufferTx).2
      (ELCOM_prepareSendPacket crc s.packet s.bufferTx).1 w1 rx1 = some (e, w2, rx2))
    (he : e ≠ ELCOM_NO_ERROR)
    (hA : s.uartAbortReceive w2 rx2 = some (w3, rx3)) :
    EL_sendAndReceivePacket crc s w =
      some (e,
        { s with bufferTx := (ELCOM_prepareSendPacket crc s.packet s.bufferTx).2, bufferRx := rx3 },
        w3,
        [Call.uartReceive,
          Call.uartTransmit (ELCOM_prepareSendPacket crc s.packet s.bufferTx).2
            (ELCOM_prepareSendPacket crc s.packet s.bufferTx).1,
          Call.uartAbortReceive]) := by
  have he' : ELCOM_NO_ERROR ≠ e := fun h => he h.symm
  simp only [EL_sendAndReceivePacket, hR, hT, hA, he', ne_eq, not_true_eq_false,
    not_false_eq_true, if_true, if_false]

/-- Witness of C16: a transport whose transmit callback answers
`ELCOM_SLAVE_TIMEOUT`. -/
theorem send_receive_transmit_fails_witness :
    EL_sendAndReceivePacket sumCrc
        { unitSensor with uartTransmit := fun _ _ w rx => some (ELCOM_SLAVE_TIMEOUT, w, rx) } () =
      some (ELCOM_SLAVE_TIMEOUT,
        { unitSensor with
          uartTransmit := fun _ _ w rx => some (ELCOM_SLAVE_TIMEOUT, w, rx)
          bufferTx := (ELCOM_prepareSendPacket sumCrc unitSensor.packet unitSensor.bufferTx).2
          bufferRx := unitSensor.bufferRx },
        (),
        [Call.uartReceive,
          Call.uartTransmit (ELCOM_prepareSendPacket sumCrc unitSensor.packet unitSensor.bufferTx).2
            (ELCOM_prepareSendPacket sumCrc unitSensor.packet unitSensor.bufferTx).1,
          Call.uartAbortReceive]) :=
  send_receive_transmit_fails sumCrc
    { unitSensor with uartTransmit := fun _ _ w rx => some (ELCOM_SLAVE_TIMEOUT, w, rx) }
    () () () () unitSensor.bufferRx unitSensor.bufferRx unitSensor.bufferRx ELCOM_SLAVE_TIMEOUT
    rfl rfl (by decide) rfl

/-- A transaction whose three callbacks succeed returns what the decoder finds in
the receive buffer, without invoking the abort callback. -/
theorem send_receive_success {W : Type} (crc : List Nat → Nat)
    (s : ELICHENS_Sensor_t W) (w w1 w2 w3 : W) (rx1 rx2 rx3 : Buffer)
    (hR : s.uartReceive w s.bufferRx = some (ELCOM_NO_ERROR, w1, rx1))
    (hT : s.uartTransmit (ELCOM_prepareSendPacket crc s.packet s.bufferTx).2
      (ELCOM_prepareSendPacket crc s.packet s.bufferTx).1 w1 rx1 = some (ELCOM_NO_ERROR, w2, rx2))
    (hW : s.uartWaitUntilReceived w2 rx2 = some (ELCOM_NO_ERROR, w3, rx3)) :
    EL_sendAndReceivePacket crc s w =
      some ((ELCOM_parseReceivedPacket crc rx3 s.packet).1,
        { s with
          bufferTx := (ELCOM_prepareSendPacket crc s.packet s.bufferTx).2
          bufferRx := rx3
          packet := (ELCOM_parseReceivedPacket crc rx3 s.packet).2 },
        w3,
        [Call.uartReceive,
          Call.uartTransmit (ELCOM_prepareSendPacket crc s.packet s.bufferTx).2
            (ELCOM_prepareSendPacket crc s.packet s.bufferTx).1,
          Call.uartWaitUntilReceived]) := by
  simp only [EL_sendAndReceivePacket, hR, hT, hW, ne_eq, not_true_eq_false, if_false]

/-- A transaction whose wait callback fails returns its error code after one
abort. -/
theorem send_receive_wait_fails {W : Type} (crc : List Nat → Nat)
    (s : ELICHENS_Sensor_t W) (w w1 w2 w3 w4 : W) (rx1 rx2 rx3 rx4 : Buffer)
    (e : ELCOM_errorCode_t)
    (hR : s.uartReceive w s.bufferRx = some (ELCOM_NO_ERROR, w1, rx1))
    (hT : s.uartTransmit (ELCOM_prepareSendPacket crc s.packet s.bufferTx).2
      (ELCOM_prepareSendPacket crc s.packet s.bufferTx).1 w1 rx1 = some (ELCOM_NO_ERROR, w2, rx2))
    (hW : s.uartWaitUntilReceived w2 rx2 = some (e, w3, rx3)) (he : e ≠ ELCOM_NO_ERROR)
    (hA : s.uartAbortReceive w3 rx3 = some (w4, rx4)) :
    EL_sendAndReceivePacket crc s w =
      some (e,
        { s with bufferTx := (ELCOM_prepareSendPacket crc s.packet s.bufferTx).2, bufferRx := rx4 },
        w4,
        [Call.uartReceive,
          Call.uartTransmit (ELCOM_prepareSendPacket crc s.packet s.bufferTx).2
            (ELCOM_prepareSendPacket crc s.packet s.bufferTx).1,
          Call.uartWaitUntilReceived, Call.uartAbortReceive]) := by
  have he' : ELCOM_NO_ERROR ≠ e := fun h => he h.symm
  simp only [EL_sendAndReceivePacket, hR, hT, hW, hA, he', ne_eq, not_true_eq_false,
    not_false_eq_true, if_true, if_false]


/-! ## The wait loop of `main.c` -/

theorem pollBuffer_shift (received : Nat → Buffer → Buffer) (r : Nat) (rx : Buffer) (j : Nat) :
    pollBuffer received (r + 1) (received r rx) j = pollBuffer received r rx (j + 1) := by
  induction j with
  | zero => rfl
  | succ j ih =>
    show received (r + 1 + j) (pollBuffer received (r + 1) (received r rx) j) = _
    rw [ih]
    show _ = received (r + (j + 1)) (pollBuffer received r rx (j + 1))
    have : r + 1 + j = r + (j + 1) := by omega
    rw [this]

theorem waitLoop_step_continue (start fuel : Nat) (hal : Hal) (rx : Buffer)
    (hwin : (hal.tick hal.tickReads % 2 ^ 32 + 2 ^ 32 - start) % 2 ^ 32 < 250)
    (hno : ELCOM_isResponseComplete (hal.received hal.tickReads rx) = 0) :
    el_uartWaitLoop start (fuel + 1) hal rx =
      el_uartWaitLoop start fuel { hal with tickReads := hal.tickReads + 1 }
        (hal.received hal.tickReads rx) := by
  have hno' : ¬ (ELCOM_isResponseComplete (hal.received hal.tickReads rx) ≠ 0) := fun h => h hno
  simp only [el_uartWaitLoop, HAL_GetTick, hwin, hno', if_true, if_false]

theorem waitLoop_step_timeout (start fuel : Nat) (hal : Hal) (rx : Buffer)
    (hout : ¬ (hal.tick hal.tickReads % 2 ^ 32 + 2 ^ 32 - start) % 2 ^ 32 < 250) :
    el_uartWaitLoop start (fuel + 1) hal rx =
      some (ELCOM_SLAVE_TIMEOUT, { hal with tickReads := hal.tickReads + 1 },
        hal.received hal.tickReads rx) := by
  simp only [el_uartWaitLoop, HAL_GetTick, hout, if_false]

theorem waitLoop_step_complete (start fuel : Nat) (hal : Hal) (rx : Buffer)
    (hwin : (hal.tick hal.tickReads % 2 ^ 32 + 2 ^ 32 - start) % 2 ^ 32 < 250)
    (hyes : ELCOM_isResponseComplete (hal.received hal.tickReads rx) ≠ 0) :
    el_uartWaitLoop start (fuel + 1) hal rx =
      some (ELCOM_NO_ERROR,
        { hal with tickReads := hal.tickReads + 1,
                   uartCalls := hal.uartCalls ++ [HalCall.HAL_UART_Abort_IT] },
        hal.received hal.tickReads rx) := by
  simp only [el_uartWaitLoop, HAL_GetTick, hwin, hyes, el_uartAbortReceive, ne_eq,
    not_false_eq_true, if_true]

/-- The loop leaves by the timeout, without a call of the HAL, when the first `K`
polls fall in the window and see no complete response and the next reading of
the tick counter is outside the window. -/
theorem waitLoop_timeout (start : Nat) (K : Nat) :
    ∀ (fuel : Nat) (hal : Hal) (rx : Buffer), K < fuel →
      (∀ j, j < K →
        (hal.tick (hal.tickReads + j) % 2 ^ 32 + 2 ^ 32 - start) % 2 ^ 32 < 250
        ∧ ELCOM_isResponseComplete (pollBuffer hal.received hal.tickReads rx (j + 1)) = 0) →
      ¬ (hal.tick (hal.tickReads + K) % 2 ^ 32 + 2 ^ 32 - start) % 2 ^ 32 < 250 →
      ∃ hal' rx', el_uartWaitLoop start fuel hal rx = some (ELCOM_SLAVE_TIMEOUT, hal', rx')
        ∧ hal'.uartCalls = hal.uartCalls := by
  induction K with
  | zero =>
    intro fuel hal rx hfuel _ hout
    obtain ⟨f, rfl⟩ : ∃ f, fuel = f + 1 := ⟨fuel - 1, by omega⟩
    exact ⟨_, _, waitLoop_step_timeout start f hal rx hout, rfl⟩
  | succ K ih =>
    intro fuel hal rx hfuel hpoll hout
    obtain ⟨f, rfl⟩ : ∃ f, fuel = f + 1 := ⟨fuel - 1, by omega⟩
    have h0 := hpoll 0 (by omega)
    rw [waitLoop_step_continue start f hal rx h0.1 h0.2]
    have hrec := ih f { hal with tickReads := hal.tickReads + 1 }
      (hal.received hal.tickReads rx) (by omega)
      (by
        intro j hj
        have hj' := hpoll (j + 1) (by omega)
        have e1 : hal.tickReads + 1 + j = hal.tickReads + (j + 1) := by omega
        show (hal.tick (hal.tickReads + 1 + j) % 2 ^ 32 + 2 ^ 32 - start) % 2 ^ 32 < 250
          ∧ ELCOM_isResponseComplete
            (pollBuffer hal.received (hal.tickReads + 1) (hal.received hal.tickReads rx) (j + 1))
              = 0
        rw [e1, pollBuffer_shift]
        exact hj')
      (by
        have e1 : hal.tickReads + 1 + K = hal.tickReads + (K + 1) := by omega
        show ¬ (hal.tick (hal.tickReads + 1 + K) % 2 ^ 32 + 2 ^ 32 - start) % 2 ^ 32 < 250
        rw [e1]
        exact hout)
    obtain ⟨hal', rx', hloop, hcalls⟩ := hrec
    exact ⟨hal', rx', hloop, hcalls⟩

/-- Whatever the loop returns, it returns `ELCOM_NO_ERROR` after one call of
`HAL_UART_Abort_IT`, on a buffer that the heuristic finds complete, or
`ELCOM_SLAVE_TIMEOUT` without any call of the HAL. -/
theorem waitLoop_result (start : Nat) :
    ∀ (fuel : Nat) (hal hal' : Hal) (rx rx' : Buffer) (e : ELCOM_errorCode_t),
      el_uartWaitLoop start fuel hal rx = some (e, hal', rx') →
      (e = ELCOM_NO_ERROR ∧ hal'.uartCalls = hal.uartCalls ++ [HalCall.HAL_UART_Abort_IT]
          ∧ ELCOM_isResponseComplete rx' ≠ 0)
        ∨ (e = ELCOM_SLAVE_TIMEOUT ∧ hal'.uartCalls = hal.uartCalls) := by
  intro fuel
  induction fuel with
  | zero =>
    intro hal hal' rx rx' e h
    cases h
  | succ f ih =>
    intro hal hal' rx rx' e h
    by_cases hwin : (hal.tick hal.tickReads % 2 ^ 32 + 2 ^ 32 - start) % 2 ^ 32 < 250
    · by_cases hyes : ELCOM_isResponseComplete (hal.received hal.tickReads rx) ≠ 0
      · rw [waitLoop_step_complete start f hal rx hwin hyes] at h
        cases h
        exact Or.inl ⟨rfl, rfl, hyes⟩
      · have hno : ELCOM_isResponseComplete (hal.received hal.tickReads rx) = 0 := by
          by_contra hc
          exact hyes hc
        rw [waitLoop_step_continue start f hal rx hwin hno] at h
        exact ih { hal with tickReads := hal.tickReads + 1 } hal'
          (hal.received hal.tickReads rx) rx' e h
    · rw [waitLoop_step_timeout start f hal rx hwin] at h
      cases h
      exact Or.inr ⟨rfl, rfl⟩


theorem el_uartReceive_ok (hal : Hal) (data : Buffer) (hR : hal.receiveStatus = HAL_OK) :
    el_uartReceive hal data =
      some (ELCOM_NO_ERROR,
        { hal with uartCalls := hal.uartCalls ++ [HalCall.HAL_UART_Receive_IT] },
        memset data 0 0 ELCOM_DATA_BUFFER_SIZE) := by
  simp only [el_uartReceive, hR, el_errorCodeFromHAL, if_true]

theorem el_uartTransmit_ok (data : Buffer) (size : Nat) (hal : Hal) (rx : Buffer)
    (hT : hal.transmitStatus = HAL_OK) :
    el_uartTransmit data size hal rx =
      some (ELCOM_NO_ERROR,
        { hal with uartCalls := hal.uartCalls
            ++ [HalCall.HAL_UART_Transmit (bytesOf data size) (10 * size)] },
        rx) := by
  simp only [el_uartTransmit, hT, el_errorCodeFromHAL, if_true]

theorem el_uartReceive_calls (hal hal1 : Hal) (data b1 : Buffer) (e : ELCOM_errorCode_t)
    (h : el_uartReceive hal data = some (e, hal1, b1)) :
    hal1.uartCalls = hal.uartCalls ++ [HalCall.HAL_UART_Receive_IT] := by
  simp only [el_uartReceive, Option.some.injEq, Prod.mk.injEq] at h
  rw [← h.2.1]

theorem el_uartTransmit_calls (data : Buffer) (size : Nat) (hal hal1 : Hal) (rx b1 : Buffer)
    (e : ELCOM_errorCode_t) (h : el_uartTransmit data size hal rx = some (e, hal1, b1)) :
    hal1.uartCalls
      = hal.uartCalls ++ [HalCall.HAL_UART_Transmit (bytesOf data size) (10 * size)] := by
  simp only [el_uartTransmit, Option.some.injEq, Prod.mk.injEq] at h
  rw [← h.2.1]

theorem abortCount_append (l1 l2 : List HalCall) :
    abortCount (l1 ++ l2) = abortCount l1 + abortCount l2 := by
  unfold abortCount
  exact List.count_append _ _ _

/-! ## Timeout and success of a transaction on the STM32 callbacks -/

/-- C17: on the callbacks of `main.c`, when arming and transmitting succeed, the
first `K` polls of the wait loop fall in the 250-tick window and find
`ELCOM_isResponseComplete` false on the receive buffer, and the next reading of
the tick counter is outside the window, `el_uartWaitUntilReceived` returns
`ELCOM_SLAVE_TIMEOUT` (given fuel for more than `K` polls),
`EL_sendAndReceivePacket` returns `ELCOM_SLAVE_TIMEOUT` after invoking the abort
callback once, and `HAL_UART_Abort_IT` has been called exactly once over the
transaction. -/
theorem transaction_timeout (crc : List Nat → Nat) (fuel K : Nat) (m : ELICHENS_Sensor_t Hal)
    (hal : Hal)
    (hcR : m.uartReceive = el_uartReceive) (hcT : m.uartTransmit = el_uartTransmit)
    (hcW : m.uartWaitUntilReceived = el_uartWaitUntilReceived fuel)
    (hcA : m.uartAbortReceive = el_uartAbortReceive)
    (hR : hal.receiveStatus = HAL_OK) (hT : hal.transmitStatus = HAL_OK)
    (hpoll : ∀ j, j < K →
      elapsedTicks hal (hal.tickReads + 1 + j) < 250
      ∧ ELCOM_isResponseComplete
          (pollBuffer hal.received (hal.tickReads + 1)
            (memset m.bufferRx 0 0 ELCOM_DATA_BUFFER_SIZE) (j + 1)) = 0)
    (hexit : ¬ elapsedTicks hal (hal.tickReads + 1 + K) < 250)
    (hfuel : K < fuel) :
    ∃ hal1 rx1 hal2 rx2 hal3 rx3 m' hal4,
      m.uartReceive hal m.bufferRx = some (ELCOM_NO_ERROR, hal1, rx1)
      ∧ m.uartTransmit (ELCOM_prepareSendPacket crc m.packet m.bufferTx).2
          (ELCOM_prepareSendPacket crc m.packet m.bufferTx).1 hal1 rx1
          = some (ELCOM_NO_ERROR, hal2, rx2)
      ∧ el_uartWaitUntilReceived fuel hal2 rx2 = some (ELCOM_SLAVE_TIMEOUT, hal3, rx3)
      ∧ EL_sendAndReceivePacket crc m hal =
          some (ELCOM_SLAVE_TIMEOUT, m', hal4,
            [Call.uartReceive,
              Call.uartTransmit (ELCOM_prepareSendPacket crc m.packet m.bufferTx).2
                (ELCOM_prepareSendPacket crc m.packet m.bufferTx).1,
              Call.uartWaitUntilReceived, Call.uartAbortReceive])
      ∧ abortCount hal4.uartCalls = abortCount hal.uartCalls + 1 := by
  have h1 := el_uartReceive_ok hal m.bufferRx hR
  have h2 := el_uartTransmit_ok (ELCOM_prepareSendPacket crc m.packet m.bufferTx).2
    (ELCOM_prepareSendPacket crc m.packet m.bufferTx).1
    { hal with uartCalls := hal.uartCalls ++ [HalCall.HAL_UART_Receive_IT] }
    (memset m.bufferRx 0 0 ELCOM_DATA_BUFFER_SIZE) hT
  obtain ⟨hal3, rx3, hloop, hcalls⟩ :=
    waitLoop_timeout (hal.tick hal.tickReads % 2 ^ 32) K fuel
      { hal with
        uartCalls := hal.uartCalls ++ [HalCall.HAL_UART_Receive_IT]
          ++ [HalCall.HAL_UART_Transmit
            (bytesOf (ELCOM_prepareSendPacket crc m.packet m.bufferTx).2
              (ELCOM_prepareSendPacket crc m.packet m.bufferTx).1)
            (10 * (ELCOM_prepareSendPacket crc m.packet m.bufferTx).1)]
        tickReads := hal.tickReads + 1 }
      (memset m.bufferRx 0 0 ELCOM_DATA_BUFFER_SIZE) hfuel hpoll hexit
  have h3 : el_uartWaitUntilReceived fuel
      { hal with
        uartCalls := hal.uartCalls ++ [HalCall.HAL_UART_Receive_IT]
          ++ [HalCall.HAL_UART_Transmit
            (bytesOf (ELCOM_prepareSendPacket crc m.packet m.bufferTx).2
              (ELCOM_prepareSendPacket crc m.packet m.bufferTx).1)
            (10 * (ELCOM_prepareSendPacket crc m.packet m.bufferTx).1)] }
      (memset m.bufferRx 0 0 ELCOM_DATA_BUFFER_SIZE)
      = some (ELCOM_SLAVE_TIMEOUT, hal3, rx3) := hloop
  have h4 : el_uartAbortReceive hal3 rx3
      = some ({ hal3 with uartCalls := hal3.uartCalls ++ [HalCall.HAL_UART_Abort_IT] }, rx3) := rfl
  rw [← hcR] at h1
  rw [← hcT] at h2
  have h3' := h3
  rw [← hcW] at h3'
  rw [← hcA] at h4
  refine ⟨_, _, _, _, hal3, rx3, _, _, h1, h2, h3,
    send_receive_wait_fails crc m hal _ _ hal3 _ _ _ rx3 _ ELCOM_SLAVE_TIMEOUT h1 h2 h3'
      (by decide) h4, ?_⟩
  show abortCount (hal3.uartCalls ++ [HalCall.HAL_UART_Abort_IT]) = _
  rw [hcalls]
  show abortCount (hal.uartCalls ++ [HalCall.HAL_UART_Receive_IT]
    ++ [HalCall.HAL_UART_Transmit _ _] ++ [HalCall.HAL_UART_Abort_IT]) = _
  rw [abortCount_append, abortCount_append, abortCount_append]
  rfl


/-- Witness of C17: the sensor of `main.c` on a HAL on which nothing is received;
two polls fall in the window, the third reading of the tick counter is outside. -/
theorem transaction_timeout_witness :
    ∃ m' hal4 calls,
      EL_sendAndReceivePacket sumCrc (sensor 5) quietHal
        = some (ELCOM_SLAVE_TIMEOUT, m', hal4, calls)
      ∧ abortCount hal4.uartCalls = abortCount quietHal.uartCalls + 1 :=
  let ⟨_, _, _, _, _, _, m', hal4, _, _, _, h4, h5⟩ :=
    transaction_timeout sumCrc 5 2 (sensor 5) quietHal rfl rfl rfl rfl rfl rfl
      (by
        intro j hj
        have hj' : j = 0 ∨ j = 1 := by omega
        rcases hj' with rfl | rfl <;> decide)
      (by decide) (by decide)
  ⟨m', hal4, _, h4, h5⟩

/-- C18: for every transaction in which the start-receive, transmit and wait
callbacks return `ELCOM_NO_ERROR`, `EL_sendAndReceivePacket` returns the result
of `ELCOM_parseReceivedPacket` on the receive buffer, leaves the parsed packet in
the sensor and does not invoke the abort callback; on the callbacks of `main.c`
such a transaction has called `HAL_UART_Abort_IT` exactly once, from
`el_uartWaitUntilReceived`, on a buffer that `ELCOM_isResponseComplete` finds
complete. -/
theorem transaction_success {W : Type} (crc : List Nat → Nat)
    (s : ELICHENS_Sensor_t W) (w w1 w2 w3 : W) (rx1 rx2 rx3 : Buffer)
    (hR : s.uartReceive w s.bufferRx = some (ELCOM_NO_ERROR, w1, rx1))
    (hT : s.uartTransmit (ELCOM_prepareSendPacket crc s.packet s.bufferTx).2
      (ELCOM_prepareSendPacket crc s.packet s.bufferTx).1 w1 rx1 = some (ELCOM_NO_ERROR, w2, rx2))
    (hW : s.uartWaitUntilReceived w2 rx2 = some (ELCOM_NO_ERROR, w3, rx3)) :
    EL_sendAndReceivePacket crc s w =
        some ((ELCOM_parseReceivedPacket crc rx3 s.packet).1,
          { s with
            bufferTx := (ELCOM_prepareSendPacket crc s.packet s.bufferTx).2
            bufferRx := rx3
            packet := (ELCOM_parseReceivedPacket crc rx3 s.packet).2 },
          w3,
          [Call.uartReceive,
            Call.uartTransmit (ELCOM_prepareSendPacket crc s.packet s.bufferTx).2
              (ELCOM_prepareSendPacket crc s.packet s.bufferTx).1,
            Call.uartWaitUntilReceived])
    ∧ ∀ (fuel : Nat) (m : ELICHENS_Sensor_t Hal) (hal hal1 hal2 hal3 : Hal) (b1 b2 b3 : Buffer),
        m.uartReceive = el_uartReceive → m.uartTransmit = el_uartTransmit →
        m.uartWaitUntilReceived = el_uartWaitUntilReceived fuel →
        m.uartReceive hal m.bufferRx = some (ELCOM_NO_ERROR, hal1, b1) →
        m.uartTransmit (ELCOM_prepareSendPacket crc m.packet m.bufferTx).2
          (ELCOM_prepareSendPacket crc m.packet m.bufferTx).1 hal1 b1
          = some (ELCOM_NO_ERROR, hal2, b2) →
        m.uartWaitUntilReceived hal2 b2 = some (ELCOM_NO_ERROR, hal3, b3) →
        (∃ m', EL_sendAndReceivePacket crc m hal =
          some ((ELCOM_parseReceivedPacket crc b3 m.packet).1, m', hal3,
            [Call.uartReceive,
              Call.uartTransmit (ELCOM_prepareSendPacket crc m.packet m.bufferTx).2
                (ELCOM_prepareSendPacket crc m.packet m.bufferTx).1,
              Call.uartWaitUntilReceived]))
        ∧ abortCount hal3.uartCalls = abortCount hal.uartCalls + 1
        ∧ ELCOM_isResponseComplete b3 ≠ 0 := by
  refine ⟨send_receive_success crc s w w1 w2 w3 rx1 rx2 rx3 hR hT hW, ?_⟩
  intro fuel m hal hal1 hal2 hal3 b1 b2 b3 hcR hcT hcW h1 h2 h3
  refine ⟨⟨_, send_receive_success crc m hal hal1 hal2 hal3 b1 b2 b3 h1 h2 h3⟩, ?_⟩
  rw [hcR] at h1
  rw [hcT] at h2
  rw [hcW] at h3
  have c1 := el_uartReceive_calls hal hal1 _ b1 _ h1
  have c2 := el_uartTransmit_calls _ _ hal1 hal2 b1 b2 _ h2
  have hres := waitLoop_result _ fuel _ hal3 b2 b3 ELCOM_NO_ERROR h3
  rcases hres with ⟨_, c3, hcomp⟩ | ⟨hbad, _⟩
  · refine ⟨?_, hcomp⟩
    rw [c3]
    show abortCount (hal2.uartCalls ++ [HalCall.HAL_UART_Abort_IT]) = _
    rw [c2, c1, abortCount_append, abortCount_append, abortCount_append]
    rfl
  · cases hbad

/-- Witness of C18: the sensor of `main.c` on a HAL on which a measurement
response has arrived by the second poll. -/
theorem transaction_success_witness :
    ∃ hal3 b3 m',
      (sensor 5).uartWaitUntilReceived
          { answeringHal with
            uartCalls := [HalCall.HAL_UART_Receive_IT,
              HalCall.HAL_UART_Transmit [0x5B, 0x01, 0x00, 0x00, 0x5C, 0x00, 0x5D] 70] }
          (memset (sensor 5).bufferRx 0 0 ELCOM_DATA_BUFFER_SIZE)
        = some (ELCOM_NO_ERROR, hal3, b3)
      ∧ EL_sendAndReceivePacket sumCrc (sensor 5) answeringHal =
          some ((ELCOM_parseReceivedPacket sumCrc b3 (sensor 5).packet).1, m', hal3,
            [Call.uartReceive,
              Call.uartTransmit
                (ELCOM_prepareSendPacket sumCrc (sensor 5).packet (sensor 5).bufferTx).2
                (ELCOM_prepareSendPacket sumCrc (sensor 5).packet (sensor 5).bufferTx).1,
              Call.uartWaitUntilReceived])
      ∧ abortCount hal3.uartCalls = abortCount answeringHal.uartCalls + 1 :=
  ⟨_, _, _, rfl,
    (transaction_success sumCrc (sensor 5) answeringHal _ _ _ _ _ _ rfl rfl rfl).1,
    ((transaction_success sumCrc (sensor 5) answeringHal _ _ _ _ _ _ rfl rfl rfl).2 5
      (sensor 5) answeringHal _ _ _ _ _ _ rfl rfl rfl rfl rfl rfl).2.1⟩


/-! ## Serial number -/

theorem getSysSn_of_success {W : Type} (crc : List Nat → Nat) (s s' : ELICHENS_Sensor_t W)
    (w w' : W) (calls : List Call)
    (hok : EL_sendAndReceivePacket crc (snRequest s) w = some (ELCOM_NO_ERROR, s', w', calls)) :
    ELCOM_getSysSn crc s w =
      some (ELCOM_NO_ERROR, s', w', calls,
        (bytesOf s'.packet.data s'.packet.dataLength).foldl snStep 0) := by
  have hok' : EL_sendAndReceivePacket crc
      { s with packet := { cmd := ELCOM_CMD_GET_SEN_SN, dataLength := 0, data := s.packet.data } }
      w = some (ELCOM_NO_ERROR, s', w', calls) := hok
  simp only [ELCOM_getSysSn, hok', ne_eq, not_true_eq_false, if_false, bytesOf, List.foldl_map]
  rfl

theorem snStep_non_digits (pre : List Nat) (hpre : ∀ c, c ∈ pre → ¬ (c ≥ 48 ∧ c ≤ 57)) :
    pre.foldl snStep 0 = 0 := by
  induction pre with
  | nil => rfl
  | cons c pre ih =>
    have hc : ¬ (c ≥ 48 ∧ c ≤ 57) := hpre c (List.mem_cons_self c pre)
    have h0 : snStep 0 c = 0 := by
      simp only [snStep, hc, if_false]
      rfl
    rw [List.foldl_cons, h0]
    exact ih (fun d hd => hpre d (List.mem_cons_of_mem c hd))

theorem snStep_digits (digs : List Nat) (hdigs : ∀ c, c ∈ digs → c ≥ 48 ∧ c ≤ 57) :
    ∀ a : Nat, digs.foldl snStep (a % 2 ^ 32)
      = digs.foldl (fun r c => 10 * r + (c - 48)) a % 2 ^ 32 := by
  induction digs with
  | nil =>
    intro a
    rfl
  | cons c digs ih =>
    intro a
    have hc : c ≥ 48 ∧ c ≤ 57 := hdigs c (List.mem_cons_self c digs)
    have hstep : snStep (a % 2 ^ 32) c = (10 * a + (c - 48)) % 2 ^ 32 := by
      simp only [snStep, hc, and_self, if_true]
      omega
    rw [List.foldl_cons, List.foldl_cons, hstep]
    exact ih (fun d hd => hdigs d (List.mem_cons_of_mem c hd)) _

/-- C19, evaluated on a successful response whose data are the bytes "1A2": the
loop multiplies the serial number by 10 on every byte, digit or not, so
`ELCOM_getSysSn` returns 102, while accumulating over the digit characters only
gives 12. -/
theorem getSysSn_counts_non_digits :
    (ELCOM_getSysSn sumCrc (respondingSensor (snResponse [0x31, 0x41, 0x32])) ()).map
        (fun r => (r.1, r.2.2.2.2)) = some (ELCOM_NO_ERROR, 102)
    ∧ digitsOnlyValue [0x31, 0x41, 0x32] = 12 := by
  decide

/-- C20: for every successful serial-number response whose data are non-digit
bytes followed only by ASCII digit bytes, `ELCOM_getSysSn` returns
`ELCOM_NO_ERROR` and the decimal value of the digit string modulo 2^32; for the
bytes "SN0012345" this is 12345. -/
theorem getSysSn_prefixed_digits {W : Type} (crc : List Nat → Nat)
    (s s' : ELICHENS_Sensor_t W) (w w' : W) (calls : List Call) (pre digs : List Nat)
    (hok : EL_sendAndReceivePacket crc (snRequest s) w = some (ELCOM_NO_ERROR, s', w', calls))
    (hdata : bytesOf s'.packet.data s'.packet.dataLength = pre ++ digs)
    (hpre : ∀ c, c ∈ pre → ¬ (c ≥ 48 ∧ c ≤ 57))
    (hdigs : ∀ c, c ∈ digs → c ≥ 48 ∧ c ≤ 57) :
    ELCOM_getSysSn crc s w = some (ELCOM_NO_ERROR, s', w', calls, decimalValue digs % 2 ^ 32)
    ∧ (pre = [0x53, 0x4E] → digs = [0x30, 0x30, 0x31, 0x32, 0x33, 0x34, 0x35] →
        ELCOM_getSysSn crc s w = some (ELCOM_NO_ERROR, s', w', calls, 12345)) := by
  have hsn : ELCOM_getSysSn crc s w
      = some (ELCOM_NO_ERROR, s', w', calls, decimalValue digs % 2 ^ 32) := by
    rw [getSysSn_of_success crc s s' w w' calls hok, hdata, List.foldl_append,
      snStep_non_digits pre hpre]
    have := snStep_digits digs hdigs 0
    rw [Nat.zero_mod] at this
    rw [this]
    rfl
  refine ⟨hsn, ?_⟩
  intro _ hd
  rw [hsn, hd]
  rfl

/-- Witness of C20: a successful response carrying the bytes "SN0012345". -/
theorem getSysSn_prefixed_digits_witness :
    ∃ s' calls,
      ELCOM_getSysSn sumCrc
          (respondingSensor
            (snResponse [0x53, 0x4E, 0x30, 0x30, 0x31, 0x32, 0x33, 0x34, 0x35])) ()
        = some (ELCOM_NO_ERROR, s', (), calls, 12345) :=
  ⟨_, _,
    (getSysSn_prefixed_digits sumCrc
      (respondingSensor (snResponse [0x53, 0x4E, 0x30, 0x30, 0x31, 0x32, 0x33, 0x34, 0x35]))
      _ () () _ [0x53, 0x4E] [0x30, 0x30, 0x31, 0x32, 0x33, 0x34, 0x35] rfl (by decide)
      (by decide) (by decide)).2 rfl rfl⟩


/-! ## The queries as functions of the transaction -/

theorem getSenData_eq {W : Type} (crc : List Nat → Nat) (overflow : Int → Int)
    (s : ELICHENS_Sensor_t W) (w : W) (d : ELICHENS_SensorData_t) :
    ELCOM_getSenData crc overflow s w d =
      (EL_sendAndReceivePacket crc (indexedRequest ELCOM_CMD_GET_SEN_DATA s) w).bind
        (fun r =>
          if ELCOM_NO_ERROR ≠ r.1 then
            some (r.1, r.2.1, r.2.2.1, r.2.2.2, { status := 0xFF, error := 0xFF, value := 0 })
          else
            some (r.1, r.2.1, r.2.2.1, r.2.2.2,
              { status := r.2.1.packet.data 1, error := r.2.1.packet.data 2,
                value := DIV_ROUND_CLOSEST overflow (i32OfBytes r.2.1.packet.data 3) 100 })) := by
  unfold ELCOM_getSenData indexedRequest
  simp only
  cases EL_sendAndReceivePacket crc _ w with
  | none => rfl
  | some r =>
    obtain ⟨e, s', w', calls⟩ := r
    simp only [Option.bind]


theorem getSysModelName_eq {W : Type} (crc : List Nat → Nat) (s : ELICHENS_Sensor_t W) (w : W)
    (modelName : Buffer) :
    ELCOM_getSysModelName crc s w modelName =
      (EL_sendAndReceivePacket crc (plainRequest ELCOM_CMD_GET_MODEL_NAME s) w).bind
        (fun r =>
          if ELCOM_NO_ERROR ≠ r.1 then
            some (r.1, r.2.1, r.2.2.1, r.2.2.2, poke modelName 0 0)
          else
            some (r.1, r.2.1, r.2.2.1, r.2.2.2,
              poke (memcpy modelName 0 r.2.1.packet.data 0 r.2.1.packet.dataLength)
                r.2.1.packet.dataLength 0)) := by
  unfold ELCOM_getSysModelName plainRequest
  simp only
  cases EL_sendAndReceivePacket crc _ w with
  | none => rfl
  | some r =>
    obtain ⟨e, s', w', calls⟩ := r
    simp only [Option.bind]

theorem getSysProdName_eq {W : Type} (crc : List Nat → Nat) (s : ELICHENS_Sensor_t W) (w : W)
    (prodName : Buffer) :
    ELCOM_getSysProdName crc s w prodName =
      (EL_sendAndReceivePacket crc (plainRequest ELCOM_CMD_GET_PROD_NAME s) w).bind
        (fun r =>
          if ELCOM_NO_ERROR ≠ r.1 then
            some (r.1, r.2.1, r.2.2.1, r.2.2.2, poke prodName 0 0)
          else
            some (r.1, r.2.1, r.2.2.1, r.2.2.2,
              poke (memcpy prodName 0 r.2.1.packet.data 0 r.2.1.packet.dataLength)
                r.2.1.packet.dataLength 0)) := by
  unfold ELCOM_getSysProdName plainRequest
  simp only
  cases EL_sendAndReceivePacket crc _ w with
  | none => rfl
  | some r =>
    obtain ⟨e, s', w', calls⟩ := r
    simp only [Option.bind]

theorem getSysFwVer_eq {W : Type} (crc : List Nat → Nat) (s : ELICHENS_Sensor_t W) (w : W)
    (version : Buffer) :
    ELCOM_getSysFwVer crc s w version =
      (EL_sendAndReceivePacket crc (plainRequest ELCOM_CMD_GET_FW_VER s) w).bind
        (fun r =>
          if ELCOM_NO_ERROR ≠ r.1 then
            some (r.1, r.2.1, r.2.2.1, r.2.2.2, poke version 0 0)
          else if r.2.1.packet.dataLength ≠ 6 then
            some (ELCOM_SLAVE_ERROR, r.2.1, r.2.2.1, r.2.2.2, poke version 0 0)
          else
            some (r.1, r.2.1, r.2.2.1, r.2.2.2,
              poke (memcpy version 0 r.2.1.packet.data 0 r.2.1.packet.dataLength)
                r.2.1.packet.dataLength 0)) := by
  unfold ELCOM_getSysFwVer plainRequest
  simp only
  cases EL_sendAndReceivePacket crc _ w with
  | none => rfl
  | some r =>
    obtain ⟨e, s', w', calls⟩ := r
    simp only [Option.bind]

theorem getSysRunTime_eq {W : Type} (crc : List Nat → Nat) (s : ELICHENS_Sensor_t W) (w : W)
    (runtime : Nat) :
    ELCOM_getSysRunTime crc s w runtime =
      (EL_sendAndReceivePacket crc (plainRequest ELCOM_CMD_GET_RUN_TIME s) w).bind
        (fun r =>
          if ELCOM_NO_ERROR ≠ r.1 then
            some (r.1, r.2.1, r.2.2.1, r.2.2.2, runtime)
          else
            some (r.1, r.2.1, r.2.2.1, r.2.2.2, u32OfBytes r.2.1.packet.data 0)) := by
  unfold ELCOM_getSysRunTime plainRequest
  simp only
  cases EL_sendAndReceivePacket crc _ w with
  | none => rfl
  | some r =>
    obtain ⟨e, s', w', calls⟩ := r
    simp only [Option.bind]

theorem getSenTemp_eq {W F : Type} (crc : List Nat → Nat) (divide100 : Int → F) (s : ELICHENS_Sensor_t W) (w : W)
    (temperature : F) :
    ELCOM_getSenTemp crc divide100 s w temperature =
      (EL_sendAndReceivePacket crc (indexedRequest ELCOM_CMD_GET_SEN_TEMP s) w).bind
        (fun r =>
          if ELCOM_NO_ERROR ≠ r.1 then
            some (r.1, r.2.1, r.2.2.1, r.2.2.2, temperature)
          else
            some (r.1, r.2.1, r.2.2.1, r.2.2.2, divide100 (i32OfBytes r.2.1.packet.data 1))) := by
  unfold ELCOM_getSenTemp indexedRequest
  simp only
  cases EL_sendAndReceivePacket crc _ w with
  | none => rfl
  | some r =>
    obtain ⟨e, s', w', calls⟩ := r
    simp only [Option.bind]

theorem getSenDataFmt_eq {W : Type} (crc : List Nat → Nat) (s : ELICHENS_Sensor_t W) (w : W)
    (format : ELCOM_DataFormat_t) :
    ELCOM_getSenDataFmt crc s w format =
      (EL_sendAndReceivePacket crc (indexedRequest ELCOM_CMD_GET_SEN_DATA_FMT s) w).bind
        (fun r =>
          if ELCOM_NO_ERROR ≠ r.1 then
            some (r.1, r.2.1, r.2.2.1, r.2.2.2, format)
          else
            some (r.1, r.2.1, r.2.2.1, r.2.2.2,
              { decimalPoint := r.2.1.packet.data 1, unitCode := r.2.1.packet.data 2,
                resInt := r.2.1.packet.data 3, resExp := r.2.1.packet.data 4 })) := by
  unfold ELCOM_getSenDataFmt indexedRequest
  simp only
  cases EL_sendAndReceivePacket crc _ w with
  | none => rfl
  | some r =>
    obtain ⟨e, s', w', calls⟩ := r
    simp only [Option.bind]

theorem getSenName_eq {W : Type} (crc : List Nat → Nat) (s : ELICHENS_Sensor_t W) (w : W)
    (name : Buffer) :
    ELCOM_getSenName crc s w name =
      (EL_sendAndReceivePacket crc (indexedRequest ELCOM_CMD_GET_SEN_NAME s) w).bind
        (fun r =>
          if ELCOM_NO_ERROR ≠ r.1 then
            some (r.1, r.2.1, r.2.2.1, r.2.2.2, poke name 0 0)
          else if r.2.1.packet.dataLength = 0 then
            none
          else
            some (r.1, r.2.1, r.2.2.1, r.2.2.2,
              poke (memcpy name 0 r.2.1.packet.data 1 (r.2.1.packet.dataLength - 1))
                (r.2.1.packet.dataLength - 1) 0)) := by
  unfold ELCOM_getSenName indexedRequest
  simp only
  cases EL_sendAndReceivePacket crc _ w with
  | none => rfl
  | some r =>
    obtain ⟨e, s', w', calls⟩ := r
    simp only [Option.bind]

theorem getSysSn_eq {W : Type} (crc : List Nat → Nat) (s : ELICHENS_Sensor_t W) (w : W) :
    ELCOM_getSysSn crc s w =
      (EL_sendAndReceivePacket crc (plainRequest ELCOM_CMD_GET_SEN_SN s) w).bind
        (fun r =>
          if ELCOM_NO_ERROR ≠ r.1 then
            some (r.1, r.2.1, r.2.2.1, r.2.2.2, 0)
          else
            some (r.1, r.2.1, r.2.2.1, r.2.2.2,
              (bytesOf r.2.1.packet.data r.2.1.packet.dataLength).foldl snStep 0)) := by
  unfold ELCOM_getSysSn plainRequest
  simp only
  cases EL_sendAndReceivePacket crc _ w with
  | none => rfl
  | some r =>
    obtain ⟨e, s', w', calls⟩ := r
    simp only [Option.bind, bytesOf, List.foldl_map]
    rfl


/-! ## Measurement -/

theorem int32Result_of_range (overflow : Int → Int) (z : Int) (h1 : -2 ^ 31 ≤ z)
    (h2 : z < 2 ^ 31) : int32Result overflow z = z := by
  unfold int32Result
  rw [if_pos ⟨h1, h2⟩]

/-- Inside the range where the sum and the difference do not leave `int32_t`,
`DIV_ROUND_CLOSEST(r, 100)` is the nearest integer to `r / 100`, halves away from
zero, whatever an overflowing operation would yield. -/
theorem div_round_closest_in_range (overflow : Int → Int) (r : Int) (h1 : -2 ^ 31 + 50 ≤ r)
    (h2 : r ≤ 2 ^ 31 - 51) :
    -50 ≤ 100 * DIV_ROUND_CLOSEST overflow r 100 - r
    ∧ 100 * DIV_ROUND_CLOSEST overflow r 100 - r ≤ 50
    ∧ (100 * DIV_ROUND_CLOSEST overflow r 100 - r = 50 → 0 < r)
    ∧ (100 * DIV_ROUND_CLOSEST overflow r 100 - r = -50 → r ≤ 0) := by
  have hd : Int.tdiv (100 : Int) 2 = 50 := by decide
  by_cases hr : r > 0
  · have hc : (-1 : Int) > 0 ∨ (-1 : Int) > 0 ∨ r > 0 := Or.inr (Or.inr hr)
    have hq : DIV_ROUND_CLOSEST overflow r 100 = (r + 50) / 100 := by
      simp only [DIV_ROUND_CLOSEST]
      rw [if_pos hc, hd, int32Result_of_range overflow (r + 50) (by omega) (by omega)]
      exact Int.tdiv_eq_ediv (by omega) (by omega)
    rw [hq]
    omega
  · have hc : ¬ ((-1 : Int) > 0 ∨ (-1 : Int) > 0 ∨ r > 0) := by
      rintro (h | h | h)
      · exact absurd h (by decide)
      · exact absurd h (by decide)
      · exact hr h
    have hq : DIV_ROUND_CLOSEST overflow r 100 = -((50 - r) / 100) := by
      simp only [DIV_ROUND_CLOSEST]
      rw [if_neg hc, hd, int32Result_of_range overflow (r - 50) (by omega) (by omega)]
      have e : r - 50 = -(50 - r) := by omega
      rw [e, Int.neg_tdiv]
      congr 1
      exact Int.tdiv_eq_ediv (by omega) (by omega)
    rw [hq]
    omega

/-- Outside that range the macro divides what the overflowing operation yields. -/
theorem div_round_closest_overflow (overflow : Int → Int) (r : Int) :
    (2 ^ 31 - 50 ≤ r →
      DIV_ROUND_CLOSEST overflow r 100 = Int.tdiv (overflow (r + 50)) 100)
    ∧ (r ≤ -2 ^ 31 + 49 →
      DIV_ROUND_CLOSEST overflow r 100 = Int.tdiv (overflow (r - 50)) 100) := by
  have hd : Int.tdiv (100 : Int) 2 = 50 := by decide
  constructor
  · intro h
    have hc : (-1 : Int) > 0 ∨ (-1 : Int) > 0 ∨ r > 0 := Or.inr (Or.inr (by omega))
    have hn : ¬ (-2 ^ 31 ≤ r + 50 ∧ r + 50 < 2 ^ 31) := by omega
    simp only [DIV_ROUND_CLOSEST]
    rw [if_pos hc, hd]
    unfold int32Result
    rw [if_neg hn]
  · intro h
    have hc : ¬ ((-1 : Int) > 0 ∨ (-1 : Int) > 0 ∨ r > 0) := by
      rintro (h' | h' | h')
      · exact absurd h' (by decide)
      · exact absurd h' (by decide)
      · omega
    have hn : ¬ (-2 ^ 31 ≤ r - 50 ∧ r - 50 < 2 ^ 31) := by omega
    simp only [DIV_ROUND_CLOSEST]
    rw [if_neg hc, hd]
    unfold int32Result
    rw [if_neg hn]

/-- C21: for every raw value `r` with -2147483598 ≤ r ≤ 2147483597 the value
`DIV_ROUND_CLOSEST(r, 100)` stored by `ELCOM_getSenData` is `r / 100` rounded to
the nearest integer, halves away from zero, and the documented values 12345,
12350 and -12350 give 123, 124 and -124.  For the other values of `int32_t` the
sum `__x + __d / 2` (or the difference) of the macro overflows `int32_t`, which C
leaves undefined: on a successful response whose raw value is 2147483647 (data
bytes FF FF FF 7F) the value stored is the quotient by 100 of whatever the
overflowing sum yields, -21474835 when it wraps and 21474836, the nearest
integer to `r / 100`, when it is computed exactly, so that the source does not
determine it. -/
theorem getSenData_rounding_overflows (overflow : Int → Int) :
    (∀ r : Int, -2 ^ 31 + 50 ≤ r → r ≤ 2 ^ 31 - 51 →
      -50 ≤ 100 * DIV_ROUND_CLOSEST overflow r 100 - r
      ∧ 100 * DIV_ROUND_CLOSEST overflow r 100 - r ≤ 50
      ∧ (100 * DIV_ROUND_CLOSEST overflow r 100 - r = 50 → 0 < r)
      ∧ (100 * DIV_ROUND_CLOSEST overflow r 100 - r = -50 → r ≤ 0))
    ∧ DIV_ROUND_CLOSEST overflow 12345 100 = 123
    ∧ DIV_ROUND_CLOSEST overflow 12350 100 = 124
    ∧ DIV_ROUND_CLOSEST overflow (-12350) 100 = -124
    ∧ i32OfBytes
        (ELCOM_parseReceivedPacket sumCrc (measurementFrame 0 0 0xFF 0xFF 0xFF 0x7F)
          stalePacket).2.data 3 = 2147483647
    ∧ (2 ^ 31 - 1 : Int) < 2147483647 + Int.tdiv 100 2
    ∧ (ELCOM_getSenData sumCrc overflow
          (respondingSensor (measurementFrame 0 0 0xFF 0xFF 0xFF 0x7F)) () staleData).map
        (fun r => (r.1, r.2.2.2.2.value))
        = some (ELCOM_NO_ERROR, Int.tdiv (overflow 2147483697) 100)
    ∧ (ELCOM_getSenData sumCrc wrapInt32
          (respondingSensor (measurementFrame 0 0 0xFF 0xFF 0xFF 0x7F)) () staleData).map
        (fun r => (r.1, r.2.2.2.2.value)) = some (ELCOM_NO_ERROR, -21474835)
    ∧ (ELCOM_getSenData sumCrc (fun z => z)
          (respondingSensor (measurementFrame 0 0 0xFF 0xFF 0xFF 0x7F)) () staleData).map
        (fun r => (r.1, r.2.2.2.2.value)) = some (ELCOM_NO_ERROR, 21474836)
    ∧ (-50 ≤ 100 * (21474836 : Int) - 2147483647 ∧ 100 * (21474836 : Int) - 2147483647 ≤ 50) := by
  have hraw : i32OfBytes
      (ELCOM_parseReceivedPacket sumCrc (measurementFrame 0 0 0xFF 0xFF 0xFF 0x7F)
        stalePacket).2.data 3 = 2147483647 := by decide
  have hrun : ∀ ov : Int → Int,
      (ELCOM_getSenData sumCrc ov
          (respondingSensor (measurementFrame 0 0 0xFF 0xFF 0xFF 0x7F)) () staleData).map
        (fun r => (r.1, r.2.2.2.2.value))
        = some (ELCOM_NO_ERROR, DIV_ROUND_CLOSEST ov
            (i32OfBytes (ELCOM_parseReceivedPacket sumCrc
              (measurementFrame 0 0 0xFF 0xFF 0xFF 0x7F) stalePacket).2.data 3) 100) := by
    intro ov
    rfl
  have hov : ∀ ov : Int → Int,
      DIV_ROUND_CLOSEST ov 2147483647 100 = Int.tdiv (ov 2147483697) 100 := by
    intro ov
    exact (div_round_closest_overflow ov 2147483647).1 (by decide)
  refine ⟨fun r h1 h2 => div_round_closest_in_range overflow r h1 h2, ?_, ?_, ?_, hraw,
    by decide, ?_, ?_, ?_, by decide⟩
  · have h := div_round_closest_in_range overflow 12345 (by decide) (by decide)
    omega
  · have h := div_round_closest_in_range overflow 12350 (by decide) (by decide)
    omega
  · have h := div_round_closest_in_range overflow (-12350) (by decide) (by decide)
    omega
  · rw [hrun, hraw, hov]
  · rw [hrun, hraw, hov]
    decide
  · rw [hrun, hraw, hov]
    decide

/-- Witness of C21: the raw value -12350, inside the range, under the wrapping
overflow. -/
theorem getSenData_rounding_overflows_witness :
    (-2 ^ 31 + 50 ≤ (-12350 : Int)) ∧ ((-12350 : Int) ≤ 2 ^ 31 - 51)
    ∧ -50 ≤ 100 * DIV_ROUND_CLOSEST wrapInt32 (-12350) 100 - (-12350)
    ∧ 100 * DIV_ROUND_CLOSEST wrapInt32 (-12350) 100 - (-12350) ≤ 50 :=
  ⟨by decide, by decide,
    ((getSenData_rounding_overflows wrapInt32).1 (-12350) (by decide) (by decide)).1,
    ((getSenData_rounding_overflows wrapInt32).1 (-12350) (by decide) (by decide)).2.1⟩


/-- C22: on every successful measurement transaction `ELCOM_getSenData` returns
`ELCOM_NO_ERROR` with the status taken from data byte 1, the error from data
byte 2, and the value computed by `DIV_ROUND_CLOSEST(raw, 100)` from the raw
value held in data bytes 3 to 6, read as a little-endian signed 32-bit integer
(byte 0 being the sensor index). -/
theorem getSenData_success {W : Type} (crc : List Nat → Nat) (overflow : Int → Int)
    (s s' : ELICHENS_Sensor_t W) (w w' : W) (calls : List Call) (d : ELICHENS_SensorData_t)
    (hok : EL_sendAndReceivePacket crc (indexedRequest ELCOM_CMD_GET_SEN_DATA s) w
      = some (ELCOM_NO_ERROR, s', w', calls)) :
    ELCOM_getSenData crc overflow s w d =
        some (ELCOM_NO_ERROR, s', w', calls,
          { status := s'.packet.data 1, error := s'.packet.data 2,
            value := DIV_ROUND_CLOSEST overflow (i32OfBytes s'.packet.data 3) 100 })
    ∧ i32OfBytes s'.packet.data 3 =
        (if s'.packet.data 3 + 2 ^ 8 * s'.packet.data 4 + 2 ^ 16 * s'.packet.data 5
            + 2 ^ 24 * s'.packet.data 6 < 2 ^ 31 then
          ((s'.packet.data 3 + 2 ^ 8 * s'.packet.data 4 + 2 ^ 16 * s'.packet.data 5
            + 2 ^ 24 * s'.packet.data 6 : Nat) : Int)
        else
          ((s'.packet.data 3 + 2 ^ 8 * s'.packet.data 4 + 2 ^ 16 * s'.packet.data 5
            + 2 ^ 24 * s'.packet.data 6 : Nat) : Int) - 2 ^ 32) := by
  constructor
  · rw [getSenData_eq, hok]
    rfl
  · rfl

/-- Witness of C22: a response with status 0x02, error 0x00 and raw value 12350. -/
theorem getSenData_success_witness :
    ∃ s' calls,
      ELCOM_getSenData sumCrc wrapInt32
          (respondingSensor (measurementFrame 0x02 0x00 0x3E 0x30 0 0)) () staleData
        = some (ELCOM_NO_ERROR, s', (), calls, { status := 0x02, error := 0x00, value := 124 }) :=
  ⟨_, _,
    (getSenData_success sumCrc wrapInt32
      (respondingSensor (measurementFrame 0x02 0x00 0x3E 0x30 0 0)) _ () () _ staleData rfl).1⟩

/-- C23: for every error code `e` other than `ELCOM_NO_ERROR` returned by the
transaction, `ELCOM_getSenData` returns `e` and sets status = 0xFF, error = 0xFF
and value = 0, whatever the output structure and the response contained. -/
theorem getSenData_failure {W : Type} (crc : List Nat → Nat) (overflow : Int → Int)
    (s s' : ELICHENS_Sensor_t W) (w w' : W) (calls : List Call) (d : ELICHENS_SensorData_t)
    (e : ELCOM_errorCode_t)
    (hrun : EL_sendAndReceivePacket crc (indexedRequest ELCOM_CMD_GET_SEN_DATA s) w
      = some (e, s', w', calls))
    (he : e ≠ ELCOM_NO_ERROR) :
    ELCOM_getSenData crc overflow s w d =
      some (e, s', w', calls, { status := 0xFF, error := 0xFF, value := 0 }) := by
  have he' : ELCOM_NO_ERROR ≠ e := fun h => he h.symm
  rw [getSenData_eq, hrun]
  simp only [Option.bind, he', ne_eq, not_false_eq_true, if_true]

/-- Witness of C23: a transport on which arming fails. -/
theorem getSenData_failure_witness :
    ∃ s' calls,
      ELCOM_getSenData sumCrc wrapInt32 failingSensor () staleData
        = some (ELCOM_SLAVE_TIMEOUT, s', (), calls,
            { status := 0xFF, error := 0xFF, value := 0 }) :=
  ⟨_, _, getSenData_failure sumCrc wrapInt32 failingSensor _ () () _ staleData
    ELCOM_SLAVE_TIMEOUT rfl
    (by decide)⟩

/-! ## Run time -/

/-- C25: on every successful run-time transaction `ELCOM_getSysRunTime` returns
`ELCOM_NO_ERROR` and `data[0] + 2^8 * data[1] + 2^16 * data[2] + 2^24 * data[3]`,
the first four response data bytes read as a little-endian unsigned 32-bit
integer. -/
theorem getSysRunTime_success {W : Type} (crc : List Nat → Nat) (s s' : ELICHENS_Sensor_t W)
    (w w' : W) (calls : List Call) (runtime : Nat)
    (hok : EL_sendAndReceivePacket crc (plainRequest ELCOM_CMD_GET_RUN_TIME s) w
      = some (ELCOM_NO_ERROR, s', w', calls)) :
    ELCOM_getSysRunTime crc s w runtime =
      some (ELCOM_NO_ERROR, s', w', calls,
        s'.packet.data 0 + 2 ^ 8 * s'.packet.data 1 + 2 ^ 16 * s'.packet.data 2
          + 2 ^ 24 * s'.packet.data 3) := by
  rw [getSysRunTime_eq, hok]
  rfl

/-- Witness of C25: a response carrying the bytes 10 32 54 76. -/
theorem getSysRunTime_success_witness :
    ∃ s' calls,
      ELCOM_getSysRunTime sumCrc
          (respondingSensor
            (ELCOM_prepareSendPacket sumCrc
              { cmd := ELCOM_CMD_GET_RUN_TIME, dataLength := 4,
                data := fun i => [0x10, 0x32, 0x54, 0x76].getD i 0 } zeroBuffer).2) () 0
        = some (ELCOM_NO_ERROR, s', (), calls, 0x76543210) :=
  ⟨_, _,
    getSysRunTime_success sumCrc
      (respondingSensor
        (ELCOM_prepareSendPacket sumCrc
          { cmd := ELCOM_CMD_GET_RUN_TIME, dataLength := 4,
            data := fun i => [0x10, 0x32, 0x54, 0x76].getD i 0 } zeroBuffer).2)
      _ () () _ 0 rfl⟩

/-! ## Decoder results -/

/-- C30: for every input buffer `ELCOM_parseReceivedPacket` never returns
`ELCOM_INVALID_VER`; a wrong version byte is reported as `ELCOM_INVALID_SOP`
(`ELCOM_validateHeader` itself never returns `ELCOM_INVALID_VER`), and the result
is one of `ELCOM_NO_ERROR`, `ELCOM_INVALID_SOP`, `ELCOM_INVALID_EOP`,
`ELCOM_INVALID_CRC` and `ELCOM_SLAVE_ERROR`. -/
theorem parse_never_invalid_ver (crc : List Nat → Nat) (b : Buffer) (pkt : ELCOM_packet_t) :
    (ELCOM_parseReceivedPacket crc b pkt).1 ≠ ELCOM_INVALID_VER
    ∧ ELCOM_validateHeader b ≠ ELCOM_INVALID_VER
    ∧ (b ELCOM_FIELD_VER_POS ≠ ELCOM_FIELD_VER_VALUE →
        (ELCOM_parseReceivedPacket crc b pkt).1 = ELCOM_INVALID_SOP)
    ∧ ((ELCOM_parseReceivedPacket crc b pkt).1 = ELCOM_NO_ERROR
        ∨ (ELCOM_parseReceivedPacket crc b pkt).1 = ELCOM_INVALID_SOP
        ∨ (ELCOM_parseReceivedPacket crc b pkt).1 = ELCOM_INVALID_EOP
        ∨ (ELCOM_parseReceivedPacket crc b pkt).1 = ELCOM_INVALID_CRC
        ∨ (ELCOM_parseReceivedPacket crc b pkt).1 = ELCOM_SLAVE_ERROR) := by
  have hfive : (ELCOM_parseReceivedPacket crc b pkt).1 = ELCOM_NO_ERROR
      ∨ (ELCOM_parseReceivedPacket crc b pkt).1 = ELCOM_INVALID_SOP
      ∨ (ELCOM_parseReceivedPacket crc b pkt).1 = ELCOM_INVALID_EOP
      ∨ (ELCOM_parseReceivedPacket crc b pkt).1 = ELCOM_INVALID_CRC
      ∨ (ELCOM_parseReceivedPacket crc b pkt).1 = ELCOM_SLAVE_ERROR := by
    rw [parse_eq]
    split_ifs
    · exact Or.inr (Or.inl rfl)
    · exact Or.inr (Or.inr (Or.inl rfl))
    · exact Or.inr (Or.inr (Or.inr (Or.inl rfl)))
    · exact Or.inr (Or.inr (Or.inr (Or.inr rfl)))
    · exact Or.inl rfl
  refine ⟨?_, ?_, ?_, hfive⟩
  · intro h
    rw [h] at hfive
    rcases hfive with h | h | h | h | h <;> cases h
  · rw [validateHeader_eq]
    split <;> decide
  · intro hv
    have h' : b 0 ≠ 0x5B ∨ b 1 ≠ 0x01 := Or.inr hv
    rw [parse_eq, if_pos h']


/-! ## Names and firmware version -/

theorem string_copy_at (dst src : Buffer) (k n i : Nat) (hi : i < n) :
    poke (memcpy dst 0 src k n) n 0 i = src (k + i) := by
  have h1 : ¬ (i = n) := by omega
  have h2 : 0 ≤ i ∧ i < 0 + n := by omega
  simp only [poke, memcpy]
  rw [if_neg h1, if_pos h2]
  congr 1

theorem string_copy_end (dst src : Buffer) (k n : Nat) :
    poke (memcpy dst 0 src k n) n 0 n = 0 := by
  simp only [poke, if_true]

theorem poke_self (dst : Buffer) (k v : Nat) : poke dst k v k = v := by
  simp only [poke, if_true]

/-- C26: on a successful transaction with response data length `n`,
`ELCOM_getSysModelName` and `ELCOM_getSysProdName` return `ELCOM_NO_ERROR` and a
destination holding the `n` data bytes of the response packet followed by a zero
terminator, and `ELCOM_getSenName`, for `n ≥ 1`, the `n - 1` data bytes that
follow the index byte, followed by a zero terminator; when the transaction fails
with the error `e` each of them returns `e` and a destination whose first byte
is 0. -/
theorem name_queries {W : Type} (crc : List Nat → Nat) (s s' : ELICHENS_Sensor_t W)
    (w w' : W) (calls : List Call) (e : ELCOM_errorCode_t) (dst : Buffer) :
    (EL_sendAndReceivePacket crc (plainRequest ELCOM_CMD_GET_MODEL_NAME s) w
        = some (e, s', w', calls) →
      (e = ELCOM_NO_ERROR →
        ∃ out, ELCOM_getSysModelName crc s w dst = some (ELCOM_NO_ERROR, s', w', calls, out)
          ∧ (∀ i, i < s'.packet.dataLength → out i = s'.packet.data i)
          ∧ out s'.packet.dataLength = 0)
      ∧ (e ≠ ELCOM_NO_ERROR →
        ∃ out, ELCOM_getSysModelName crc s w dst = some (e, s', w', calls, out) ∧ out 0 = 0))
    ∧ (EL_sendAndReceivePacket crc (plainRequest ELCOM_CMD_GET_PROD_NAME s) w
        = some (e, s', w', calls) →
      (e = ELCOM_NO_ERROR →
        ∃ out, ELCOM_getSysProdName crc s w dst = some (ELCOM_NO_ERROR, s', w', calls, out)
          ∧ (∀ i, i < s'.packet.dataLength → out i = s'.packet.data i)
          ∧ out s'.packet.dataLength = 0)
      ∧ (e ≠ ELCOM_NO_ERROR →
        ∃ out, ELCOM_getSysProdName crc s w dst = some (e, s', w', calls, out) ∧ out 0 = 0))
    ∧ (EL_sendAndReceivePacket crc (indexedRequest ELCOM_CMD_GET_SEN_NAME s) w
        = some (e, s', w', calls) →
      (e = ELCOM_NO_ERROR → 1 ≤ s'.packet.dataLength →
        ∃ out, ELCOM_getSenName crc s w dst = some (ELCOM_NO_ERROR, s', w', calls, out)
          ∧ (∀ i, i < s'.packet.dataLength - 1 → out i = s'.packet.data (1 + i))
          ∧ out (s'.packet.dataLength - 1) = 0)
      ∧ (e ≠ ELCOM_NO_ERROR →
        ∃ out, ELCOM_getSenName crc s w dst = some (e, s', w', calls, out) ∧ out 0 = 0)) := by
  refine ⟨?_, ?_, ?_⟩
  · intro hrun
    constructor
    · intro he
      subst he
      refine ⟨_, by rw [getSysModelName_eq, hrun]; rfl, ?_, ?_⟩
      · intro i hi
        rw [string_copy_at _ _ 0 _ i hi, Nat.zero_add]
      · exact string_copy_end _ _ 0 _
    · intro he
      have he' : ELCOM_NO_ERROR ≠ e := fun h => he h.symm
      refine ⟨_, ?_, poke_self dst 0 0⟩
      rw [getSysModelName_eq, hrun]
      simp only [Option.bind, he', ne_eq, not_false_eq_true, if_true]
  · intro hrun
    constructor
    · intro he
      subst he
      refine ⟨_, by rw [getSysProdName_eq, hrun]; rfl, ?_, ?_⟩
      · intro i hi
        rw [string_copy_at _ _ 0 _ i hi, Nat.zero_add]
      · exact string_copy_end _ _ 0 _
    · intro he
      have he' : ELCOM_NO_ERROR ≠ e := fun h => he h.symm
      refine ⟨_, ?_, poke_self dst 0 0⟩
      rw [getSysProdName_eq, hrun]
      simp only [Option.bind, he', ne_eq, not_false_eq_true, if_true]
  · intro hrun
    constructor
    · intro he hn
      subst he
      have hn0 : ¬ (s'.packet.dataLength = 0) := by omega
      refine ⟨poke (memcpy dst 0 s'.packet.data 1 (s'.packet.dataLength - 1))
        (s'.packet.dataLength - 1) 0, ?_, ?_, ?_⟩
      · rw [getSenName_eq, hrun]
        simp only [Option.bind, ne_eq, not_true_eq_false, if_false, hn0]
      · intro i hi
        exact string_copy_at _ _ 1 _ i hi
      · exact string_copy_end _ _ 1 _
    · intro he
      have he' : ELCOM_NO_ERROR ≠ e := fun h => he h.symm
      refine ⟨_, ?_, poke_self dst 0 0⟩
      rw [getSenName_eq, hrun]
      simp only [Option.bind, he', ne_eq, not_false_eq_true, if_true]

/-- Witness of C26: a model-name response carrying the bytes "FOX". -/
theorem name_queries_witness :
    ∃ s' calls out,
      ELCOM_getSysModelName sumCrc
          (respondingSensor (textResponse ELCOM_CMD_GET_MODEL_NAME [0x46, 0x4F, 0x58])) ()
          staleText = some (ELCOM_NO_ERROR, s', (), calls, out)
      ∧ (∀ i, i < s'.packet.dataLength → out i = s'.packet.data i)
      ∧ out s'.packet.dataLength = 0 :=
  let ⟨out, h⟩ :=
    ((name_queries sumCrc
      (respondingSensor (textResponse ELCOM_CMD_GET_MODEL_NAME [0x46, 0x4F, 0x58])) _ () () _
      ELCOM_NO_ERROR staleText).1 rfl).1 rfl
  ⟨_, _, out, h⟩


/-- C27, refuted on a firmware-version response carrying the three bytes "1.2":
the transaction completes with `ELCOM_NO_ERROR` and a data length of 3, yet
`ELCOM_getSysFwVer` returns `ELCOM_SLAVE_ERROR` and the empty string. -/
theorem getSysFwVer_rejects_length :
    (EL_sendAndReceivePacket sumCrc
        (plainRequest ELCOM_CMD_GET_FW_VER
          (respondingSensor (textResponse ELCOM_CMD_GET_FW_VER [0x31, 0x2E, 0x32]))) ()).map
      (fun r => (r.1, r.2.1.packet.dataLength)) = some (ELCOM_NO_ERROR, 3)
    ∧ (ELCOM_getSysFwVer sumCrc
        (respondingSensor (textResponse ELCOM_CMD_GET_FW_VER [0x31, 0x2E, 0x32])) ()
        staleText).map (fun r => (r.1, r.2.2.2.2 0)) = some (ELCOM_SLAVE_ERROR, 0) := by
  decide

/-- C27 as amended: on a transaction that completes with `ELCOM_NO_ERROR`,
`ELCOM_getSysFwVer` returns `ELCOM_NO_ERROR` and the version string, the data
bytes of the response packet followed by a zero terminator, exactly when the
response data length is 6; for any other data length it returns
`ELCOM_SLAVE_ERROR` and the empty string.  When the transaction fails with the
error `e` it returns `e` and the empty string. -/
theorem getSysFwVer_cases {W : Type} (crc : List Nat → Nat) (s s' : ELICHENS_Sensor_t W)
    (w w' : W) (calls : List Call) (e : ELCOM_errorCode_t) (version : Buffer)
    (hrun : EL_sendAndReceivePacket crc (plainRequest ELCOM_CMD_GET_FW_VER s) w
      = some (e, s', w', calls)) :
    (e = ELCOM_NO_ERROR → s'.packet.dataLength = 6 →
      ∃ out, ELCOM_getSysFwVer crc s w version = some (ELCOM_NO_ERROR, s', w', calls, out)
        ∧ (∀ i, i < 6 → out i = s'.packet.data i) ∧ out 6 = 0)
    ∧ (e = ELCOM_NO_ERROR → s'.packet.dataLength ≠ 6 →
      ∃ out, ELCOM_getSysFwVer crc s w version = some (ELCOM_SLAVE_ERROR, s', w', calls, out)
        ∧ out 0 = 0)
    ∧ (e ≠ ELCOM_NO_ERROR →
      ∃ out, ELCOM_getSysFwVer crc s w version = some (e, s', w', calls, out) ∧ out 0 = 0) := by
  refine ⟨?_, ?_, ?_⟩
  · intro he hn
    subst he
    have hn' : ¬ (s'.packet.dataLength ≠ 6) := fun h => h hn
    refine ⟨poke (memcpy version 0 s'.packet.data 0 s'.packet.dataLength)
      s'.packet.dataLength 0, ?_, ?_, ?_⟩
    · rw [getSysFwVer_eq, hrun]
      simp only [Option.bind, ne_eq, not_true_eq_false, if_false, hn]
    · intro i hi
      rw [string_copy_at _ _ 0 _ i (by omega), Nat.zero_add]
    · rw [hn]
      exact string_copy_end _ _ 0 _
  · intro he hn
    subst he
    refine ⟨poke version 0 0, ?_, poke_self version 0 0⟩
    rw [getSysFwVer_eq, hrun]
    simp only [Option.bind, ne_eq, not_true_eq_false, if_false, hn, not_false_eq_true, if_true]
  · intro he
    have he' : ELCOM_NO_ERROR ≠ e := fun h => he h.symm
    refine ⟨poke version 0 0, ?_, poke_self version 0 0⟩
    rw [getSysFwVer_eq, hrun]
    simp only [Option.bind, he', ne_eq, not_false_eq_true, if_true]

/-- Witness of amended C27: a firmware-version response carrying the six bytes
"1.02.3". -/
theorem getSysFwVer_cases_witness :
    ∃ s' calls out,
      ELCOM_getSysFwVer sumCrc
          (respondingSensor
            (textResponse ELCOM_CMD_GET_FW_VER [0x31, 0x2E, 0x30, 0x32, 0x2E, 0x33])) ()
          staleText = some (ELCOM_NO_ERROR, s', (), calls, out)
      ∧ (∀ i, i < 6 → out i = s'.packet.data i) ∧ out 6 = 0 :=
  let ⟨out, h⟩ :=
    (getSysFwVer_cases sumCrc
      (respondingSensor
        (textResponse ELCOM_CMD_GET_FW_VER [0x31, 0x2E, 0x30, 0x32, 0x2E, 0x33])) _ () () _
      ELCOM_NO_ERROR staleText rfl).1 rfl rfl
  ⟨_, _, out, h⟩

/-! ## Outputs on failure -/

/-- C28, evaluated on a transport on which arming fails with
`ELCOM_SLAVE_TIMEOUT`: `ELCOM_getSysRunTime`, `ELCOM_getSenTemp` and
`ELCOM_getSenDataFmt` return the error and leave their output as it was, so that
two calls that differ only in the previous content of the output end with
different outputs; the serial number and the measurement get their fallback
values. -/
theorem failure_leaves_output :
    (ELCOM_getSysRunTime sumCrc failingSensor () 12345).map (fun r => (r.1, r.2.2.2.2))
        = some (ELCOM_SLAVE_TIMEOUT, 12345)
    ∧ (ELCOM_getSysRunTime sumCrc failingSensor () 777).map (fun r => (r.1, r.2.2.2.2))
        = some (ELCOM_SLAVE_TIMEOUT, 777)
    ∧ (ELCOM_getSenTemp sumCrc (fun z : Int => z) failingSensor () 2150).map
        (fun r => (r.1, r.2.2.2.2)) = some (ELCOM_SLAVE_TIMEOUT, 2150)
    ∧ (ELCOM_getSenTemp sumCrc (fun z : Int => z) failingSensor () (-40)).map
        (fun r => (r.1, r.2.2.2.2)) = some (ELCOM_SLAVE_TIMEOUT, -40)
    ∧ (ELCOM_getSenDataFmt sumCrc failingSensor ()
        { decimalPoint := 1, unitCode := 2, resInt := 3, resExp := 4 }).map
        (fun r => (r.1, r.2.2.2.2.decimalPoint, r.2.2.2.2.unitCode, r.2.2.2.2.resInt,
          r.2.2.2.2.resExp)) = some (ELCOM_SLAVE_TIMEOUT, 1, 2, 3, 4)
    ∧ (ELCOM_getSenDataFmt sumCrc failingSensor ()
        { decimalPoint := 9, unitCode := 8, resInt := 7, resExp := 6 }).map
        (fun r => (r.1, r.2.2.2.2.decimalPoint, r.2.2.2.2.unitCode, r.2.2.2.2.resInt,
          r.2.2.2.2.resExp)) = some (ELCOM_SLAVE_TIMEOUT, 9, 8, 7, 6)
    ∧ (ELCOM_getSysSn sumCrc failingSensor ()).map (fun r => (r.1, r.2.2.2.2))
        = some (ELCOM_SLAVE_TIMEOUT, 0)
    ∧ (∀ overflow : Int → Int,
        (ELCOM_getSenData sumCrc overflow failingSensor () staleData).map
          (fun r => (r.1, r.2.2.2.2.status, r.2.2.2.2.error, r.2.2.2.2.value))
          = some (ELCOM_SLAVE_TIMEOUT, 0xFF, 0xFF, 0)) :=
  ⟨rfl, rfl, rfl, rfl, rfl, rfl, rfl, fun _ => rfl⟩


/-! ## Requests of the queries -/

/-! ## Slave-error response -/

theorem handleError_fields (e : ELCOM_errorCode_t) (packetOut : ELCOM_packet_t) :
    (ELCOM_handleError e packetOut).2.cmd = 0x40
    ∧ (ELCOM_handleError e packetOut).2.dataLength = 1
    ∧ (ELCOM_handleError e packetOut).2.data 0 = (ELCOM_handleError e packetOut).1.toNat := by
  refine ⟨rfl, rfl, ?_⟩
  simp only [ELCOM_handleError, poke, if_true]

/-- C31: for every error code `e` and every output packet, `ELCOM_handleError`
leaves the slave-error response in the packet: `cmd = 0x40`, `dataLength = 1`,
`data[0]` the returned slave error code and the other bytes of the 251-byte data
array 0.  The returned code is `ELCOM_FAIL_INVALID_CMD` when `e` is
`ELCOM_COMMAND_UNKNOW` and `ELCOM_FAIL_OPERATION` for every other `e`,
`ELCOM_NO_ERROR` included.  Encoding that packet and decoding the frame, for
every checksum function, yields `ELCOM_SLAVE_ERROR` with `cmd = 0x40`,
`dataLength = 1` and `data[0]` the slave error code. -/
theorem handleError_response (crc : List Nat → Nat) (e : ELCOM_errorCode_t)
    (packetOut pkt : ELCOM_packet_t) (buf : Buffer) :
    (ELCOM_handleError e packetOut).2.cmd = ELCOM_CMD_ERROR_SLAVE
    ∧ (ELCOM_handleError e packetOut).2.dataLength = 1
    ∧ (ELCOM_handleError e packetOut).2.data 0 = (ELCOM_handleError e packetOut).1.toNat
    ∧ (∀ i, 1 ≤ i → i < ELCOM_FIELD_DATA_MAX_SIZE → (ELCOM_handleError e packetOut).2.data i = 0)
    ∧ (ELCOM_handleError e packetOut).1
        = (if e = ELCOM_COMMAND_UNKNOW then ELCOM_FAIL_INVALID_CMD else ELCOM_FAIL_OPERATION)
    ∧ (ELCOM_handleError ELCOM_NO_ERROR packetOut).1 = ELCOM_FAIL_OPERATION
    ∧ ELCOM_FAIL_INVALID_CMD.toNat = 0x02 ∧ ELCOM_FAIL_OPERATION.toNat = 0x06
    ∧ ELCOM_parseReceivedPacket crc
        (ELCOM_prepareSendPacket crc (ELCOM_handleError e packetOut).2 buf).2 pkt
      = (ELCOM_SLAVE_ERROR,
          extractedPacket (ELCOM_prepareSendPacket crc (ELCOM_handleError e packetOut).2 buf).2 pkt)
    ∧ (extractedPacket (ELCOM_prepareSendPacket crc (ELCOM_handleError e packetOut).2 buf).2
          pkt).cmd = ELCOM_CMD_ERROR_SLAVE
    ∧ (extractedPacket (ELCOM_prepareSendPacket crc (ELCOM_handleError e packetOut).2 buf).2
          pkt).dataLength = 1
    ∧ (extractedPacket (ELCOM_prepareSendPacket crc (ELCOM_handleError e packetOut).2 buf).2
          pkt).data 0 = (ELCOM_handleError e packetOut).1.toNat := by
  obtain ⟨hcmd, hlen, hd0⟩ := handleError_fields e packetOut
  have h3 := prepare_at_3 crc (ELCOM_handleError e packetOut).2 buf
  rw [hlen] at h3
  refine ⟨hcmd, hlen, hd0, ?_, ?_, rfl, rfl, rfl, ?_, ?_, ?_, ?_⟩
  · intro i h1 h2
    have h2' : i < 251 := h2
    have hne : ¬ (i = 0) := by omega
    have hin : 0 ≤ i ∧ i < 0 + ELCOM_FIELD_DATA_MAX_SIZE := by
      show 0 ≤ i ∧ i < 0 + 251
      omega
    simp only [ELCOM_handleError, poke, hne, if_false, memset]
    rw [if_pos hin]
  · cases e <;> rfl
  · rw [parse_prepare crc _ buf pkt (by rw [hlen]; decide), if_pos hcmd.symm]
  · show (ELCOM_prepareSendPacket crc (ELCOM_handleError e packetOut).2 buf).2 2 = _
    rw [prepare_at_2]
    exact hcmd
  · exact h3
  · rw [extractedPacket_data _ pkt 0 (by rw [h3]; decide) (by rw [h3]; decide)]
    have hd := prepare_at_data crc (ELCOM_handleError e packetOut).2 buf 0
      (by rw [hlen]; exact Nat.zero_lt_one)
    rw [hd, hd0]

/-! ## Oversized length byte -/

/-- C34: for every input buffer that passes the header, end-marker and checksum
checks and whose length byte exceeds `ELCOM_FIELD_DATA_MAX_SIZE` (251),
`ELCOM_parseReceivedPacket` raises no error for the length: the result is
`ELCOM_NO_ERROR`, or `ELCOM_SLAVE_ERROR` when the command byte is 0x40; the
command is extracted, the data length is the length byte, the extraction leaves
its destination as it is, so that the 251 data bytes of the output packet are 0,
and the memory that follows the data array is not written. -/
theorem parse_oversized_length (crc : List Nat → Nat) (b : Buffer) (pkt : ELCOM_packet_t)
    (hh : ELCOM_validateHeader b = ELCOM_NO_ERROR) (he : ELCOM_validateEOP b = ELCOM_NO_ERROR)
    (hc : ELCOM_validateCheksum crc b = ELCOM_NO_ERROR)
    (hn : ELCOM_FIELD_DATA_MAX_SIZE < b ELCOM_FIELD_LEN_POS) :
    (ELCOM_parseReceivedPacket crc b pkt).1
        = (if ELCOM_CMD_ERROR_SLAVE = b ELCOM_FIELD_CMD_POS then ELCOM_SLAVE_ERROR
            else ELCOM_NO_ERROR)
    ∧ (ELCOM_parseReceivedPacket crc b pkt).2.cmd = b ELCOM_FIELD_CMD_POS
    ∧ (ELCOM_parseReceivedPacket crc b pkt).2.dataLength = b ELCOM_FIELD_LEN_POS
    ∧ (∀ dataOut, ELCOM_extractData b dataOut (b ELCOM_FIELD_LEN_POS) = dataOut)
    ∧ (∀ i, i < ELCOM_FIELD_DATA_MAX_SIZE → (ELCOM_parseReceivedPacket crc b pkt).2.data i = 0)
    ∧ (∀ i, ELCOM_FIELD_DATA_MAX_SIZE ≤ i →
        (ELCOM_parseReceivedPacket crc b pkt).2.data i = pkt.data i) := by
  have hp := parse_of_valid crc b pkt hh he hc
  refine ⟨?_, ?_, ?_, ?_, ?_, fun i hi => parse_data_beyond crc b pkt i hi⟩
  · rw [hp]
    show _ = if 0x40 = b 2 then ELCOM_SLAVE_ERROR else ELCOM_NO_ERROR
    split <;> rfl
  · rw [hp]
    split <;> rfl
  · rw [hp]
    split <;> rfl
  · intro dataOut
    have h1 : b ELCOM_FIELD_LEN_POS > ELCOM_FIELD_DATA_MAX_SIZE := hn
    simp only [ELCOM_extractData, h1, if_true]
  · intro i hi
    rw [hp]
    split
    · exact extractedPacket_data_skipped b pkt i hn hi
    · exact extractedPacket_data_skipped b pkt i hn hi

/-- Witness of C34: under the CRC-16/USB checksum the buffer `oversizedModelName`
(length byte 255) passes the three checks; it is decoded into the packet with
command 0x10 whose 251 data bytes are 0, the byte 0xB0 at offset 4 is not
copied. -/
theorem parse_oversized_length_witness :
    (ELCOM_parseReceivedPacket crc16Usb oversizedModelName stalePacket).1 = ELCOM_NO_ERROR
    ∧ (ELCOM_parseReceivedPacket crc16Usb oversizedModelName stalePacket).2.cmd = 0x10
    ∧ (∀ i, i < ELCOM_FIELD_DATA_MAX_SIZE →
        (ELCOM_parseReceivedPacket crc16Usb oversizedModelName stalePacket).2.data i = 0)
    ∧ oversizedModelName 4 = 0xB0 :=
  ⟨(parse_oversized_length crc16Usb oversizedModelName stalePacket (by decide) (by decide)
      (by decide) (by decide)).1,
    (parse_oversized_length crc16Usb oversizedModelName stalePacket (by decide) (by decide)
      (by decide) (by decide)).2.1,
    (parse_oversized_length crc16Usb oversizedModelName stalePacket (by decide) (by decide)
      (by decide) (by decide)).2.2.2.2.1,
    by decide⟩

/-! ## Extent of the encoded frame -/

/-- C35, at the failing inputs: for every checksum function, command, data and
transmit memory, the frame of a packet with 249 data bytes, a length the packet
type allows, has its end marker stored at offset 255, one past the last cell of
a buffer of `ELCOM_DATA_BUFFER_SIZE` bytes; with 250 data bytes the high byte of
the checksum is stored at offset 255 and the end marker at offset 256, with 251
data bytes the end marker is stored at offset 257.  Neither 249 + 7 nor
`ELCOM_FIELD_DATA_MAX_SIZE` + 7 is at most `ELCOM_DATA_BUFFER_SIZE`. -/
theorem prepare_writes_past_buffer (crc : List Nat → Nat) (cmd : Nat) (data buf : Buffer) :
    (ELCOM_prepareSendPacket crc { cmd := cmd, dataLength := 249, data := data } buf).2
        ELCOM_DATA_BUFFER_SIZE = ELCOM_FIELD_END_OF_PACKET_VALUE
    ∧ (ELCOM_prepareSendPacket crc { cmd := cmd, dataLength := 250, data := data } buf).2
        ELCOM_DATA_BUFFER_SIZE
        = frameCrc crc { cmd := cmd, dataLength := 250, data := data } / 256 % 256
    ∧ (ELCOM_prepareSendPacket crc { cmd := cmd, dataLength := 250, data := data } buf).2
        (ELCOM_DATA_BUFFER_SIZE + 1) = ELCOM_FIELD_END_OF_PACKET_VALUE
    ∧ (ELCOM_prepareSendPacket crc
          { cmd := cmd, dataLength := ELCOM_FIELD_DATA_MAX_SIZE, data := data } buf).2
        (ELCOM_DATA_BUFFER_SIZE + 2) = ELCOM_FIELD_END_OF_PACKET_VALUE
    ∧ 249 ≤ ELCOM_FIELD_DATA_MAX_SIZE
    ∧ ¬ (249 + 7 ≤ ELCOM_DATA_BUFFER_SIZE)
    ∧ ¬ (ELCOM_FIELD_DATA_MAX_SIZE + 7 ≤ ELCOM_DATA_BUFFER_SIZE) :=
  ⟨prepare_at_eop crc { cmd := cmd, dataLength := 249, data := data } buf,
    prepare_at_crc_hi crc { cmd := cmd, dataLength := 250, data := data } buf,
    prepare_at_eop crc { cmd := cmd, dataLength := 250, data := data } buf,
    prepare_at_eop crc { cmd := cmd, dataLength := 251, data := data } buf,
    by decide, by decide, by decide⟩

/-! ## Completion heuristic on an encoded frame -/

theorem isResponseComplete_eq (buffer : Buffer) :
    (ELCOM_isResponseComplete buffer ≠ 0) = (buffer 3 ≠ 0 ∧ buffer (buffer 3 + 6) ≠ 0) := by
  apply propext
  show (if buffer 3 ≠ 0 ∧ buffer (buffer 3 + 6) ≠ 0 then 1 else 0) ≠ 0 ↔ _
  constructor
  · intro hne
    by_contra hcon
    exact hne (if_neg hcon)
  · intro h
    rw [if_pos h]
    decide
theorem receivedPrefix_at (rx frame : Buffer) (k i : Nat) (hi : i < 255) :
    receivedPrefix rx frame k i = if i < k then frame i else 0 := by
  have hz : 0 ≤ i ∧ i < 0 + ELCOM_DATA_BUFFER_SIZE := by
    show 0 ≤ i ∧ i < 0 + 255
    omega
  by_cases hk : i < k
  · have h1 : 0 ≤ i ∧ i < 0 + k := by omega
    have h2 : 0 + (i - 0) = i := by omega
    simp only [receivedPrefix, memcpy]
    rw [if_pos h1, if_pos hk, h2]
  · have h1 : ¬ (0 ≤ i ∧ i < 0 + k) := by omega
    simp only [receivedPrefix, memcpy, h1, hk, if_false, memset]
    rw [if_pos hz]

/-- C36: for every checksum function and every packet `p` with
`1 ≤ dataLength = n ≤ 248`, on the receive buffer cleared by `el_uartReceive` in
which the first `k` bytes of the encoded frame of `p` have arrived,
`ELCOM_isResponseComplete` is true if and only if `n + 7 ≤ k`: false for every
`k < n + 7`, true once the `n + 7` bytes of the frame are present.  The byte it
tests is the end marker, which the encoder stores at offset `n + 6`, the last of
the `n + 7` bytes it reports. -/
theorem complete_iff_frame_received (crc : List Nat → Nat) (p : ELCOM_packet_t)
    (buf rx : Buffer) (k : Nat) (h1 : 1 ≤ p.dataLength) (h2 : p.dataLength ≤ 248) :
    (ELCOM_isResponseComplete (receivedPrefix rx (ELCOM_prepareSendPacket crc p buf).2 k) ≠ 0
      ↔ p.dataLength + 7 ≤ k)
    ∧ (ELCOM_prepareSendPacket crc p buf).2 (p.dataLength + 6) = ELCOM_FIELD_END_OF_PACKET_VALUE
    ∧ (ELCOM_prepareSendPacket crc p buf).1 = p.dataLength + 7 := by
  have heop : (ELCOM_prepareSendPacket crc p buf).2 (p.dataLength + 6) = 0x5D := by
    have h := prepare_at_eop crc p buf
    have e : 4 + p.dataLength + 2 = p.dataLength + 6 := by omega
    rw [e] at h
    exact h
  refine ⟨?_, heop, ?_⟩
  · rw [isResponseComplete_eq]
    rw [receivedPrefix_at rx _ k 3 (by decide)]
    by_cases hk3 : 3 < k
    · rw [if_pos hk3, prepare_at_3]
      rw [receivedPrefix_at rx _ k (p.dataLength + 6) (by omega)]
      by_cases hk : p.dataLength + 6 < k
      · rw [if_pos hk, heop]
        constructor
        · intro _
          omega
        · intro _
          exact ⟨by omega, by decide⟩
      · rw [if_neg hk]
        constructor
        · intro h
          exact absurd rfl h.2
        · intro h
          omega
    · rw [if_neg hk3]
      constructor
      · intro h
        exact absurd rfl h.1
      · intro h
        omega
  · rw [prepare_fst]
    exact Nat.mod_eq_of_lt (by omega)

/-- Witness of C36: the measurement request (one data byte, a frame of 8 bytes)
is not found complete on its first 7 bytes and is found complete on all 8. -/
theorem complete_iff_frame_received_witness :
    (ELCOM_isResponseComplete
        (receivedPrefix staleText (ELCOM_prepareSendPacket sumCrc samplePacket zeroBuffer).2 7) ≠ 0
      ↔ samplePacket.dataLength + 7 ≤ 7)
    ∧ (ELCOM_isResponseComplete
        (receivedPrefix staleText (ELCOM_prepareSendPacket sumCrc samplePacket zeroBuffer).2 8) ≠ 0
      ↔ samplePacket.dataLength + 7 ≤ 8) :=
  ⟨(complete_iff_frame_received sumCrc samplePacket zeroBuffer staleText 7 (by decide)
      (by decide)).1,
    (complete_iff_frame_received sumCrc samplePacket zeroBuffer staleText 8 (by decide)
      (by decide)).1⟩

/-! ## Acceptance by the decoder -/

theorem extractedPacket_data_rest (b : Buffer) (pkt : ELCOM_packet_t) (i : Nat)
    (hn : b 3 ≤ 251) (hi : b 3 ≤ i) (hi2 : i < 251) : (extractedPacket b pkt).data i = 0 := by
  have h1 : ¬ (b 3 > ELCOM_FIELD_DATA_MAX_SIZE) := by
    show ¬ (b 3 > 251)
    omega
  have h2 : ¬ (0 ≤ i ∧ i < 0 + b 3) := by omega
  have h3 : 0 ≤ i ∧ i < 0 + ELCOM_FIELD_DATA_MAX_SIZE := by
    show 0 ≤ i ∧ i < 0 + 251
    omega
  simp only [extractedPacket, ELCOM_extractData, h1, if_false, memcpy, h2, memset]
  rw [if_pos h3]

/-- C38: for every checksum function and every input buffer whose length byte `L`
is at most 251, `ELCOM_parseReceivedPacket` returns `ELCOM_NO_ERROR` if and only
if byte 0 is 0x5B, byte 1 is 0x01, byte `6 + L` is 0x5D, the little-endian 16-bit
value at offsets `4 + L`, `5 + L` equals the (16-bit) checksum of the bytes
`[0, 4 + L)`, and the command byte differs from 0x40; in that case the output
packet has `cmd` = byte 2, `dataLength = L`, the bytes `4 .. 4 + L - 1` of the
buffer as its first `L` data bytes and 0 in the rest of the 251-byte data
array. -/
theorem parse_no_error_iff (crc : List Nat → Nat) (b : Buffer) (pkt : ELCOM_packet_t)
    (hL : b ELCOM_FIELD_LEN_POS ≤ ELCOM_FIELD_DATA_MAX_SIZE) :
    ((ELCOM_parseReceivedPacket crc b pkt).1 = ELCOM_NO_ERROR
      ↔ b 0 = 0x5B ∧ b 1 = 0x01 ∧ b (6 + b ELCOM_FIELD_LEN_POS) = 0x5D
        ∧ b (4 + b ELCOM_FIELD_LEN_POS) + 256 * b (5 + b ELCOM_FIELD_LEN_POS)
            = crc (bytesOf b (4 + b ELCOM_FIELD_LEN_POS)) % 65536
        ∧ b ELCOM_FIELD_CMD_POS ≠ 0x40)
    ∧ ((ELCOM_parseReceivedPacket crc b pkt).1 = ELCOM_NO_ERROR →
        (ELCOM_parseReceivedPacket crc b pkt).2.cmd = b ELCOM_FIELD_CMD_POS
        ∧ (ELCOM_parseReceivedPacket crc b pkt).2.dataLength = b ELCOM_FIELD_LEN_POS
        ∧ (∀ i, i < b ELCOM_FIELD_LEN_POS →
            (ELCOM_parseReceivedPacket crc b pkt).2.data i = b (4 + i))
        ∧ (∀ i, b ELCOM_FIELD_LEN_POS ≤ i → i < ELCOM_FIELD_DATA_MAX_SIZE →
            (ELCOM_parseReceivedPacket crc b pkt).2.data i = 0)) := by
  have hL' : b 3 ≤ 251 := hL
  have hmod : (4 + b 3) % 256 = 4 + b 3 := Nat.mod_eq_of_lt (by omega)
  have e6 : b 3 + 6 = 6 + b 3 := by omega
  have hu : u16OfBytes b (4 + b 3) = b (4 + b 3) + 256 * b (5 + b 3) := by
    unfold u16OfBytes
    have e5 : 4 + b 3 + 1 = 5 + b 3 := by omega
    rw [e5]
  show ((ELCOM_parseReceivedPacket crc b pkt).1 = ELCOM_NO_ERROR
      ↔ b 0 = 0x5B ∧ b 1 = 0x01 ∧ b (6 + b 3) = 0x5D
        ∧ b (4 + b 3) + 256 * b (5 + b 3) = crc (bytesOf b (4 + b 3)) % 65536
        ∧ b 2 ≠ 0x40)
    ∧ ((ELCOM_parseReceivedPacket crc b pkt).1 = ELCOM_NO_ERROR →
        (ELCOM_parseReceivedPacket crc b pkt).2.cmd = b 2
        ∧ (ELCOM_parseReceivedPacket crc b pkt).2.dataLength = b 3
        ∧ (∀ i, i < b 3 → (ELCOM_parseReceivedPacket crc b pkt).2.data i = b (4 + i))
        ∧ (∀ i, b 3 ≤ i → i < 251 → (ELCOM_parseReceivedPacket crc b pkt).2.data i = 0))
  rw [parse_eq, hmod, hu, e6]
  by_cases h1 : b 0 ≠ 0x5B ∨ b 1 ≠ 0x01
  · rw [if_pos h1]
    refine ⟨⟨(fun h => by cases h), fun h => ?_⟩, (fun h => by cases h)⟩
    rcases h1 with h1 | h1
    · exact absurd h.1 h1
    · exact absurd h.2.1 h1
  · rw [if_neg h1]
    have h0 : b 0 = 0x5B := by
      by_contra hc
      exact h1 (Or.inl hc)
    have h1' : b 1 = 0x01 := by
      by_contra hc
      exact h1 (Or.inr hc)
    by_cases h2 : b (6 + b 3) ≠ 0x5D
    · rw [if_pos h2]
      exact ⟨⟨(fun h => by cases h), fun h => absurd h.2.2.1 h2⟩, (fun h => by cases h)⟩
    · rw [if_neg h2]
      have h2' : b (6 + b 3) = 0x5D := by
        by_contra hc
        exact h2 hc
      by_cases h3 : b (4 + b 3) + 256 * b (5 + b 3) ≠ crc (bytesOf b (4 + b 3)) % 65536
      · rw [if_pos h3]
        exact ⟨⟨(fun h => by cases h), fun h => absurd h.2.2.2.1 h3⟩, (fun h => by cases h)⟩
      · rw [if_neg h3]
        have h3' : b (4 + b 3) + 256 * b (5 + b 3) = crc (bytesOf b (4 + b 3)) % 65536 := by
          by_contra hc
          exact h3 hc
        by_cases h4 : 0x40 = b 2
        · rw [if_pos h4]
          exact ⟨⟨(fun h => by cases h), fun h => absurd h4.symm h.2.2.2.2⟩, (fun h => by cases h)⟩
        · rw [if_neg h4]
          refine ⟨⟨fun _ => ⟨h0, h1', h2', h3', fun hc => h4 hc.symm⟩, fun _ => rfl⟩, fun _ => ?_⟩
          exact ⟨rfl, rfl, fun i hi => extractedPacket_data b pkt i hL' hi,
            fun i hi hi2 => extractedPacket_data_rest b pkt i hL' hi hi2⟩

/-- Witness of C38: the measurement response (seven data bytes, command 0x21)
under the byte-sum checksum is accepted and decoded into its fields. -/
theorem parse_no_error_iff_witness :
    (ELCOM_parseReceivedPacket sumCrc measurementResponse stalePacket).1 = ELCOM_NO_ERROR
    ∧ (ELCOM_parseReceivedPacket sumCrc measurementResponse stalePacket).2.cmd = 0x21
    ∧ (ELCOM_parseReceivedPacket sumCrc measurementResponse stalePacket).2.dataLength = 7 :=
  ⟨(parse_no_error_iff sumCrc measurementResponse stalePacket (by decide)).1.2 (by decide),
    ((parse_no_error_iff sumCrc measurementResponse stalePacket (by decide)).2 (by decide)).1,
    ((parse_no_error_iff sumCrc measurementResponse stalePacket (by decide)).2 (by decide)).2.1⟩

/-! ## Response without data -/

theorem isResponseComplete_of_no_length (b : Buffer) (h : b 3 = 0) :
    ELCOM_isResponseComplete b = 0 := by
  have hn : ¬ (b ELCOM_FIELD_LEN_POS ≠ 0 ∧ b (b ELCOM_FIELD_LEN_POS + 6) ≠ 0) :=
    fun hc => hc.1 h
  show (if b ELCOM_FIELD_LEN_POS ≠ 0 ∧ b (b ELCOM_FIELD_LEN_POS + 6) ≠ 0 then 1 else 0) = 0
  rw [if_neg hn]

/-- C37: for every checksum function and every packet `p` with `dataLength = 0`,
`ELCOM_isResponseComplete` is false on the encoded frame of `p` and on the
receive buffer holding any number of its bytes, although
`ELCOM_parseReceivedPacket` accepts the frame (`ELCOM_NO_ERROR`, or
`ELCOM_SLAVE_ERROR` for the command 0x40).  On the callbacks of `main.c`, when
arming and transmitting succeed and each of the first `K` polls sees the receive
buffer holding some number of bytes of that frame, the polls fall in the
250-tick window and the next reading of the tick counter is outside it, the
transaction (given fuel for more than `K` polls) returns `ELCOM_SLAVE_TIMEOUT`
after the abort callback. -/
theorem empty_response_times_out (crc : List Nat → Nat) (p pkt : ELCOM_packet_t) (buf : Buffer)
    (fuel K : Nat) (m : ELICHENS_Sensor_t Hal) (hal : Hal)
    (hp : p.dataLength = 0)
    (hcR : m.uartReceive = el_uartReceive) (hcT : m.uartTransmit = el_uartTransmit)
    (hcW : m.uartWaitUntilReceived = el_uartWaitUntilReceived fuel)
    (hcA : m.uartAbortReceive = el_uartAbortReceive)
    (hR : hal.receiveStatus = HAL_OK) (hT : hal.transmitStatus = HAL_OK)
    (hrecv : ∀ j, j < K → ∃ k, ∀ i,
      pollBuffer hal.received (hal.tickReads + 1)
          (memset m.bufferRx 0 0 ELCOM_DATA_BUFFER_SIZE) (j + 1) i
        = receivedPrefix m.bufferRx (ELCOM_prepareSendPacket crc p buf).2 k i)
    (hwin : ∀ j, j < K → elapsedTicks hal (hal.tickReads + 1 + j) < 250)
    (hexit : ¬ elapsedTicks hal (hal.tickReads + 1 + K) < 250)
    (hfuel : K < fuel) :
    ELCOM_isResponseComplete (ELCOM_prepareSendPacket crc p buf).2 = 0
    ∧ (∀ rx k, ELCOM_isResponseComplete
        (receivedPrefix rx (ELCOM_prepareSendPacket crc p buf).2 k) = 0)
    ∧ (ELCOM_parseReceivedPacket crc (ELCOM_prepareSendPacket crc p buf).2 pkt).1
        = (if ELCOM_CMD_ERROR_SLAVE = p.cmd then ELCOM_SLAVE_ERROR else ELCOM_NO_ERROR)
    ∧ (ELCOM_parseReceivedPacket crc (ELCOM_prepareSendPacket crc p buf).2 pkt).2.cmd = p.cmd
    ∧ ∃ m' hal4,
        EL_sendAndReceivePacket crc m hal =
          some (ELCOM_SLAVE_TIMEOUT, m', hal4,
            [Call.uartReceive,
              Call.uartTransmit (ELCOM_prepareSendPacket crc m.packet m.bufferTx).2
                (ELCOM_prepareSendPacket crc m.packet m.bufferTx).1,
              Call.uartWaitUntilReceived, Call.uartAbortReceive]) := by
  have h3 : (ELCOM_prepareSendPacket crc p buf).2 3 = 0 := by
    rw [prepare_at_3, hp]
  have hpre3 : ∀ rx k,
      receivedPrefix rx (ELCOM_prepareSendPacket crc p buf).2 k 3 = 0 := by
    intro rx k
    rw [receivedPrefix_at rx _ k 3 (by decide)]
    split
    · exact h3
    · rfl
  have hparse := parse_prepare crc p buf pkt (by rw [hp]; decide)
  refine ⟨isResponseComplete_of_no_length _ h3,
    fun rx k => isResponseComplete_of_no_length _ (hpre3 rx k), ?_, ?_, ?_⟩
  · rw [hparse]
    show _ = if 0x40 = p.cmd then ELCOM_SLAVE_ERROR else ELCOM_NO_ERROR
    split <;> rfl
  · rw [hparse]
    split <;> exact prepare_at_2 crc p buf
  · have hpoll : ∀ j, j < K →
        elapsedTicks hal (hal.tickReads + 1 + j) < 250
        ∧ ELCOM_isResponseComplete
            (pollBuffer hal.received (hal.tickReads + 1)
              (memset m.bufferRx 0 0 ELCOM_DATA_BUFFER_SIZE) (j + 1)) = 0 := by
      intro j hj
      refine ⟨hwin j hj, ?_⟩
      obtain ⟨k, hk⟩ := hrecv j hj
      apply isResponseComplete_of_no_length
      rw [hk 3]
      exact hpre3 m.bufferRx k
    have h1 := el_uartReceive_ok hal m.bufferRx hR
    have h2 := el_uartTransmit_ok (ELCOM_prepareSendPacket crc m.packet m.bufferTx).2
      (ELCOM_prepareSendPacket crc m.packet m.bufferTx).1
      { hal with uartCalls := hal.uartCalls ++ [HalCall.HAL_UART_Receive_IT] }
      (memset m.bufferRx 0 0 ELCOM_DATA_BUFFER_SIZE) hT
    obtain ⟨hal3, rx3, hloop, _⟩ :=
      waitLoop_timeout (hal.tick hal.tickReads % 2 ^ 32) K fuel
        { hal with
          uartCalls := hal.uartCalls ++ [HalCall.HAL_UART_Receive_IT]
            ++ [HalCall.HAL_UART_Transmit
              (bytesOf (ELCOM_prepareSendPacket crc m.packet m.bufferTx).2
                (ELCOM_prepareSendPacket crc m.packet m.bufferTx).1)
              (10 * (ELCOM_prepareSendPacket crc m.packet m.bufferTx).1)]
          tickReads := hal.tickReads + 1 }
        (memset m.bufferRx 0 0 ELCOM_DATA_BUFFER_SIZE) hfuel hpoll hexit
    have h3w : el_uartWaitUntilReceived fuel
        { hal with
          uartCalls := hal.uartCalls ++ [HalCall.HAL_UART_Receive_IT]
            ++ [HalCall.HAL_UART_Transmit
              (bytesOf (ELCOM_prepareSendPacket crc m.packet m.bufferTx).2
                (ELCOM_prepareSendPacket crc m.packet m.bufferTx).1)
              (10 * (ELCOM_prepareSendPacket crc m.packet m.bufferTx).1)] }
        (memset m.bufferRx 0 0 ELCOM_DATA_BUFFER_SIZE)
        = some (ELCOM_SLAVE_TIMEOUT, hal3, rx3) := hloop
    have h4 : el_uartAbortReceive hal3 rx3
        = some ({ hal3 with uartCalls := hal3.uartCalls ++ [HalCall.HAL_UART_Abort_IT] }, rx3) :=
      rfl
    rw [← hcR] at h1
    rw [← hcT] at h2
    rw [← hcW] at h3w
    rw [← hcA] at h4
    exact ⟨_, _, send_receive_wait_fails crc m hal _ _ hal3 _ _ _ rx3 _ ELCOM_SLAVE_TIMEOUT h1 h2
      h3w (by decide) h4⟩

/-- Witness of C37: the sensor of `main.c` on a HAL on which the complete frame
of a response without data has arrived by the second poll; the decoder accepts
that frame, the transaction returns `ELCOM_SLAVE_TIMEOUT`. -/
theorem empty_response_times_out_witness :
    (ELCOM_parseReceivedPacket sumCrc (ELCOM_prepareSendPacket sumCrc emptyReply zeroBuffer).2
        stalePacket).1 = ELCOM_NO_ERROR
    ∧ ∃ m' hal4 calls,
        EL_sendAndReceivePacket sumCrc (sensor 5) emptyAnswerHal
          = some (ELCOM_SLAVE_TIMEOUT, m', hal4, calls) :=
  have h := empty_response_times_out sumCrc emptyReply stalePacket zeroBuffer 5 2 (sensor 5)
    emptyAnswerHal rfl rfl rfl rfl rfl rfl rfl
    (by
      intro j hj
      have hj' : j = 0 ∨ j = 1 := by omega
      rcases hj' with rfl | rfl
      · exact ⟨0, fun i => by simp [receivedPrefix, memcpy, pollBuffer, emptyAnswerHal]⟩
      · exact ⟨7, fun i => rfl⟩)
    (by
      intro j hj
      have hj' : j = 0 ∨ j = 1 := by omega
      rcases hj' with rfl | rfl <;> decide)
    (by decide) (by decide)
  ⟨h.2.2.1, let ⟨m', hal4, h5⟩ := h.2.2.2.2; ⟨m', hal4, _, h5⟩⟩

/-! ## The transaction and the requested command -/

theorem clearedPacket_data (pkt : ELCOM_packet_t) (i : Nat) (hi : i < 251) :
    (clearedPacket pkt).data i = 0 := by
  have h : 0 ≤ i ∧ i < 0 + ELCOM_FIELD_DATA_MAX_SIZE := by
    show 0 ≤ i ∧ i < 0 + 251
    omega
  simp only [clearedPacket, memset]
  rw [if_pos h]

theorem extractedPacket_data_indep (b : Buffer) (pkt1 pkt2 : ELCOM_packet_t) (i : Nat)
    (hi : i < 251) : (extractedPacket b pkt1).data i = (extractedPacket b pkt2).data i := by
  by_cases hn : 251 < b 3
  · rw [extractedPacket_data_skipped b pkt1 i hn hi, extractedPacket_data_skipped b pkt2 i hn hi]
  · have hn' : b 3 ≤ 251 := Nat.le_of_not_lt hn
    by_cases hlt : i < b 3
    · rw [extractedPacket_data b pkt1 i hn' hlt, extractedPacket_data b pkt2 i hn' hlt]
    · rw [extractedPacket_data_rest b pkt1 i hn' (Nat.le_of_not_lt hlt) hi,
        extractedPacket_data_rest b pkt2 i hn' (Nat.le_of_not_lt hlt) hi]

/-- What the decoder returns and leaves in the packet (command, data length and
the 251 bytes of the data array) does not depend on the previous content of the
packet. -/
theorem parse_indep (crc : List Nat → Nat) (b : Buffer) (pkt1 pkt2 : ELCOM_packet_t) :
    (ELCOM_parseReceivedPacket crc b pkt1).1 = (ELCOM_parseReceivedPacket crc b pkt2).1
    ∧ (ELCOM_parseReceivedPacket crc b pkt1).2.cmd = (ELCOM_parseReceivedPacket crc b pkt2).2.cmd
    ∧ (ELCOM_parseReceivedPacket crc b pkt1).2.dataLength
        = (ELCOM_parseReceivedPacket crc b pkt2).2.dataLength
    ∧ ∀ i, i < ELCOM_FIELD_DATA_MAX_SIZE →
        (ELCOM_parseReceivedPacket crc b pkt1).2.data i
          = (ELCOM_parseReceivedPacket crc b pkt2).2.data i := by
  rw [parse_eq crc b pkt1, parse_eq crc b pkt2]
  split_ifs
  · exact ⟨rfl, rfl, rfl, fun i hi => by
      rw [clearedPacket_data pkt1 i hi, clearedPacket_data pkt2 i hi]⟩
  · exact ⟨rfl, rfl, rfl, fun i hi => by
      rw [clearedPacket_data pkt1 i hi, clearedPacket_data pkt2 i hi]⟩
  · exact ⟨rfl, rfl, rfl, fun i hi => by
      rw [clearedPacket_data pkt1 i hi, clearedPacket_data pkt2 i hi]⟩
  · exact ⟨rfl, rfl, rfl, fun i hi => extractedPacket_data_indep b pkt1 pkt2 i hi⟩
  · exact ⟨rfl, rfl, rfl, fun i hi => extractedPacket_data_indep b pkt1 pkt2 i hi⟩

theorem parse_code (crc : List Nat → Nat) (b : Buffer) (pkt : ELCOM_packet_t) :
    (ELCOM_parseReceivedPacket crc b pkt).1 = ELCOM_NO_ERROR
    ∨ (ELCOM_parseReceivedPacket crc b pkt).1 = ELCOM_INVALID_SOP
    ∨ (ELCOM_parseReceivedPacket crc b pkt).1 = ELCOM_INVALID_EOP
    ∨ (ELCOM_parseReceivedPacket crc b pkt).1 = ELCOM_INVALID_CRC
    ∨ (ELCOM_parseReceivedPacket crc b pkt).1 = ELCOM_SLAVE_ERROR := by
  rw [parse_eq]
  split_ifs
  · exact Or.inr (Or.inl rfl)
  · exact Or.inr (Or.inr (Or.inl rfl))
  · exact Or.inr (Or.inr (Or.inr (Or.inl rfl)))
  · exact Or.inr (Or.inr (Or.inr (Or.inr rfl)))
  · exact Or.inl rfl

/-- Two sensors with the same callbacks and the same receive buffer, on a
transmit callback whose result does not depend on what it is handed, run
transactions with the same outcome. -/
theorem sameOutcome_of_callbacks {W : Type} (crc : List Nat → Nat)
    (s1 s2 : ELICHENS_Sensor_t W) (w : W)
    (hrx : s2.bufferRx = s1.bufferRx)
    (hR : s2.uartReceive = s1.uartReceive) (hT : s2.uartTransmit = s1.uartTransmit)
    (hW : s2.uartWaitUntilReceived = s1.uartWaitUntilReceived)
    (hA : s2.uartAbortReceive = s1.uartAbortReceive)
    (htx : ∀ d n d' n' w rx, s1.uartTransmit d n w rx = s1.uartTransmit d' n' w rx) :
    SameOutcome (EL_sendAndReceivePacket crc s1 w) (EL_sendAndReceivePacket crc s2 w) := by
  have htx2 := htx (ELCOM_prepareSendPacket crc s2.packet s2.bufferTx).2
    (ELCOM_prepareSendPacket crc s2.packet s2.bufferTx).1
    (ELCOM_prepareSendPacket crc s1.packet s1.bufferTx).2
    (ELCOM_prepareSendPacket crc s1.packet s1.bufferTx).1
  unfold EL_sendAndReceivePacket
  simp only [hrx, hR, hT, hW, hA, htx2]
  rcases hr : s1.uartReceive w s1.bufferRx with _ | ⟨e1, w1, rx1⟩
  · trivial
  · simp only
    by_cases he1 : ELCOM_NO_ERROR ≠ e1
    · rw [if_pos he1, if_pos he1]
      refine ⟨rfl, rfl, rfl, rfl, fun h => ?_⟩
      simp at h
    · rw [if_neg he1, if_neg he1]
      rcases ht : s1.uartTransmit (ELCOM_prepareSendPacket crc s1.packet s1.bufferTx).2
          (ELCOM_prepareSendPacket crc s1.packet s1.bufferTx).1 w1 rx1 with _ | ⟨e2, w2, rx2⟩
      · trivial
      · simp only
        by_cases he2 : ELCOM_NO_ERROR ≠ e2
        · rw [if_pos he2, if_pos he2]
          rcases ha : s1.uartAbortReceive w2 rx2 with _ | ⟨w3, rx3⟩
          · trivial
          · refine ⟨rfl, rfl, rfl, rfl, fun h => ?_⟩
            simp at h
        · rw [if_neg he2, if_neg he2]
          rcases hw : s1.uartWaitUntilReceived w2 rx2 with _ | ⟨e3, w3, rx3⟩
          · trivial
          · simp only
            by_cases he3 : ELCOM_NO_ERROR ≠ e3
            · rw [if_pos he3, if_pos he3]
              rcases ha : s1.uartAbortReceive w3 rx3 with _ | ⟨w4, rx4⟩
              · trivial
              · refine ⟨rfl, rfl, rfl, rfl, fun _ h => ?_⟩
                simp at h
            · rw [if_neg he3, if_neg he3]
              obtain ⟨p1, p2, p3, p4⟩ := parse_indep crc rx3 s1.packet s2.packet
              exact ⟨p1, rfl, rfl, rfl, fun _ _ => ⟨p2, p3, p4⟩⟩

/-- The error code of a transaction is one of the five codes of the decoder or a
code returned by one of the three callbacks that return one. -/
theorem send_receive_code {W : Type} (crc : List Nat → Nat) (s s' : ELICHENS_Sensor_t W)
    (w w' : W) (e : ELCOM_errorCode_t) (calls : List Call)
    (h : EL_sendAndReceivePacket crc s w = some (e, s', w', calls)) :
    (e = ELCOM_NO_ERROR ∨ e = ELCOM_INVALID_SOP ∨ e = ELCOM_INVALID_EOP
      ∨ e = ELCOM_INVALID_CRC ∨ e = ELCOM_SLAVE_ERROR)
    ∨ (∃ w0 rx0 w1 rx1, s.uartReceive w0 rx0 = some (e, w1, rx1))
    ∨ (∃ d n w0 rx0 w1 rx1, s.uartTransmit d n w0 rx0 = some (e, w1, rx1))
    ∨ (∃ w0 rx0 w1 rx1, s.uartWaitUntilReceived w0 rx0 = some (e, w1, rx1)) := by
  unfold EL_sendAndReceivePacket at h
  simp only at h
  rcases hR : s.uartReceive w s.bufferRx with _ | ⟨e1, w1, rx1⟩
  · rw [hR] at h
    cases h
  · rw [hR] at h
    simp only at h
    by_cases he1 : ELCOM_NO_ERROR ≠ e1
    · rw [if_pos he1] at h
      cases h
      exact Or.inr (Or.inl ⟨_, _, _, _, hR⟩)
    · rw [if_neg he1] at h
      rcases hT : s.uartTransmit (ELCOM_prepareSendPacket crc s.packet s.bufferTx).2
          (ELCOM_prepareSendPacket crc s.packet s.bufferTx).1 w1 rx1 with _ | ⟨e2, w2, rx2⟩
      · rw [hT] at h
        cases h
      · rw [hT] at h
        simp only at h
        by_cases he2 : ELCOM_NO_ERROR ≠ e2
        · rw [if_pos he2] at h
          rcases hA : s.uartAbortReceive w2 rx2 with _ | ⟨w3, rx3⟩
          · rw [hA] at h
            cases h
          · rw [hA] at h
            cases h
            exact Or.inr (Or.inr (Or.inl ⟨_, _, _, _, _, _, hT⟩))
        · rw [if_neg he2] at h
          rcases hW : s.uartWaitUntilReceived w2 rx2 with _ | ⟨e3, w3, rx3⟩
          · rw [hW] at h
            cases h
          · rw [hW] at h
            simp only at h
            by_cases he3 : ELCOM_NO_ERROR ≠ e3
            · rw [if_pos he3] at h
              rcases hA : s.uartAbortReceive w3 rx3 with _ | ⟨w4, rx4⟩
              · rw [hA] at h
                cases h
              · rw [hA] at h
                cases h
                exact Or.inr (Or.inr (Or.inr ⟨_, _, _, _, hW⟩))
            · rw [if_neg he3] at h
              cases h
              exact Or.inl (parse_code crc rx3 s.packet)

theorem errorCodeFromHAL_known (res : HAL_StatusTypeDef) :
    el_errorCodeFromHAL res ≠ ELCOM_COMMAND_UNKNOW := by
  cases res <;> decide

/-- C39: the outcome of a transaction does not depend on the request.  Two
sensors with the same callbacks and receive buffer, whatever their packets and
transmit buffers, on a transmit callback whose result does not depend on the
frame it is handed, run transactions with the same outcome (`SameOutcome`: same
error code, transport state and receive buffer, and the same decoded packet).
A transaction whose callbacks succeed and whose receive buffer holds the frame
of any packet `r` with at most 251 data bytes and a command other than 0x40 is
accepted with `ELCOM_NO_ERROR` and leaves the command and data length of `r` in
the packet, whatever command was sent.  The error code of a transaction is one
of the five codes of the decoder or a code returned by a callback, and on the
callbacks of `main.c` it is never `ELCOM_COMMAND_UNKNOW`. -/
theorem transaction_ignores_request {W : Type} (crc : List Nat → Nat)
    (s1 s2 : ELICHENS_Sensor_t W) (w : W)
    (hrx : s2.bufferRx = s1.bufferRx)
    (hR : s2.uartReceive = s1.uartReceive) (hT : s2.uartTransmit = s1.uartTransmit)
    (hW : s2.uartWaitUntilReceived = s1.uartWaitUntilReceived)
    (hA : s2.uartAbortReceive = s1.uartAbortReceive)
    (htx : ∀ d n d' n' w rx, s1.uartTransmit d n w rx = s1.uartTransmit d' n' w rx) :
    SameOutcome (EL_sendAndReceivePacket crc s1 w) (EL_sendAndReceivePacket crc s2 w)
    ∧ (∀ (r : ELCOM_packet_t) (buf : Buffer) (w1 w2 w3 : W) (rx1 rx2 : Buffer),
        r.dataLength ≤ ELCOM_FIELD_DATA_MAX_SIZE → r.cmd ≠ ELCOM_CMD_ERROR_SLAVE →
        s1.uartReceive w s1.bufferRx = some (ELCOM_NO_ERROR, w1, rx1) →
        s1.uartTransmit (ELCOM_prepareSendPacket crc s1.packet s1.bufferTx).2
          (ELCOM_prepareSendPacket crc s1.packet s1.bufferTx).1 w1 rx1
          = some (ELCOM_NO_ERROR, w2, rx2) →
        s1.uartWaitUntilReceived w2 rx2
          = some (ELCOM_NO_ERROR, w3, (ELCOM_prepareSendPacket crc r buf).2) →
        ∃ t c, EL_sendAndReceivePacket crc s1 w = some (ELCOM_NO_ERROR, t, w3, c)
          ∧ t.packet.cmd = r.cmd ∧ t.packet.dataLength = r.dataLength)
    ∧ (∀ e t w' c, EL_sendAndReceivePacket crc s1 w = some (e, t, w', c) →
        (e = ELCOM_NO_ERROR ∨ e = ELCOM_INVALID_SOP ∨ e = ELCOM_INVALID_EOP
          ∨ e = ELCOM_INVALID_CRC ∨ e = ELCOM_SLAVE_ERROR)
        ∨ (∃ w0 rx0 w1 rx1, s1.uartReceive w0 rx0 = some (e, w1, rx1))
        ∨ (∃ d n w0 rx0 w1 rx1, s1.uartTransmit d n w0 rx0 = some (e, w1, rx1))
        ∨ (∃ w0 rx0 w1 rx1, s1.uartWaitUntilReceived w0 rx0 = some (e, w1, rx1)))
    ∧ (∀ (fuel : Nat) (m t : ELICHENS_Sensor_t Hal) (hal hal' : Hal) (e : ELCOM_errorCode_t)
        (c : List Call),
        m.uartReceive = el_uartReceive → m.uartTransmit = el_uartTransmit →
        m.uartWaitUntilReceived = el_uartWaitUntilReceived fuel →
        EL_sendAndReceivePacket crc m hal = some (e, t, hal', c) →
        e ≠ ELCOM_COMMAND_UNKNOW) := by
  refine ⟨sameOutcome_of_callbacks crc s1 s2 w hrx hR hT hW hA htx, ?_,
    fun e t w' c h => send_receive_code crc s1 t w w' e c h, ?_⟩
  · intro r buf w1 w2 w3 rx1 rx2 hn hcmd h1 h2 h3
    have hrun := send_receive_success crc s1 w w1 w2 w3 rx1 rx2 _ h1 h2 h3
    have hparse := parse_prepare crc r buf s1.packet hn
    have hcmd' : ¬ (0x40 = r.cmd) := fun hc => hcmd hc.symm
    rw [if_neg hcmd'] at hparse
    rw [hparse] at hrun
    exact ⟨_, _, hrun, prepare_at_2 crc r buf, prepare_at_3 crc r buf⟩
  · intro fuel m t hal hal' e c hcR hcT hcW hrun
    rcases send_receive_code crc m t hal hal' e c hrun with h | h | h | h
    · rcases h with h | h | h | h | h <;> rw [h] <;> decide
    · obtain ⟨w0, rx0, w1, rx1, h⟩ := h
      rw [hcR] at h
      simp only [el_uartReceive, Option.some.injEq, Prod.mk.injEq] at h
      rw [← h.1]
      exact errorCodeFromHAL_known _
    · obtain ⟨d, n, w0, rx0, w1, rx1, h⟩ := h
      rw [hcT] at h
      simp only [el_uartTransmit, Option.some.injEq, Prod.mk.injEq] at h
      rw [← h.1]
      exact errorCodeFromHAL_known _
    · obtain ⟨w0, rx0, w1, rx1, h⟩ := h
      rw [hcW] at h
      rcases waitLoop_result _ fuel _ w1 rx0 rx1 e h with ⟨he, _⟩ | ⟨he, _⟩ <;> rw [he] <;> decide

/-- Witness of C39: a sensor that sends the model-name request (command 0x10)
and receives the measurement response (command 0x21) has the same outcome as
one that sends the measurement request: `ELCOM_NO_ERROR`, with the command 0x21
in the packet. -/
theorem transaction_ignores_request_witness :
    SameOutcome (EL_sendAndReceivePacket sumCrc mismatchedSensor ())
      (EL_sendAndReceivePacket sumCrc (respondingSensor measurementResponse) ())
    ∧ mismatchedSensor.packet.cmd = 0x10
    ∧ ∃ t c, EL_sendAndReceivePacket sumCrc mismatchedSensor ()
          = some (ELCOM_NO_ERROR, t, (), c)
        ∧ t.packet.cmd = 0x21 ∧ t.packet.dataLength = 7 :=
  have h := transaction_ignores_request sumCrc mismatchedSensor
    (respondingSensor measurementResponse) () rfl rfl rfl rfl rfl
    (fun _ _ _ _ _ _ => rfl)
  ⟨h.1, rfl,
    h.2.1
      { cmd := 0x21, dataLength := 7,
        data := fun i => if i = 3 then 0x3E else if i = 4 then 0x30 else 0 }
      zeroBuffer () () () _ _ (by decide) (by decide) rfl rfl rfl⟩

/-! ## Extent of the strings written by the queries -/

/-- C40, at the failing inputs, under the byte-sum checksum.  A model-name
response of 24 data bytes is accepted with `ELCOM_NO_ERROR`; `ELCOM_getSysModelName`
copies the 24 bytes and stores the terminator at index 24 of a destination
declared `char[24]`, and `ELCOM_getSysProdName` does the same.  A sensor-name
response of 9 data bytes (index byte and 8 characters) makes `ELCOM_getSenName`
store the terminator at index 8 of a destination declared `char[8]`.  On a
sensor-name response without data the copy of `dataLength - 1` bytes has no
defined result. -/
theorem name_query_writes_past_end :
    (∃ s' calls out,
      ELCOM_getSysModelName sumCrc
          (respondingSensor (textResponse ELCOM_CMD_GET_MODEL_NAME (List.replicate 24 0x41)))
          () staleText
        = some (ELCOM_NO_ERROR, s', (), calls, out)
      ∧ s'.packet.dataLength = 24 ∧ out 23 = 0x41 ∧ out 24 = 0 ∧ staleText 24 = 0x58)
    ∧ (∃ s' calls out,
      ELCOM_getSysProdName sumCrc
          (respondingSensor (textResponse ELCOM_CMD_GET_PROD_NAME (List.replicate 24 0x41)))
          () staleText
        = some (ELCOM_NO_ERROR, s', (), calls, out)
      ∧ s'.packet.dataLength = 24 ∧ out 23 = 0x41 ∧ out 24 = 0 ∧ staleText 24 = 0x58)
    ∧ (∃ s' calls out,
      ELCOM_getSenName sumCrc
          (respondingSensor (textResponse ELCOM_CMD_GET_SEN_NAME (0 :: List.replicate 8 0x43)))
          () staleText
        = some (ELCOM_NO_ERROR, s', (), calls, out)
      ∧ s'.packet.dataLength = 9 ∧ out 7 = 0x43 ∧ out 8 = 0 ∧ staleText 8 = 0x58)
    ∧ (EL_sendAndReceivePacket sumCrc
          (indexedRequest ELCOM_CMD_GET_SEN_NAME
            (respondingSensor (textResponse ELCOM_CMD_GET_SEN_NAME []))) ()).map
          (fun r => (r.1, r.2.1.packet.dataLength)) = some (ELCOM_NO_ERROR, 0)
    ∧ ELCOM_getSenName sumCrc (respondingSensor (textResponse ELCOM_CMD_GET_SEN_NAME [])) ()
        staleText = none :=
  ⟨⟨_, _, _, rfl, rfl, rfl, rfl, rfl⟩, ⟨_, _, _, rfl, rfl, rfl, rfl, rfl⟩,
    ⟨_, _, _, rfl, rfl, rfl, rfl, rfl⟩, rfl, rfl⟩

/-! ## `xatoi` -/

/-- C33, at the failing input: on the string `"0x1? "` `xatoi` returns 1, stores
31 and leaves the pointer on the space, although `'?'` is not a hexadecimal
digit: after the radix prefix `0x` the characters `':'` to `'?'` (codes 58 to
63) are taken for the digits 10 to 15; so is `"0x: "`, with the value 10.  The
characters `'@'` and `'g'` are refused, as `':'` is in a decimal token.  On the
documented string `"123 -5   0x3ff 0b1111 0377  w "` the successive calls return
123, -5, 1023, 15, 255, each leaving the pointer on the space that ends the
token, and the sixth call returns 0. -/
theorem xatoi_accepts_non_digit :
    xatoi [48, 120, 49, 63, 32] = (1, [32], 31)
    ∧ xatoi [48, 120, 58, 32] = (1, [32], 10)
    ∧ (xatoi [48, 120, 64, 32]).1 = 0
    ∧ (xatoi [48, 120, 103, 32]).1 = 0
    ∧ (xatoi [49, 50, 58, 32]).1 = 0
    ∧ xatoi [49, 50, 51, 32, 45, 53, 32, 32, 32, 48, 120, 51, 102, 102, 32, 48, 98, 49, 49, 49,
          49, 32, 48, 51, 55, 55, 32, 32, 119, 32]
        = (1, [32, 45, 53, 32, 32, 32, 48, 120, 51, 102, 102, 32, 48, 98, 49, 49, 49, 49, 32, 48,
            51, 55, 55, 32, 32, 119, 32], 123)
    ∧ xatoi [32, 45, 53, 32, 32, 32, 48, 120, 51, 102, 102, 32, 48, 98, 49, 49, 49, 49, 32, 48,
          51, 55, 55, 32, 32, 119, 32]
        = (1, [32, 32, 32, 48, 120, 51, 102, 102, 32, 48, 98, 49, 49, 49, 49, 32, 48, 51, 55, 55,
            32, 32, 119, 32], -5)
    ∧ xatoi [32, 32, 32, 48, 120, 51, 102, 102, 32, 48, 98, 49, 49, 49, 49, 32, 48, 51, 55, 55,
          32, 32, 119, 32]
        = (1, [32, 48, 98, 49, 49, 49, 49, 32, 48, 51, 55, 55, 32, 32, 119, 32], 1023)
    ∧ xatoi [32, 48, 98, 49, 49, 49, 49, 32, 48, 51, 55, 55, 32, 32, 119, 32]
        = (1, [32, 48, 51, 55, 55, 32, 32, 119, 32], 15)
    ∧ xatoi [32, 48, 51, 55, 55, 32, 32, 119, 32] = (1, [32, 32, 119, 32], 255)
    ∧ xatoi [32, 32, 119, 32] = (0, [119, 32], 0) := by
  decide

/-! ## `xvprintf`: padding and output -/

theorem xputc_of_ne (CR : Bool) (c : Nat) (out : List Nat) (h : c ≠ 10) :
    xputc CR c out = out ++ [c] := by
  have hn : ¬ (CR = true ∧ c = 10) := fun hc => h hc.2
  simp only [xputc, hn, if_false]

theorem foldl_xputc (CR : Bool) (l : List Nat) :
    ∀ (out : List Nat), (∀ c, c ∈ l → c ≠ 10) →
      l.foldl (fun out ch => xputc CR ch out) out = out ++ l := by
  induction l with
  | nil =>
    intro out _
    simp
  | cons a l ih =>
    intro out h
    rw [List.foldl_cons, xputc_of_ne CR a out (h a (List.mem_cons_self a l)),
      ih _ (fun c hc => h c (List.mem_cons_of_mem a hc))]
    simp

theorem padLeft_skip (CR : Bool) (f d w fuel j : Nat) (out : List Nat) (hf : f &&& 2 ≠ 0) :
    xvprintf_padLeft CR f d w (fuel + 1) j out = (j, out) := by
  simp only [xvprintf_padLeft, hf, if_false]

theorem padLeft_run (CR : Bool) (f d w : Nat) (hf : f &&& 2 = 0) (hd : d ≠ 10)
    (hw : w + 1 < 2 ^ 32) :
    ∀ (n fuel j : Nat) (out : List Nat), w - j = n → n < fuel → j + 1 < 2 ^ 32 →
      xvprintf_padLeft CR f d w fuel j out
        = (max j w + 1, out ++ List.replicate (w - j) d) := by
  intro n
  induction n with
  | zero =>
    intro fuel j out hn hfuel hj
    obtain ⟨k, rfl⟩ : ∃ k, fuel = k + 1 := ⟨fuel - 1, by omega⟩
    have hjw : ¬ (j < w) := by omega
    have hmax : max j w = j := by omega
    simp only [xvprintf_padLeft, hf, hjw, if_true, if_false, hn, hmax, List.replicate_zero,
      List.append_nil]
    rw [Nat.mod_eq_of_lt hj]
  | succ n ih =>
    intro fuel j out hn hfuel hj
    obtain ⟨k, rfl⟩ : ∃ k, fuel = k + 1 := ⟨fuel - 1, by omega⟩
    have hjw : j < w := by omega
    have hmod : (j + 1) % 2 ^ 32 = j + 1 := Nat.mod_eq_of_lt hj
    simp only [xvprintf_padLeft, hf, hjw, if_true, hmod]
    rw [ih k (j + 1) (xputc CR d out) (by omega) (by omega) (by omega), xputc_of_ne CR d out hd]
    have hmax : max (j + 1) w = max j w := by omega
    have hrep : w - j = (w - (j + 1)) + 1 := by omega
    rw [hmax, hrep, List.replicate_succ]
    simp

theorem padRight_run (CR : Bool) (w : Nat) (hw : w + 1 < 2 ^ 32) :
    ∀ (n fuel j : Nat) (out : List Nat), w - j = n → n < fuel →
      xvprintf_padRight CR w fuel j out = out ++ List.replicate (w - j) 32 := by
  intro n
  induction n with
  | zero =>
    intro fuel j out hn hfuel
    obtain ⟨k, rfl⟩ : ∃ k, fuel = k + 1 := ⟨fuel - 1, by omega⟩
    have hjw : ¬ (j < w) := by omega
    simp only [xvprintf_padRight, hjw, if_false, hn, List.replicate_zero, List.append_nil]
  | succ n ih =>
    intro fuel j out hn hfuel
    obtain ⟨k, rfl⟩ : ∃ k, fuel = k + 1 := ⟨fuel - 1, by omega⟩
    have hjw : j < w := by omega
    have hmod : (j + 1) % 2 ^ 32 = j + 1 := Nat.mod_eq_of_lt (by omega)
    simp only [xvprintf_padRight, hjw, if_true, hmod]
    rw [ih k (j + 1) (xputc CR 32 out) (by omega) (by omega),
      xputc_of_ne CR 32 out (by decide)]
    have hrep : w - j = (w - (j + 1)) + 1 := by omega
    rw [hrep, List.replicate_succ]
    simp

/-! ## `xvprintf`: minimum width -/

theorem width_run (conv : Nat) (rest : List Nat) (hconv : ¬ (conv ≥ 48 ∧ conv ≤ 57)) :
    ∀ (ds : List Nat) (acc c : Nat) (fmt : List Nat), (∀ d, d ∈ ds → d ≥ 48 ∧ d ≤ 57) →
      c :: fmt = ds ++ conv :: rest →
      xvprintf_width acc c fmt
        = (ds.foldl (fun a ch => (a * 10 + ch - 48) % 2 ^ 32) acc, conv, rest) := by
  intro ds
  induction ds with
  | nil =>
    intro acc c fmt _ h
    simp only [List.nil_append, List.cons.injEq] at h
    obtain ⟨rfl, rfl⟩ := h
    cases fmt <;> simp only [xvprintf_width, hconv, if_false, List.foldl_nil]
  | cons d ds ih =>
    intro acc c fmt hds h
    simp only [List.cons_append, List.cons.injEq] at h
    obtain ⟨rfl, rfl⟩ := h
    have hc := hds c (List.mem_cons_self c ds)
    obtain ⟨x, fmt', hx⟩ : ∃ x fmt', x :: fmt' = ds ++ conv :: rest := by
      cases ds with
      | nil => exact ⟨conv, rest, rfl⟩
      | cons a l => exact ⟨a, l ++ conv :: rest, rfl⟩
    rw [← hx]
    simp only [xvprintf_width, hc, and_self, if_true, List.foldl_cons]
    exact ih _ x fmt' (fun d hd => hds d (List.mem_cons_of_mem c hd)) hx

theorem widthField_digits (w : Nat) : ∀ d, d ∈ widthField w → d ≥ 48 ∧ d ≤ 57 := by
  intro d hd
  simp only [widthField, List.mem_reverse, List.mem_map] at hd
  obtain ⟨a, ha, rfl⟩ := hd
  have := Nat.digits_lt_base (by decide : 1 < 10) ha
  omega

theorem foldr_ofDigits (L : List Nat) :
    L.foldr (fun ch a => (a * 10 + (ch + 48) - 48) % 2 ^ 32) 0 = Nat.ofDigits 10 L % 2 ^ 32 := by
  induction L with
  | nil => rfl
  | cons d L ih =>
    rw [List.foldr_cons, ih, Nat.ofDigits_cons]
    omega

theorem widthField_value (w : Nat) (hw : w < 2 ^ 32) :
    (widthField w).foldl (fun a ch => (a * 10 + ch - 48) % 2 ^ 32) 0 = w := by
  unfold widthField
  rw [List.foldl_reverse, List.foldr_map, foldr_ofDigits, Nat.ofDigits_digits]
  exact Nat.mod_eq_of_lt hw

theorem widthField_head (w conv : Nat) (rest : List Nat) (hconv : ¬ (conv ≥ 48 ∧ conv ≤ 57))
    (h45 : conv ≠ 45) :
    ∃ c fmt, c :: fmt = widthField w ++ conv :: rest ∧ c ≠ 48 ∧ c ≠ 45 := by
  by_cases hw : w = 0
  · subst hw
    refine ⟨conv, rest, ?_, ?_, h45⟩
    · simp [widthField]
    · intro h
      exact hconv (by omega)
  · have hne : Nat.digits 10 w ≠ [] := Nat.digits_ne_nil_iff_ne_zero.mpr hw
    have hlast := Nat.getLast_digit_ne_zero 10 hw
    have hmem : (Nat.digits 10 w).getLast hne ∈ Nat.digits 10 w := List.getLast_mem hne
    have hlt := Nat.digits_lt_base (by decide : 1 < 10) hmem
    obtain ⟨init, hinit⟩ : ∃ init, Nat.digits 10 w = init ++ [(Nat.digits 10 w).getLast hne] :=
      ⟨_, (List.dropLast_append_getLast hne).symm⟩
    refine ⟨(Nat.digits 10 w).getLast hne + 48,
      (init.map (fun d => d + 48)).reverse ++ conv :: rest, ?_, ?_, ?_⟩
    · unfold widthField
      conv_rhs => rw [hinit]
      simp
    · omega
    · omega

/-! ## `xvprintf`: digits -/

theorem spec_run (flag : List Nat) (w conv : Nat) (rest : List Nat)
    (hflag : flag = [] ∨ flag = [48] ∨ flag = [45]) (hw : w < 2 ^ 32)
    (hconv : ¬ (conv ≥ 48 ∧ conv ≤ 57)) (h45 : conv ≠ 45) (hl : ¬ (conv = 108 ∨ conv = 76)) :
    xvprintf_spec (flag ++ widthField w ++ conv :: rest)
      = (if flag = [48] then 1 else if flag = [45] then 2 else 0, w, conv, rest) := by
  obtain ⟨c, fmt, hX, hc48, hc45⟩ := widthField_head w conv rest hconv h45
  have hwid := width_run conv rest hconv (widthField w) 0 c fmt (widthField_digits w) hX
  rw [widthField_value w hw] at hwid
  have hc : ¬ (c = 48 ∨ c = 45) := fun h => h.elim hc48 hc45
  rcases hflag with rfl | rfl | rfl
  · rw [List.nil_append, ← hX]
    simp only [xvprintf_spec, List.headD_cons, List.tail_cons, hc48, hc45, or_self, if_false,
      hwid, hl]
    simp
  · rw [List.append_assoc, ← hX]
    simp only [xvprintf_spec, List.singleton_append, List.headD_cons, List.tail_cons, true_or,
      if_true, hwid, hl, if_false]
  · rw [List.append_assoc, ← hX]
    simp only [xvprintf_spec, List.singleton_append, List.headD_cons, List.tail_cons, or_true,
      if_true, hwid, hl, if_false]
    simp

theorem digits_run (r c : Nat) (hr : 2 ≤ r) (hr16 : r ≤ 16) :
    ∀ (fuel v : Nat) (s : List Nat), v ≠ 0 → s.length < 16 → 16 ≤ fuel + s.length →
      xvprintf_digits r c fuel v s
        = s ++ ((Nat.digits r v).take (16 - s.length)).map
            (fun d => (if d > 9 then d + (if c = 120 then 0x27 else 0x07) else d) + 48) := by
  intro fuel
  induction fuel with
  | zero =>
    intro v s _ h1 h2
    omega
  | succ fuel ih =>
    intro v s hv h1 h2
    have hlt : v % r < 256 := by
      have := Nat.mod_lt v (by omega : r > 0)
      omega
    have hmod : v % r % 256 = v % r := Nat.mod_eq_of_lt hlt
    have hdig : Nat.digits r v = v % r :: Nat.digits r (v / r) :=
      Nat.digits_def' (by omega) (Nat.pos_of_ne_zero hv)
    have htake : 16 - s.length = (16 - (s.length + 1)) + 1 := by omega
    rw [hdig, htake, List.take_succ_cons, List.map_cons]
    simp only [xvprintf_digits, hmod, List.length_append, List.length_singleton]
    by_cases hcont : v / r ≠ 0 ∧ s.length + 1 < 16
    · rw [if_pos hcont, ih (v / r) _ hcont.1 (by simp; omega) (by simp; omega)]
      simp
    · rw [if_neg hcont]
      by_cases hz : v / r = 0
      · rw [hz, Nat.digits_zero]
        simp
      · have h15 : 16 - (s.length + 1) = 0 := by
          have : ¬ (s.length + 1 < 16) := fun h => hcont ⟨hz, h⟩
          omega
        rw [h15]
        simp

theorem digits_run_zero (r c : Nat) : xvprintf_digits r c 16 0 [] = [48] := by
  simp [xvprintf_digits]

theorem sign_bit (v : Nat) (hv : v < 2 ^ 32) : v &&& 0x80000000 ≠ 0 ↔ 2 ^ 31 ≤ v := by
  have h : (0x80000000 : Nat) = 2 ^ 31 := by norm_num
  rw [h, Nat.and_two_pow, Nat.testBit_to_div_mod]
  by_cases hb : v / 2 ^ 31 % 2 = 1
  · simp only [hb, decide_True, Bool.toNat_true, one_mul]
    constructor
    · intro _
      omega
    · intro _
      norm_num
  · simp only [hb, decide_False, Bool.toNat_false, zero_mul, ne_eq, not_true_eq_false, false_iff]
    omega

/-! ## `xvprintf`: layout of a number -/

theorem layout_right (CR : Bool) (f d w : Nat) (s out : List Nat) (hf : f &&& 2 = 0)
    (hd : d ≠ 10) (hw : w + 1 < 2 ^ 32) (hs : ∀ c, c ∈ s → c ≠ 10) (hlen : s.length + 1 < 2 ^ 32) :
    xvprintf_padRight CR w (w + 1) (xvprintf_padLeft CR f d w (w + 1) s.length out).1
        (s.reverse.foldl (fun out ch => xputc CR ch out)
          (xvprintf_padLeft CR f d w (w + 1) s.length out).2)
      = out ++ (List.replicate (w - s.reverse.length) d ++ s.reverse) := by
  rw [padLeft_run CR f d w hf hd hw (w - s.length) (w + 1) s.length out rfl (by omega) hlen]
  simp only
  rw [foldl_xputc CR s.reverse _ (fun c hc => hs c (List.mem_reverse.mp hc)),
    padRight_run CR w hw (w - (max s.length w + 1)) (w + 1) _ _ rfl (by omega)]
  have h0 : w - (max s.length w + 1) = 0 := by omega
  rw [h0, List.length_reverse]
  simp

theorem layout_left (CR : Bool) (f d w : Nat) (s out : List Nat) (hf : f &&& 2 ≠ 0)
    (hw : w + 1 < 2 ^ 32) (hs : ∀ c, c ∈ s → c ≠ 10) :
    xvprintf_padRight CR w (w + 1) (xvprintf_padLeft CR f d w (w + 1) s.length out).1
        (s.reverse.foldl (fun out ch => xputc CR ch out)
          (xvprintf_padLeft CR f d w (w + 1) s.length out).2)
      = out ++ (s.reverse ++ List.replicate (w - s.reverse.length) 32) := by
  rw [padLeft_skip CR f d w w s.length out hf]
  simp only
  rw [foldl_xputc CR s.reverse _ (fun c hc => hs c (List.mem_reverse.mp hc)),
    padRight_run CR w hw (w - s.length) (w + 1) _ _ rfl (by omega), List.length_reverse]
  simp

/-- The output of the layout part of a numeric conversion, for the flag `flag`,
whose code `f` may carry the sign bit 8. -/
theorem layout_run (CR : Bool) (flag : List Nat) (f w : Nat) (s out : List Nat)
    (hf : (flag = [] ∧ (f = 0 ∨ f = 8)) ∨ (flag = [48] ∧ (f = 1 ∨ f = 9))
      ∨ (flag = [45] ∧ (f = 2 ∨ f = 10)))
    (hw : w + 1 < 2 ^ 32) (hs : ∀ c, c ∈ s → c ≠ 10) (hlen : s.length + 1 < 2 ^ 32) :
    xvprintf_padRight CR w (w + 1)
        (xvprintf_padLeft CR f (if f &&& 1 ≠ 0 then 48 else 32) w (w + 1) s.length out).1
        (s.reverse.foldl (fun out ch => xputc CR ch out)
          (xvprintf_padLeft CR f (if f &&& 1 ≠ 0 then 48 else 32) w (w + 1) s.length out).2)
      = out ++ justified flag w s.reverse := by
  rcases hf with ⟨rfl, rfl | rfl⟩ | ⟨rfl, rfl | rfl⟩ | ⟨rfl, rfl | rfl⟩
  · rw [layout_right CR 0 _ w s out (by decide) (by decide) hw hs hlen]
    rfl
  · rw [layout_right CR 8 _ w s out (by decide) (by decide) hw hs hlen]
    rfl
  · rw [layout_right CR 1 _ w s out (by decide) (by decide) hw hs hlen]
    rfl
  · rw [layout_right CR 9 _ w s out (by decide) (by decide) hw hs hlen]
    rfl
  · rw [layout_left CR 2 _ w s out (by decide) hw hs]
    rfl
  · rw [layout_left CR 10 _ w s out (by decide) hw hs]
    rfl

/-! ## `xvprintf`: the numeric conversions -/

theorem digits_length_le (r v : Nat) (hv : v < 2 ^ 32)
    (hr : (r = 2 ∧ v < 2 ^ 16) ∨ r = 8 ∨ r = 10 ∨ r = 16) : (Nat.digits r v).length ≤ 16 := by
  by_cases hz : v = 0
  · rw [hz, Nat.digits_zero]
    exact Nat.zero_le _
  · by_contra hlen
    have h17 : 17 ≤ (Nat.digits r v).length := by omega
    have hr1 : 1 < r := by omega
    have hpow := Nat.base_pow_length_digits_le r v hr1 hz
    have hmono : r ^ 17 ≤ r ^ (Nat.digits r v).length := Nat.pow_le_pow_right (by omega) h17
    rcases hr with ⟨rfl, hv16⟩ | rfl | rfl | rfl
    · have : (2 : Nat) ^ 17 ≤ 2 * v := le_trans hmono hpow
      omega
    · have : (8 : Nat) ^ 17 ≤ 8 * v := le_trans hmono hpow
      omega
    · have : (10 : Nat) ^ 17 ≤ 10 * v := le_trans hmono hpow
      omega
    · have : (16 : Nat) ^ 17 ≤ 16 * v := le_trans hmono hpow
      omega

theorem lastChars_of_le (n : Nat) (s : List Nat) (h : s.length ≤ n) : lastChars n s = s := by
  unfold lastChars
  have h0 : s.length - n = 0 := by omega
  rw [h0, List.drop_zero]

/-- The digits stored by the loop, read from the last to the first, are the 16
low-order digits of the numeral. -/
theorem digits_string (r c v : Nat) (hr : r = 2 ∨ r = 8 ∨ r = 10 ∨ r = 16)
    (hc : r = 16 → c = 120) :
    (xvprintf_digits r c 16 v []).reverse = lastChars 16 (numeral r v)
    ∧ (∀ ch, ch ∈ xvprintf_digits r c 16 v [] → 48 ≤ ch)
    ∧ (xvprintf_digits r c 16 v []).length ≤ 16 := by
  by_cases hz : v = 0
  · subst hz
    rw [digits_run_zero]
    refine ⟨rfl, ?_, by decide⟩
    intro ch hch
    simp only [List.mem_singleton] at hch
    omega
  · have hr2 : 2 ≤ r := by omega
    have hr16 : r ≤ 16 := by omega
    have hmap : ((Nat.digits r v).take 16).map
          (fun d => (if d > 9 then d + (if c = 120 then 0x27 else 0x07) else d) + 48)
        = ((Nat.digits r v).take 16).map digitChar := by
      apply List.map_congr_left
      intro d hd
      have hlt := Nat.digits_lt_base (by omega : 1 < r) (List.mem_of_mem_take hd)
      unfold digitChar
      by_cases h9 : d > 9
      · have h16 : r = 16 := by omega
        rw [if_pos h9, if_pos h9, if_pos (hc h16)]
      · rw [if_neg h9, if_neg h9]
    rw [digits_run r c hr2 hr16 16 v [] hz (by decide) (by decide)]
    simp only [List.nil_append, List.length_nil, Nat.sub_zero]
    rw [hmap]
    refine ⟨?_, ?_, ?_⟩
    · unfold numeral lastChars
      rw [if_neg hz, List.map_take, List.reverse_take, List.length_reverse]
    · intro ch hch
      simp only [List.mem_map] at hch
      obtain ⟨d, _, rfl⟩ := hch
      unfold digitChar
      split <;> omega
    · rw [List.length_map, List.length_take]
      omega

theorem number_unsigned (CR : Bool) (flag : List Nat) (w c d r v : Nat) (out : List Nat)
    (hflag : flag = [] ∨ flag = [48] ∨ flag = [45])
    (hd : (c = 98 ∧ d = 66 ∧ r = 2) ∨ (c = 111 ∧ d = 79 ∧ r = 8) ∨ (c = 117 ∧ d = 85 ∧ r = 10)
      ∨ (c = 120 ∧ d = 88 ∧ r = 16))
    (hv : v < 2 ^ 32) (hw : w + 1 < 2 ^ 32) :
    xvprintf_number CR (if flag = [48] then 1 else if flag = [45] then 2 else 0) w c d v out
      = out ++ justified flag w (lastChars 16 (numeral r v)) := by
  have hr : (if d = 66 then 2 else if d = 79 then 8 else if d = 88 then 16 else 10) = r := by
    rcases hd with ⟨_, rfl, rfl⟩ | ⟨_, rfl, rfl⟩ | ⟨_, rfl, rfl⟩ | ⟨_, rfl, rfl⟩ <;> rfl
  have hd68 : ¬ (d = 68 ∧ v &&& 0x80000000 ≠ 0) := by
    intro h
    omega
  have hneg : decide (d = 68 ∧ v &&& 0x80000000 ≠ 0) = false := decide_eq_false hd68
  obtain ⟨hs1, hs2, hs3⟩ := digits_string r c v (by omega) (by omega)
  have hf8 : ¬ ((if flag = [48] then 1 else if flag = [45] then 2 else 0) &&& 8 ≠ 0) := by
    rcases hflag with rfl | rfl | rfl <;> decide
  unfold xvprintf_number
  simp only [hr, hneg, Nat.mod_eq_of_lt hv, Bool.false_eq_true, if_false, hf8]
  rw [layout_run CR flag (if flag = [48] then 1 else if flag = [45] then 2 else 0) w _ out
    (by rcases hflag with rfl | rfl | rfl <;> simp) hw
    (fun ch hch => by have := hs2 ch hch; omega) (by omega), hs1]

theorem wordOfInt_nonneg (z : Int) (h1 : 0 ≤ z) (h2 : z < 2 ^ 31) :
    wordOfInt z = z.natAbs ∧ z.natAbs < 2 ^ 31 := by
  unfold wordOfInt
  omega

theorem wordOfInt_neg (z : Int) (h1 : -2 ^ 31 ≤ z) (h2 : z < 0) :
    wordOfInt z = 2 ^ 32 - z.natAbs ∧ 0 < z.natAbs ∧ z.natAbs ≤ 2 ^ 31 := by
  unfold wordOfInt
  omega

theorem number_signed (CR : Bool) (flag : List Nat) (w : Nat) (z : Int) (out : List Nat)
    (hflag : flag = [] ∨ flag = [48] ∨ flag = [45])
    (hz1 : -2 ^ 31 ≤ z) (hz2 : z < 2 ^ 31) (hw : w + 1 < 2 ^ 32) :
    xvprintf_number CR (if flag = [48] then 1 else if flag = [45] then 2 else 0) w 100 68
        (wordOfInt z) out
      = out ++ justified flag w ((if z < 0 then [45] else []) ++ numeral 10 z.natAbs) := by
  obtain ⟨hs1, hs2, hs3⟩ := digits_string 10 100 z.natAbs (by omega) (by omega)
  have hlen : (numeral 10 z.natAbs).length ≤ 16 := by
    have : z.natAbs < 2 ^ 32 := by omega
    unfold numeral
    split
    · decide
    · rw [List.length_reverse, List.length_map]
      exact digits_length_le 10 _ this (Or.inr (Or.inr (Or.inl rfl)))
  rw [lastChars_of_le 16 _ hlen] at hs1
  have hr : (if (68 : Nat) = 66 then 2 else if (68 : Nat) = 79 then 8
      else if (68 : Nat) = 88 then 16 else 10) = 10 := rfl
  unfold xvprintf_number
  by_cases hneg : z < 0
  · obtain ⟨hv, hpos, hle⟩ := wordOfInt_neg z hz1 hneg
    have hv32 : 2 ^ 32 - z.natAbs < 2 ^ 32 := by omega
    have hbit : (2 ^ 32 - z.natAbs) &&& 0x80000000 ≠ 0 :=
      (sign_bit _ hv32).mpr (by omega)
    have hdec : decide (True ∧ (2 ^ 32 - z.natAbs) &&& 0x80000000 ≠ 0) = true :=
      decide_eq_true ⟨trivial, hbit⟩
    have hback : (2 ^ 32 - (2 ^ 32 - z.natAbs)) % 2 ^ 32 = z.natAbs := by omega
    have hf8 : ((if flag = [48] then 1 else if flag = [45] then 2 else 0) ||| 8) &&& 8 ≠ 0 := by
      rcases hflag with rfl | rfl | rfl <;> decide
    rw [hv]
    simp only [Nat.mod_eq_of_lt hv32, hdec, if_true, hback, hr]
    rw [if_pos hf8, if_pos hneg]
    have hrev : [45] ++ numeral 10 z.natAbs
        = (xvprintf_digits 10 100 16 z.natAbs [] ++ [45]).reverse := by
      rw [List.reverse_append, hs1]
      rfl
    rw [hrev]
    exact layout_run CR flag ((if flag = [48] then 1 else if flag = [45] then 2 else 0) ||| 8) w
      (xvprintf_digits 10 100 16 z.natAbs [] ++ [45]) out
      (by rcases hflag with rfl | rfl | rfl <;> simp) hw
      (fun ch hch => by
        rcases List.mem_append.mp hch with h | h
        · have := hs2 ch h
          omega
        · simp only [List.mem_singleton] at h
          omega)
      (by simp; omega)
  · obtain ⟨hv, hlt⟩ := wordOfInt_nonneg z (by omega) hz2
    have hv32 : z.natAbs < 2 ^ 32 := by omega
    have hbit : ¬ (z.natAbs &&& 0x80000000 ≠ 0) := fun h => by
      have := (sign_bit _ hv32).mp h
      omega
    have hdec : decide (True ∧ z.natAbs &&& 0x80000000 ≠ 0) = false :=
      decide_eq_false (fun h => hbit h.2)
    have hf8 : ¬ ((if flag = [48] then 1 else if flag = [45] then 2 else 0) &&& 8 ≠ 0) := by
      rcases hflag with rfl | rfl | rfl <;> decide
    rw [hv]
    simp only [Nat.mod_eq_of_lt hv32, hdec, Bool.false_eq_true, if_false, hf8, hr]
    rw [if_neg hneg, List.nil_append, ← hs1]
    exact layout_run CR flag (if flag = [48] then 1 else if flag = [45] then 2 else 0) w
      (xvprintf_digits 10 100 16 z.natAbs []) out
      (by rcases hflag with rfl | rfl | rfl <;> simp) hw
      (fun ch hch => by
        have := hs2 ch hch
        omega)
      (by omega)

/-! ## `xvprintf`: one conversion -/

theorem loop_end (CR : Bool) (fuel : Nat) (arp : List VaArg) (out : List Nat) :
    xvprintf_loop CR (fuel + 1) [] arp out = some out := by
  simp [xvprintf_loop]

theorem directive_append (flag : List Nat) (w conv : Nat) (rest : List Nat) :
    directive flag w conv ++ rest = 37 :: (flag ++ widthField w ++ conv :: rest) := by
  simp [directive]

/-- One pass of the loop on a numeric conversion: the head of the conversion is
read and the numeric conversion runs on the next argument. -/
theorem loop_directive (CR : Bool) (fuel : Nat) (flag : List Nat) (w conv v : Nat)
    (rest : List Nat) (arp : List VaArg) (out : List Nat)
    (hflag : flag = [] ∨ flag = [48] ∨ flag = [45]) (hw : w < 2 ^ 32)
    (hconv : conv = 98 ∨ conv = 111 ∨ conv = 117 ∨ conv = 120 ∨ conv = 100) :
    xvprintf_loop CR (fuel + 1) (directive flag w conv ++ rest) (VaArg.word v :: arp) out
      = xvprintf_loop CR fuel rest arp
          (xvprintf_number CR (if flag = [48] then 1 else if flag = [45] then 2 else 0) w conv
            (conv - 0x20) v out) := by
  have hspec := spec_run flag w conv rest hflag hw (by omega) (by omega) (by omega)
  rw [List.append_assoc] at hspec
  rw [directive_append]
  rcases hconv with rfl | rfl | rfl | rfl | rfl <;>
    simp [xvprintf_loop, hspec]

/-! ## `xvprintf`: numbers -/

theorem xvprintf_directive (CR : Bool) (flag : List Nat) (w conv v : Nat)
    (hflag : flag = [] ∨ flag = [48] ∨ flag = [45]) (hw : w < 2 ^ 32)
    (hconv : conv = 98 ∨ conv = 111 ∨ conv = 117 ∨ conv = 120 ∨ conv = 100) :
    xvprintf CR (directive flag w conv) [VaArg.word v]
      = some (xvprintf_number CR (if flag = [48] then 1 else if flag = [45] then 2 else 0) w conv
          (conv - 0x20) v []) := by
  have hlen : (directive flag w conv).length = ((directive flag w conv).length - 1) + 1 := by
    simp [directive]
  unfold xvprintf
  rw [hlen]
  have h := loop_directive CR ((directive flag w conv).length - 1 + 1) flag w conv v [] [] []
    hflag hw hconv
  rw [List.append_nil] at h
  rw [h, loop_end]

/-- C32, refuted on the format `"%b"` and the value 65536: the complete binary
digit string of 65536 is a `1` followed by sixteen `0`; `xvprintf` writes sixteen
`0`. -/
theorem xvprintf_binary_truncated :
    xvprintf false [37, 98] [VaArg.word 65536] = some (List.replicate 16 48)
    ∧ numeral 2 65536 = 49 :: List.replicate 16 48
    ∧ xvprintf false [37, 98] [VaArg.word 65536] ≠ some (numeral 2 65536) := by
  have h1 : xvprintf false [37, 98] [VaArg.word 65536] = some (List.replicate 16 48) := by
    decide
  have h2 : numeral 2 65536 = 49 :: List.replicate 16 48 := by
    norm_num [numeral, digitChar]
    rfl
  refine ⟨h1, h2, ?_⟩
  rw [h1, h2]
  decide

/-- C32 as amended: for every flag (none, `0` or `-`), every minimum width `w`
below 2^32 - 1 and every 32-bit word `v`, `xvprintf` on the format made of `%`,
the flag, the decimal digits of `w` and the type character writes, for `o`, `u`
and `x`, the complete digit string of `v` in radix 8, 10 and 16, most
significant digit first, justified to at least `w` characters (on the right and
padded with spaces, with `0` for the flag `0`; on the left for the flag `-`);
for `b` it writes the 16 low-order binary digits of `v`, which are its complete
digit string when `v < 2^16`; for `d` and the word of a signed value `z` it
writes `-` before the decimal digits of `|z|` when `z` is negative, justified in
the same way (the padding precedes the sign).  `xvsprintf` stores the same
characters followed by a NUL.  The documented formats give `"  -200,  5%"`,
`"100   "`, `"00a3"` and `"0101010100001111"`. -/
theorem xvprintf_numeral (CR : Bool) (flag : List Nat) (w v : Nat)
    (hflag : flag = [] ∨ flag = [48] ∨ flag = [45]) (hw : w + 1 < 2 ^ 32) (hv : v < 2 ^ 32) :
    xvprintf CR (directive flag w 111) [VaArg.word v] = some (justified flag w (numeral 8 v))
    ∧ xvprintf CR (directive flag w 117) [VaArg.word v] = some (justified flag w (numeral 10 v))
    ∧ xvprintf CR (directive flag w 120) [VaArg.word v] = some (justified flag w (numeral 16 v))
    ∧ xvprintf CR (directive flag w 98) [VaArg.word v]
        = some (justified flag w (lastChars 16 (numeral 2 v)))
    ∧ (v < 2 ^ 16 → lastChars 16 (numeral 2 v) = numeral 2 v)
    ∧ (∀ z : Int, -2 ^ 31 ≤ z → z < 2 ^ 31 →
        xvprintf CR (directive flag w 100) [VaArg.word (wordOfInt z)]
          = some (justified flag w ((if z < 0 then [45] else []) ++ numeral 10 z.natAbs)))
    ∧ xvsprintf CR (directive flag w 120) [VaArg.word v]
        = some (justified flag w (numeral 16 v) ++ [0])
    ∧ xvprintf CR [37, 54, 100, 44, 37, 51, 100, 37, 37]
          [VaArg.word (wordOfInt (-200)), VaArg.word 5]
        = some [32, 32, 45, 50, 48, 48, 44, 32, 32, 53, 37]
    ∧ xvprintf CR [37, 45, 54, 117] [VaArg.word 100] = some [49, 48, 48, 32, 32, 32]
    ∧ xvprintf CR [37, 48, 52, 120] [VaArg.word 0xA3] = some [48, 48, 97, 51]
    ∧ xvprintf CR [37, 48, 49, 54, 98] [VaArg.word 0x550F]
        = some [48, 49, 48, 49, 48, 49, 48, 49, 48, 48, 48, 48, 49, 49, 49, 49] := by
  have hw' : w < 2 ^ 32 := by omega
  have hlen : ∀ r, (r = 2 ∧ v < 2 ^ 16) ∨ r = 8 ∨ r = 10 ∨ r = 16 →
      lastChars 16 (numeral r v) = numeral r v := by
    intro r hr
    apply lastChars_of_le
    unfold numeral
    split
    · decide
    · rw [List.length_reverse, List.length_map]
      exact digits_length_le r v hv hr
  have h8 : xvprintf CR (directive flag w 111) [VaArg.word v]
      = some (justified flag w (numeral 8 v)) := by
    rw [xvprintf_directive CR flag w 111 v hflag hw' (by decide),
      number_unsigned CR flag w 111 (111 - 0x20) 8 v [] hflag (by decide) hv hw,
      hlen 8 (Or.inr (Or.inl rfl)), List.nil_append]
  have h10 : xvprintf CR (directive flag w 117) [VaArg.word v]
      = some (justified flag w (numeral 10 v)) := by
    rw [xvprintf_directive CR flag w 117 v hflag hw' (by decide),
      number_unsigned CR flag w 117 (117 - 0x20) 10 v [] hflag (by decide) hv hw,
      hlen 10 (Or.inr (Or.inr (Or.inl rfl))), List.nil_append]
  have h16 : xvprintf CR (directive flag w 120) [VaArg.word v]
      = some (justified flag w (numeral 16 v)) := by
    rw [xvprintf_directive CR flag w 120 v hflag hw' (by decide),
      number_unsigned CR flag w 120 (120 - 0x20) 16 v [] hflag (by decide) hv hw,
      hlen 16 (Or.inr (Or.inr (Or.inr rfl))), List.nil_append]
  refine ⟨h8, h10, h16, ?_, fun h => hlen 2 (Or.inl ⟨rfl, h⟩), ?_, ?_, ?_, ?_, ?_, ?_⟩
  · rw [xvprintf_directive CR flag w 98 v hflag hw' (by decide),
      number_unsigned CR flag w 98 (98 - 0x20) 2 v [] hflag (by decide) hv hw, List.nil_append]
  · intro z hz1 hz2
    rw [xvprintf_directive CR flag w 100 (wordOfInt z) hflag hw' (by decide)]
    have h := number_signed CR flag w z [] hflag hz1 hz2 hw
    rw [List.nil_append] at h
    exact congrArg some h
  · unfold xvsprintf
    rw [h16]
  · cases CR <;> decide
  · cases CR <;> decide
  · cases CR <;> decide
  · cases CR <;> decide

/-- Witness of amended C32: the documented format `"%04x"` on the value 0xA3. -/
theorem xvprintf_numeral_witness :
    xvprintf false (directive [48] 4 120) [VaArg.word 0xA3]
      = some (justified [48] 4 (numeral 16 0xA3))
    ∧ directive [48] 4 120 = [37, 48, 52, 120]
    ∧ justified [48] 4 (numeral 16 0xA3) = [48, 48, 97, 51] :=
  ⟨(xvprintf_numeral false [48] 4 0xA3 (by decide) (by decide) (by decide)).2.2.1,
    by norm_num [directive, widthField],
    by norm_num [justified, numeral, digitChar, List.replicate]⟩

/-! ## Detection of a changed byte by a CRC-16 -/

theorem xor_high_bit (z poly : Nat) (hz : z < 2 ^ 15) (hp : 2 ^ 15 ≤ poly) (hp2 : poly < 2 ^ 16) :
    2 ^ 15 ≤ z ^^^ poly := by
  apply Nat.testBit_implies_ge
  rw [Nat.testBit_xor, Nat.testBit_lt_two_pow hz, Nat.testBit_to_div_mod]
  have : poly / 2 ^ 15 % 2 = 1 := by omega
  rw [this]
  rfl

theorem crcBit_lt (reflected : Bool) (poly crc : Nat) (hp : poly < 2 ^ 16) (hc : crc < 2 ^ 16) :
    crcBit reflected poly crc < 2 ^ 16 := by
  unfold crcBit
  split
  · split
    · exact Nat.xor_lt_two_pow (by omega) hp
    · omega
  · split
    · exact Nat.xor_lt_two_pow (Nat.mod_lt _ (by decide)) hp
    · exact Nat.mod_lt _ (by decide)

theorem crcBit_inj (reflected : Bool) (poly x y : Nat) (hp : poly < 2 ^ 16)
    (hterm : if reflected = true then 2 ^ 15 ≤ poly else poly % 2 = 1)
    (hx : x < 2 ^ 16) (hy : y < 2 ^ 16)
    (h : crcBit reflected poly x = crcBit reflected poly y) : x = y := by
  unfold crcBit at h
  cases reflected with
  | true =>
    simp only [if_true] at h hterm
    by_cases hx1 : x % 2 = 1
    · by_cases hy1 : y % 2 = 1
      · rw [if_pos hx1, if_pos hy1] at h
        have := Nat.xor_left_inj.mp h
        omega
      · rw [if_pos hx1, if_neg hy1] at h
        have := xor_high_bit (x / 2) poly (by omega) hterm hp
        omega
    · by_cases hy1 : y % 2 = 1
      · rw [if_neg hx1, if_pos hy1] at h
        have := xor_high_bit (y / 2) poly (by omega) hterm hp
        omega
      · rw [if_neg hx1, if_neg hy1] at h
        omega
  | false =>
    simp only [Bool.false_eq_true, if_false] at h hterm
    have hodd : ∀ z, (2 * z % 2 ^ 16 ^^^ poly) % 2 = 1 := by
      intro z
      rw [Nat.xor_mod_two_eq]
      omega
    by_cases hx1 : x / 2 ^ 15 % 2 = 1
    · by_cases hy1 : y / 2 ^ 15 % 2 = 1
      · rw [if_pos hx1, if_pos hy1] at h
        have := Nat.xor_left_inj.mp h
        omega
      · rw [if_pos hx1, if_neg hy1] at h
        have := hodd x
        omega
    · by_cases hy1 : y / 2 ^ 15 % 2 = 1
      · rw [if_neg hx1, if_pos hy1] at h
        have := hodd y
        omega
      · rw [if_neg hx1, if_neg hy1] at h
        omega

theorem crcByte_entry_lt (reflected : Bool) (s b : Nat) (hs : s < 2 ^ 16) (hb : b < 256) :
    s ^^^ (if reflected = true then b else b * 256) < 2 ^ 16 := by
  apply Nat.xor_lt_two_pow hs
  split <;> omega

theorem crcByte_lt (reflected : Bool) (poly s b : Nat) (hp : poly < 2 ^ 16) (hs : s < 2 ^ 16)
    (hb : b < 256) : crcByte reflected poly s b < 2 ^ 16 := by
  unfold crcByte
  exact crcBit_lt _ _ _ hp (crcBit_lt _ _ _ hp (crcBit_lt _ _ _ hp (crcBit_lt _ _ _ hp
    (crcBit_lt _ _ _ hp (crcBit_lt _ _ _ hp (crcBit_lt _ _ _ hp (crcBit_lt _ _ _ hp
      (crcByte_entry_lt reflected s b hs hb))))))))

/-- Eight bit steps are injective on the 16-bit values. -/
theorem crcBit8_inj (reflected : Bool) (poly x y : Nat) (hp : poly < 2 ^ 16)
    (hterm : if reflected = true then 2 ^ 15 ≤ poly else poly % 2 = 1)
    (hx : x < 2 ^ 16) (hy : y < 2 ^ 16)
    (h : crcBit reflected poly (crcBit reflected poly (crcBit reflected poly
          (crcBit reflected poly (crcBit reflected poly (crcBit reflected poly
            (crcBit reflected poly (crcBit reflected poly x)))))))
        = crcBit reflected poly (crcBit reflected poly (crcBit reflected poly
          (crcBit reflected poly (crcBit reflected poly (crcBit reflected poly
            (crcBit reflected poly (crcBit reflected poly y)))))))) : x = y := by
  have x1 := crcBit_lt reflected poly x hp hx
  have x2 := crcBit_lt reflected poly _ hp x1
  have x3 := crcBit_lt reflected poly _ hp x2
  have x4 := crcBit_lt reflected poly _ hp x3
  have x5 := crcBit_lt reflected poly _ hp x4
  have x6 := crcBit_lt reflected poly _ hp x5
  have x7 := crcBit_lt reflected poly _ hp x6
  have y1 := crcBit_lt reflected poly y hp hy
  have y2 := crcBit_lt reflected poly _ hp y1
  have y3 := crcBit_lt reflected poly _ hp y2
  have y4 := crcBit_lt reflected poly _ hp y3
  have y5 := crcBit_lt reflected poly _ hp y4
  have y6 := crcBit_lt reflected poly _ hp y5
  have y7 := crcBit_lt reflected poly _ hp y6
  have h7 := crcBit_inj reflected poly _ _ hp hterm x7 y7 h
  have h6 := crcBit_inj reflected poly _ _ hp hterm x6 y6 h7
  have h5 := crcBit_inj reflected poly _ _ hp hterm x5 y5 h6
  have h4 := crcBit_inj reflected poly _ _ hp hterm x4 y4 h5
  have h3 := crcBit_inj reflected poly _ _ hp hterm x3 y3 h4
  have h2 := crcBit_inj reflected poly _ _ hp hterm x2 y2 h3
  have h1 := crcBit_inj reflected poly _ _ hp hterm x1 y1 h2
  exact crcBit_inj reflected poly _ _ hp hterm hx hy h1

theorem crcByte_inj_state (reflected : Bool) (poly s t b : Nat) (hp : poly < 2 ^ 16)
    (hterm : if reflected = true then 2 ^ 15 ≤ poly else poly % 2 = 1)
    (hs : s < 2 ^ 16) (ht : t < 2 ^ 16) (hb : b < 256)
    (h : crcByte reflected poly s b = crcByte reflected poly t b) : s = t := by
  unfold crcByte at h
  have h8 := crcBit8_inj reflected poly _ _ hp hterm (crcByte_entry_lt reflected s b hs hb)
    (crcByte_entry_lt reflected t b ht hb) h
  exact Nat.xor_left_inj.mp h8

theorem crcByte_inj_byte (reflected : Bool) (poly s a b : Nat) (hp : poly < 2 ^ 16)
    (hterm : if reflected = true then 2 ^ 15 ≤ poly else poly % 2 = 1)
    (hs : s < 2 ^ 16) (ha : a < 256) (hb : b < 256)
    (h : crcByte reflected poly s a = crcByte reflected poly s b) : a = b := by
  unfold crcByte at h
  have h8 := crcBit8_inj reflected poly _ _ hp hterm (crcByte_entry_lt reflected s a hs ha)
    (crcByte_entry_lt reflected s b hs hb) h
  have h9 := Nat.xor_right_inj.mp h8
  cases reflected with
  | true => exact h9
  | false =>
    simp only [Bool.false_eq_true, if_false] at h9
    omega

theorem bytesOf_succ (f : Buffer) (n : Nat) : bytesOf f (n + 1) = bytesOf f n ++ [f n] := by
  simp [bytesOf, List.range_succ]

theorem crcState_succ (g : Nat → Nat → Nat) (init : Nat) (f : Buffer) (n : Nat) :
    (bytesOf f (n + 1)).foldl g init = g ((bytesOf f n).foldl g init) (f n) := by
  rw [bytesOf_succ, List.foldl_append]
  rfl

theorem crcState_lt (reflected : Bool) (poly init : Nat) (f : Buffer) (hp : poly < 2 ^ 16)
    (hinit : init < 2 ^ 16) :
    ∀ n, (∀ k, k < n → f k < 256) →
      (bytesOf f n).foldl (crcByte reflected poly) init < 2 ^ 16 := by
  intro n
  induction n with
  | zero =>
    intro _
    exact hinit
  | succ n ih =>
    intro hb
    rw [crcState_succ]
    exact crcByte_lt reflected poly _ _ hp (ih (fun k hk => hb k (by omega))) (hb n (by omega))

/-- A CRC-16 separates two byte strings of the same length that differ in one
byte: on memory `f` and on `f` with the byte at offset `i` replaced by another
byte, the checksums of the bytes `[0, n)` differ as soon as `i < n`. -/
theorem crc16_detects (reflected : Bool) (poly init xorout : Nat)
    (hcrc : IsCrc16 reflected poly init xorout) (f : Buffer) (i v n : Nat)
    (hf : ∀ k, k < n → f k < 256) (hv : v < 256) (hne : v ≠ f i) (hi : i < n) :
    crc16 reflected poly init xorout (bytesOf (poke f i v) n)
      ≠ crc16 reflected poly init xorout (bytesOf f n) := by
  obtain ⟨hp, hinit, _, hterm⟩ := hcrc
  have hf' : ∀ k, k < n → poke f i v k < 256 := by
    intro k hk
    unfold poke
    split
    · exact hv
    · exact hf k hk
  have hbefore : ∀ k, k ≤ i →
      (bytesOf (poke f i v) k).foldl (crcByte reflected poly) init
        = (bytesOf f k).foldl (crcByte reflected poly) init := by
    intro k
    induction k with
    | zero =>
      intro _
      rfl
    | succ k ih =>
      intro hk
      have hki : ¬ (k = i) := by omega
      rw [crcState_succ, crcState_succ, ih (by omega)]
      simp only [poke, hki, if_false]
  have hafter : ∀ m, (i + 1 + m ≤ n) →
      (bytesOf (poke f i v) (i + 1 + m)).foldl (crcByte reflected poly) init
        ≠ (bytesOf f (i + 1 + m)).foldl (crcByte reflected poly) init := by
    intro m
    induction m with
    | zero =>
      intro _ h
      rw [Nat.add_zero, crcState_succ, crcState_succ, hbefore i (le_refl i)] at h
      have hs := crcState_lt reflected poly init f hp hinit i (fun k hk => hf k (by omega))
      have hpi : poke f i v i = v := by simp [poke]
      rw [hpi] at h
      exact hne (crcByte_inj_byte reflected poly _ v (f i) hp hterm hs hv (hf i hi) h)
    | succ m ih =>
      intro hm h
      have e : i + 1 + (m + 1) = (i + 1 + m) + 1 := by omega
      rw [e, crcState_succ, crcState_succ] at h
      have hk : ¬ (i + 1 + m = i) := by omega
      have hpk : poke f i v (i + 1 + m) = f (i + 1 + m) := by simp only [poke, hk, if_false]
      rw [hpk] at h
      have hs1 := crcState_lt reflected poly init (poke f i v) hp hinit (i + 1 + m)
        (fun k hk => hf' k (by omega))
      have hs2 := crcState_lt reflected poly init f hp hinit (i + 1 + m)
        (fun k hk => hf k (by omega))
      exact ih (by omega) (crcByte_inj_state reflected poly _ _ _ hp hterm hs1 hs2
        (hf (i + 1 + m) (by omega)) h)
  have hn : n = i + 1 + (n - i - 1) := by omega
  intro h
  unfold crc16 at h
  have h2 := Nat.xor_left_inj.mp h
  rw [hn] at h2
  exact hafter (n - i - 1) (by omega) h2

theorem crc16_lt (reflected : Bool) (poly init xorout : Nat)
    (hcrc : IsCrc16 reflected poly init xorout) (f : Buffer) (n : Nat)
    (hf : ∀ k, k < n → f k < 256) :
    crc16 reflected poly init xorout (bytesOf f n) < 2 ^ 16 :=
  Nat.xor_lt_two_pow (crcState_lt reflected poly init f hcrc.1 hcrc.2.1 n hf) hcrc.2.2.1

theorem prepare_bytes_lt (crc : List Nat → Nat) (p : ELCOM_packet_t) (buf : Buffer)
    (hn : p.dataLength ≤ 251) (hcmd : p.cmd < 256)
    (hdata : ∀ k, k < p.dataLength → p.data k < 256) :
    ∀ k, k < 4 + p.dataLength → (ELCOM_prepareSendPacket crc p buf).2 k < 256 := by
  intro k hk
  by_cases h4 : k < 4
  · have hcases : k = 0 ∨ k = 1 ∨ k = 2 ∨ k = 3 := by omega
    rcases hcases with h | h | h | h
    · rw [h, prepare_at_0]
      decide
    · rw [h, prepare_at_1]
      decide
    · rw [h, prepare_at_2]
      exact hcmd
    · rw [h, prepare_at_3]
      omega
  · have hk2 : k = 4 + (k - 4) := by omega
    rw [hk2, prepare_at_data crc p buf (k - 4) (by omega)]
    exact hdata (k - 4) (by omega)

/-- The sample checksum `crc16Usb` is the CRC-16 with the reflected bit order, the
generator 0xA001, the initial value 0xFFFF and the final xor 0xFFFF. -/
theorem crc16Usb_eq : crc16Usb = crc16 true 0xA001 0xFFFF 0xFFFF := rfl

/-- C9, for the checksum the frames carry, a CRC-16: for every CRC-16 (bit order,
generator polynomial, initial value and final xor arbitrary), every packet `p`
with `dataLength = n ≤ 251` and every frame obtained from the frame of `p` by
replacing the byte of the command field (offset 2) or one byte of the data field
(offsets 4 to 4 + n - 1) by a different byte, the checksum bytes untouched,
`ELCOM_parseReceivedPacket` returns `ELCOM_INVALID_CRC`. -/
theorem mutation_detected (reflected : Bool) (poly init xorout : Nat)
    (hcrc : IsCrc16 reflected poly init xorout) (p : ELCOM_packet_t) (buf : Buffer)
    (pkt : ELCOM_packet_t) (i v : Nat) (hn : p.dataLength ≤ ELCOM_FIELD_DATA_MAX_SIZE)
    (hcmd : p.cmd < 256) (hdata : ∀ k, k < p.dataLength → p.data k < 256)
    (hi : i = ELCOM_FIELD_CMD_POS ∨ (4 ≤ i ∧ i < 4 + p.dataLength))
    (hv : v < 256)
    (hne : v ≠ (ELCOM_prepareSendPacket (crc16 reflected poly init xorout) p buf).2 i) :
    (ELCOM_parseReceivedPacket (crc16 reflected poly init xorout)
        (poke (ELCOM_prepareSendPacket (crc16 reflected poly init xorout) p buf).2 i v) pkt).1
      = ELCOM_INVALID_CRC := by
  have hn' : p.dataLength ≤ 251 := hn
  have hi' : i = 2 ∨ (4 ≤ i ∧ i < 4 + p.dataLength) := hi
  have hlt := prepare_bytes_lt (crc16 reflected poly init xorout) p buf hn' hcmd hdata
  have hlt' : ∀ k, k < 4 + p.dataLength →
      poke (ELCOM_prepareSendPacket (crc16 reflected poly init xorout) p buf).2 i v k < 256 := by
    intro k hk
    unfold poke
    split
    · exact hv
    · exact hlt k hk
  have h1 := crc16_lt reflected poly init xorout hcrc _ (4 + p.dataLength) hlt
  have h2 := crc16_lt reflected poly init xorout hcrc _ (4 + p.dataLength) hlt'
  have h3 := crc16_detects reflected poly init xorout hcrc _ i v (4 + p.dataLength) hlt hv hne
    (by omega)
  have e : (2 : Nat) ^ 16 = 65536 := by norm_num
  rw [e] at h1 h2
  apply (mutation_detected_iff (crc16 reflected poly init xorout) p buf pkt i v hn hi).mpr
  rw [Nat.mod_eq_of_lt h1, Nat.mod_eq_of_lt h2]
  exact h3

/-- Witness of C9: under CRC-16/USB (reflected, polynomial 0xA001, initial value
and final xor 0xFFFF), changing the data byte of the measurement request from
0x00 to 0x01 is answered with `ELCOM_INVALID_CRC`. -/
theorem mutation_detected_witness :
    IsCrc16 true 0xA001 0xFFFF 0xFFFF
    ∧ samplePacket.dataLength ≤ ELCOM_FIELD_DATA_MAX_SIZE
    ∧ (4 ≤ 4 ∧ 4 < 4 + samplePacket.dataLength)
    ∧ 0x01 ≠ (ELCOM_prepareSendPacket (crc16 true 0xA001 0xFFFF 0xFFFF) samplePacket zeroBuffer).2 4
    ∧ (ELCOM_parseReceivedPacket (crc16 true 0xA001 0xFFFF 0xFFFF)
        (poke (ELCOM_prepareSendPacket (crc16 true 0xA001 0xFFFF 0xFFFF) samplePacket
          zeroBuffer).2 4 0x01) stalePacket).1 = ELCOM_INVALID_CRC :=
  ⟨by decide, by decide, by decide, by decide,
    mutation_detected true 0xA001 0xFFFF 0xFFFF (by decide) samplePacket zeroBuffer stalePacket
      4 0x01 (by decide) (by decide) (fun _ _ => (by decide : (0 : Nat) < 256))
      (Or.inr (by decide)) (by decide) (by decide)⟩

/-! ## The decoder on a buffer of `ELCOM_DATA_BUFFER_SIZE` bytes -/

/-- The journal left by a transaction: the journaling callbacks are applied in
the order `uartReceive`, `uartTransmit`, `uartWaitUntilReceived`, the abort
callback last when a step fails, and to the arguments shown. -/
theorem journal_of_run {W : Type} (crc : List Nat → Nat) (s : ELICHENS_Sensor_t W) (w : W)
    (journal : List Applied)
    (r : ELCOM_errorCode_t × ELICHENS_Sensor_t (W × List Applied) × (W × List Applied) × List Call)
    (h : EL_sendAndReceivePacket crc (journaled s) (w, journal) = some r) :
    r.2.2.1.2 = journal ++ [Applied.uartReceive s.bufferRx]
    ∨ r.2.2.1.2 = journal ++ [Applied.uartReceive s.bufferRx,
        Applied.uartTransmit (ELCOM_prepareSendPacket crc s.packet s.bufferTx).2
          (ELCOM_prepareSendPacket crc s.packet s.bufferTx).1,
        Applied.uartAbortReceive]
    ∨ r.2.2.1.2 = journal ++ [Applied.uartReceive s.bufferRx,
        Applied.uartTransmit (ELCOM_prepareSendPacket crc s.packet s.bufferTx).2
          (ELCOM_prepareSendPacket crc s.packet s.bufferTx).1,
        Applied.uartWaitUntilReceived, Applied.uartAbortReceive]
    ∨ r.2.2.1.2 = journal ++ [Applied.uartReceive s.bufferRx,
        Applied.uartTransmit (ELCOM_prepareSendPacket crc s.packet s.bufferTx).2
          (ELCOM_prepareSendPacket crc s.packet s.bufferTx).1,
        Applied.uartWaitUntilReceived] := by
  unfold EL_sendAndReceivePacket at h
  simp only [journaled] at h
  rcases hR : s.uartReceive w s.bufferRx with _ | ⟨e1, w1, rx1⟩
  · rw [hR] at h
    cases h
  · rw [hR] at h
    simp only at h
    by_cases he1 : ELCOM_NO_ERROR ≠ e1
    · rw [if_pos he1] at h
      cases h
      exact Or.inl rfl
    · rw [if_neg he1] at h
      rcases hT : s.uartTransmit (ELCOM_prepareSendPacket crc s.packet s.bufferTx).2
          (ELCOM_prepareSendPacket crc s.packet s.bufferTx).1 w1 rx1 with _ | ⟨e2, w2, rx2⟩
      · rw [hT] at h
        cases h
      · rw [hT] at h
        simp only at h
        by_cases he2 : ELCOM_NO_ERROR ≠ e2
        · rw [if_pos he2] at h
          rcases hA : s.uartAbortReceive w2 rx2 with _ | ⟨w3, rx3⟩
          · rw [hA] at h
            cases h
          · rw [hA] at h
            cases h
            right
            left
            simp
        · rw [if_neg he2] at h
          rcases hW : s.uartWaitUntilReceived w2 rx2 with _ | ⟨e3, w3, rx3⟩
          · rw [hW] at h
            cases h
          · rw [hW] at h
            simp only at h
            by_cases he3 : ELCOM_NO_ERROR ≠ e3
            · rw [if_pos he3] at h
              rcases hA : s.uartAbortReceive w3 rx3 with _ | ⟨w4, rx4⟩
              · rw [hA] at h
                cases h
              · rw [hA] at h
                cases h
                right
                right
                left
                simp
            · rw [if_neg he3] at h
              cases h
              right
              right
              right
              simp

/-- A transaction returns when the callbacks do. -/
theorem send_receive_returns {W : Type} (crc : List Nat → Nat) (s : ELICHENS_Sensor_t W) (w : W)
    (h : Responsive s) : (EL_sendAndReceivePacket crc s w).isSome = true := by
  obtain ⟨hR, hT, hW, hA⟩ := h
  unfold EL_sendAndReceivePacket
  simp only
  rcases hr : s.uartReceive w s.bufferRx with _ | ⟨e1, w1, rx1⟩
  · have := hR w s.bufferRx
    rw [hr] at this
    cases this
  · simp only
    split
    · rfl
    · rcases ht : s.uartTransmit (ELCOM_prepareSendPacket crc s.packet s.bufferTx).2
          (ELCOM_prepareSendPacket crc s.packet s.bufferTx).1 w1 rx1 with _ | ⟨e2, w2, rx2⟩
      · have := hT (ELCOM_prepareSendPacket crc s.packet s.bufferTx).2
          (ELCOM_prepareSendPacket crc s.packet s.bufferTx).1 w1 rx1
        rw [ht] at this
        cases this
      · simp only
        split
        · rcases ha : s.uartAbortReceive w2 rx2 with _ | ⟨w3, rx3⟩
          · have := hA w2 rx2
            rw [ha] at this
            cases this
          · rfl
        · rcases hw : s.uartWaitUntilReceived w2 rx2 with _ | ⟨e3, w3, rx3⟩
          · have := hW w2 rx2
            rw [hw] at this
            cases this
          · simp only
            split
            · rcases ha : s.uartAbortReceive w3 rx3 with _ | ⟨w4, rx4⟩
              · have := hA w3 rx3
                rw [ha] at this
                cases this
              · rfl
            · rfl

/-- Journaling keeps the callbacks returning. -/
theorem journaled_responsive {W : Type} (s : ELICHENS_Sensor_t W) (h : Responsive s) :
    Responsive (journaled s) := by
  obtain ⟨hR, hT, hW, hA⟩ := h
  refine ⟨?_, ?_, ?_, ?_⟩
  · intro w rx
    have := hR w.1 rx
    simp only [journaled]
    rcases hr : s.uartReceive w.1 rx with _ | ⟨e1, w1, rx1⟩
    · rw [hr] at this
      cases this
    · rfl
  · intro d n w rx
    have := hT d n w.1 rx
    simp only [journaled]
    rcases hr : s.uartTransmit d n w.1 rx with _ | ⟨e1, w1, rx1⟩
    · rw [hr] at this
      cases this
    · rfl
  · intro w rx
    have := hW w.1 rx
    simp only [journaled]
    rcases hr : s.uartWaitUntilReceived w.1 rx with _ | ⟨e1, w1, rx1⟩
    · rw [hr] at this
      cases this
    · rfl
  · intro w rx
    have := hA w.1 rx
    simp only [journaled]
    rcases hr : s.uartAbortReceive w.1 rx with _ | ⟨w1, rx1⟩
    · rw [hr] at this
      cases this
    · rfl

/-- Journaling does not change a transaction: the code, the packet, the two
buffers, the state of the transport of `s` and the list of invoked callbacks are
those of the transaction on `s`. -/
theorem journaled_run {W : Type} (crc : List Nat → Nat) (s : ELICHENS_Sensor_t W) (w : W)
    (journal : List Applied) :
    (EL_sendAndReceivePacket crc (journaled s) (w, journal)).map
        (fun r => (r.1, r.2.1.packet, r.2.1.bufferTx, r.2.1.bufferRx, r.2.2.1.1, r.2.2.2))
      = (EL_sendAndReceivePacket crc s w).map
        (fun r => (r.1, r.2.1.packet, r.2.1.bufferTx, r.2.1.bufferRx, r.2.2.1, r.2.2.2)) := by
  unfold EL_sendAndReceivePacket
  simp only [journaled]
  rcases hR : s.uartReceive w s.bufferRx with _ | ⟨e1, w1, rx1⟩
  · rfl
  · simp only
    by_cases he1 : ELCOM_NO_ERROR ≠ e1
    · rw [if_pos he1, if_pos he1]
      rfl
    · rw [if_neg he1, if_neg he1]
      rcases hT : s.uartTransmit (ELCOM_prepareSendPacket crc s.packet s.bufferTx).2
          (ELCOM_prepareSendPacket crc s.packet s.bufferTx).1 w1 rx1 with _ | ⟨e2, w2, rx2⟩
      · rfl
      · simp only
        by_cases he2 : ELCOM_NO_ERROR ≠ e2
        · rw [if_pos he2, if_pos he2]
          rcases hA : s.uartAbortReceive w2 rx2 with _ | ⟨w3, rx3⟩
          · rfl
          · rfl
        · rw [if_neg he2, if_neg he2]
          rcases hW : s.uartWaitUntilReceived w2 rx2 with _ | ⟨e3, w3, rx3⟩
          · rfl
          · simp only
            by_cases he3 : ELCOM_NO_ERROR ≠ e3
            · rw [if_pos he3, if_pos he3]
              rcases hA : s.uartAbortReceive w3 rx3 with _ | ⟨w4, rx4⟩
              · rfl
              · rfl
            · rw [if_neg he3, if_neg he3]
              rfl

/-- C15: in every run of `EL_sendAndReceivePacket`, observed on a transport whose
callbacks journal their own applications, the callbacks are applied in the order
`uartReceive` alone, or `uartReceive`, `uartTransmit`, `uartAbortReceive`, or
`uartReceive`, `uartTransmit`, `uartWaitUntilReceived`, followed or not by
`uartAbortReceive`: the receive path is armed, on the receive buffer, before the
transmit callback is applied; the transmit callback is applied at most once, to
the buffer filled by `ELCOM_prepareSendPacket` for the request and to the byte
count that function returned; the wait callback is applied at most once.  The
run returns whenever the callbacks do. -/
theorem send_receive_applies_in_order {W : Type} (crc : List Nat → Nat)
    (s : ELICHENS_Sensor_t W) (w : W) (journal : List Applied) :
    (∀ r, EL_sendAndReceivePacket crc (journaled s) (w, journal) = some r →
      (r.2.2.1.2 = journal ++ [Applied.uartReceive s.bufferRx]
      ∨ r.2.2.1.2 = journal ++ [Applied.uartReceive s.bufferRx,
          Applied.uartTransmit (ELCOM_prepareSendPacket crc s.packet s.bufferTx).2
            (ELCOM_prepareSendPacket crc s.packet s.bufferTx).1,
          Applied.uartAbortReceive]
      ∨ r.2.2.1.2 = journal ++ [Applied.uartReceive s.bufferRx,
          Applied.uartTransmit (ELCOM_prepareSendPacket crc s.packet s.bufferTx).2
            (ELCOM_prepareSendPacket crc s.packet s.bufferTx).1,
          Applied.uartWaitUntilReceived, Applied.uartAbortReceive]
      ∨ r.2.2.1.2 = journal ++ [Applied.uartReceive s.bufferRx,
          Applied.uartTransmit (ELCOM_prepareSendPacket crc s.packet s.bufferTx).2
            (ELCOM_prepareSendPacket crc s.packet s.bufferTx).1,
          Applied.uartWaitUntilReceived]))
    ∧ (Responsive s →
        (EL_sendAndReceivePacket crc (journaled s) (w, journal)).isSome = true) :=
  ⟨fun r h => journal_of_run crc s w journal r h,
    fun h => send_receive_returns crc (journaled s) (w, journal) (journaled_responsive s h)⟩

/-- Witness of C15: a run in which every callback succeeds, started with an empty
journal, returns and leaves the journal `uartReceive`, `uartTransmit`,
`uartWaitUntilReceived`. -/
theorem send_receive_applies_in_order_witness :
    Responsive unitSensor
    ∧ (EL_sendAndReceivePacket sumCrc (journaled unitSensor) ((), [])).isSome = true
    ∧ (EL_sendAndReceivePacket sumCrc (journaled unitSensor) ((), [])).map (fun r => r.2.2.1.2)
        = some [Applied.uartReceive unitSensor.bufferRx,
            Applied.uartTransmit
              (ELCOM_prepareSendPacket sumCrc unitSensor.packet unitSensor.bufferTx).2
              (ELCOM_prepareSendPacket sumCrc unitSensor.packet unitSensor.bufferTx).1,
            Applied.uartWaitUntilReceived] :=
  ⟨⟨fun _ _ => rfl, fun _ _ _ _ => rfl, fun _ _ => rfl, fun _ _ => rfl⟩,
    (send_receive_applies_in_order sumCrc unitSensor () []).2
      ⟨fun _ _ => rfl, fun _ _ _ _ => rfl, fun _ _ => rfl, fun _ _ => rfl⟩,
    rfl⟩

/-! ## The requests the queries hand to the transaction -/

/-- The request of a query without data and its 7-byte frame. -/
theorem plainRequest_frame {W : Type} (crc : List Nat → Nat) (s : ELICHENS_Sensor_t W)
    (cmd : Nat) :
    (plainRequest cmd s).packet.cmd = cmd ∧ (plainRequest cmd s).packet.dataLength = 0
    ∧ (plainRequest cmd s).bufferTx = s.bufferTx
    ∧ (ELCOM_prepareSendPacket crc (plainRequest cmd s).packet s.bufferTx).1 = 7
    ∧ bytesOf (ELCOM_prepareSendPacket crc (plainRequest cmd s).packet s.bufferTx).2 7
        = [0x5B, 0x01, cmd, 0, crc [0x5B, 0x01, cmd, 0] % 65536 % 256,
            crc [0x5B, 0x01, cmd, 0] % 65536 / 256 % 256, 0x5D] := by
  have hfc : frameCrc crc (plainRequest cmd s).packet = crc [0x5B, 0x01, cmd, 0] % 65536 := rfl
  have h0 := prepare_at_0 crc (plainRequest cmd s).packet s.bufferTx
  have h1 := prepare_at_1 crc (plainRequest cmd s).packet s.bufferTx
  have h2 := prepare_at_2 crc (plainRequest cmd s).packet s.bufferTx
  have h3 := prepare_at_3 crc (plainRequest cmd s).packet s.bufferTx
  have h4 := prepare_at_crc_lo crc (plainRequest cmd s).packet s.bufferTx
  have h5 := prepare_at_crc_hi crc (plainRequest cmd s).packet s.bufferTx
  have h6 := prepare_at_eop crc (plainRequest cmd s).packet s.bufferTx
  rw [hfc] at h4 h5
  refine ⟨rfl, rfl, rfl, ?_, ?_⟩
  · rw [prepare_fst]
    rfl
  · show [_, _, _, _, _, _, _] = _
    rw [h0, h1, h2, h3]
    exact congrArg₂ _ h4 (congrArg₂ _ h5 (congrArg₂ _ h6 rfl)) |> congrArg _ |> congrArg _
      |> congrArg _ |> congrArg _

/-- The request of a query on the sensor of index 0 and its 8-byte frame. -/
theorem indexedRequest_frame {W : Type} (crc : List Nat → Nat) (s : ELICHENS_Sensor_t W)
    (cmd : Nat) :
    (indexedRequest cmd s).packet.cmd = cmd
    ∧ (indexedRequest cmd s).packet.dataLength = 1
    ∧ (indexedRequest cmd s).packet.data 0 = 0
    ∧ (indexedRequest cmd s).bufferTx = s.bufferTx
    ∧ (ELCOM_prepareSendPacket crc (indexedRequest cmd s).packet s.bufferTx).1 = 8
    ∧ bytesOf (ELCOM_prepareSendPacket crc (indexedRequest cmd s).packet s.bufferTx).2 8
        = [0x5B, 0x01, cmd, 1, 0, crc [0x5B, 0x01, cmd, 1, 0] % 65536 % 256,
            crc [0x5B, 0x01, cmd, 1, 0] % 65536 / 256 % 256, 0x5D] := by
  have hfc : frameCrc crc (indexedRequest cmd s).packet
      = crc [0x5B, 0x01, cmd, 1, 0] % 65536 := by
    unfold frameCrc
    show crc ([0x5B, 0x01, cmd, 1] ++ [poke s.packet.data 0 0 0]) % 65536 = _
    rw [poke_self]
    rfl
  have h0 := prepare_at_0 crc (indexedRequest cmd s).packet s.bufferTx
  have h1 := prepare_at_1 crc (indexedRequest cmd s).packet s.bufferTx
  have h2 := prepare_at_2 crc (indexedRequest cmd s).packet s.bufferTx
  have h3 := prepare_at_3 crc (indexedRequest cmd s).packet s.bufferTx
  have hd := prepare_at_data crc (indexedRequest cmd s).packet s.bufferTx 0 Nat.zero_lt_one
  have h4 := prepare_at_crc_lo crc (indexedRequest cmd s).packet s.bufferTx
  have h5 := prepare_at_crc_hi crc (indexedRequest cmd s).packet s.bufferTx
  have h6 := prepare_at_eop crc (indexedRequest cmd s).packet s.bufferTx
  rw [hfc] at h4 h5
  have hp : (indexedRequest cmd s).packet.data 0 = 0 := poke_self s.packet.data 0 0
  rw [hp] at hd
  refine ⟨rfl, rfl, hp, rfl, ?_, ?_⟩
  · rw [prepare_fst]
    rfl
  · show [_, _, _, _, _, _, _, _] = _
    rw [h0, h1, h2, h3]
    exact congrArg₂ _ hd (congrArg₂ _ h4 (congrArg₂ _ h5 (congrArg₂ _ h6 rfl))) |> congrArg _
      |> congrArg _ |> congrArg _ |> congrArg _

/-- A post-processing that keeps the sensor and the state of the transport does
not change what the run leaves behind. -/
theorem leftBy_bind {W α β : Type}
    (run : Option (ELCOM_errorCode_t × ELICHENS_Sensor_t W × W × α))
    (f : ELCOM_errorCode_t × ELICHENS_Sensor_t W × W × α →
      Option (ELCOM_errorCode_t × ELICHENS_Sensor_t W × W × β))
    (hf : ∀ r, ∃ e out, f r = some (e, r.2.1, r.2.2.1, out)) :
    leftBy (run.bind f) = leftBy run := by
  cases run with
  | none => rfl
  | some r =>
    obtain ⟨e, out, h⟩ := hf r
    simp only [leftBy, Option.bind, h, Option.map]

/-- The transmit callback in the journal of a transaction: after the arming, the
journal holds at most one application of `uartTransmit`, to the prepared frame
and its size. -/
theorem journal_transmit {W : Type} (crc : List Nat → Nat) (s : ELICHENS_Sensor_t W) (w : W)
    (journal : List Applied)
    (r : ELCOM_errorCode_t × ELICHENS_Sensor_t (W × List Applied) × (W × List Applied) × List Call)
    (h : EL_sendAndReceivePacket crc (journaled s) (w, journal) = some r) :
    r.2.2.1.2 = journal ++ [Applied.uartReceive s.bufferRx]
    ∨ ∃ rest, r.2.2.1.2 = journal ++ Applied.uartReceive s.bufferRx
          :: Applied.uartTransmit (ELCOM_prepareSendPacket crc s.packet s.bufferTx).2
              (ELCOM_prepareSendPacket crc s.packet s.bufferTx).1 :: rest
        ∧ ∀ data size, Applied.uartTransmit data size ∉ rest := by
  rcases journal_of_run crc s w journal r h with h1 | h1 | h1 | h1
  · exact Or.inl h1
  · refine Or.inr ⟨[Applied.uartAbortReceive], h1, ?_⟩
    intro data size hm
    simp at hm
  · refine Or.inr ⟨[Applied.uartWaitUntilReceived, Applied.uartAbortReceive], h1, ?_⟩
    intro data size hm
    simp at hm
  · refine Or.inr ⟨[Applied.uartWaitUntilReceived], h1, ?_⟩
    intro data size hm
    simp at hm

/-- When the arming succeeds and the callbacks return, the transmit callback is
applied. -/
theorem journal_transmit_applied {W : Type} (crc : List Nat → Nat) (s : ELICHENS_Sensor_t W)
    (w w1 : W) (rx1 : Buffer) (journal : List Applied) (hresp : Responsive s)
    (hR : s.uartReceive w s.bufferRx = some (ELCOM_NO_ERROR, w1, rx1)) :
    ∃ r rest, EL_sendAndReceivePacket crc (journaled s) (w, journal) = some r
      ∧ r.2.2.1.2 = journal ++ Applied.uartReceive s.bufferRx
          :: Applied.uartTransmit (ELCOM_prepareSendPacket crc s.packet s.bufferTx).2
              (ELCOM_prepareSendPacket crc s.packet s.bufferTx).1 :: rest := by
  obtain ⟨_, hT, hW, hA⟩ := hresp
  have hne : ¬ (ELCOM_NO_ERROR ≠ ELCOM_NO_ERROR) := fun h => h rfl
  unfold EL_sendAndReceivePacket
  simp only [journaled, hR, hne, if_false]
  rcases ht : s.uartTransmit (ELCOM_prepareSendPacket crc s.packet s.bufferTx).2
      (ELCOM_prepareSendPacket crc s.packet s.bufferTx).1 w1 rx1 with _ | ⟨e2, w2, rx2⟩
  · have := hT (ELCOM_prepareSendPacket crc s.packet s.bufferTx).2
      (ELCOM_prepareSendPacket crc s.packet s.bufferTx).1 w1 rx1
    rw [ht] at this
    cases this
  · simp only
    by_cases he2 : ELCOM_NO_ERROR ≠ e2
    · rw [if_pos he2]
      rcases ha : s.uartAbortReceive w2 rx2 with _ | ⟨w3, rx3⟩
      · have := hA w2 rx2
        rw [ha] at this
        cases this
      · exact ⟨_, [Applied.uartAbortReceive], rfl, by simp⟩
    · rw [if_neg he2]
      rcases hw : s.uartWaitUntilReceived w2 rx2 with _ | ⟨e3, w3, rx3⟩
      · have := hW w2 rx2
        rw [hw] at this
        cases this
      · simp only
        by_cases he3 : ELCOM_NO_ERROR ≠ e3
        · rw [if_pos he3]
          rcases ha : s.uartAbortReceive w3 rx3 with _ | ⟨w4, rx4⟩
          · have := hA w3 rx3
            rw [ha] at this
            cases this
          · exact ⟨_, [Applied.uartWaitUntilReceived, Applied.uartAbortReceive], rfl, by simp⟩
        · rw [if_neg he3]
          exact ⟨_, [Applied.uartWaitUntilReceived], rfl, by simp⟩

theorem plainRequest_journaled {W : Type} (cmd : Nat) (s : ELICHENS_Sensor_t W) :
    plainRequest cmd (journaled s) = journaled (plainRequest cmd s) := rfl

theorem indexedRequest_journaled {W : Type} (cmd : Nat) (s : ELICHENS_Sensor_t W) :
    indexedRequest cmd (journaled s) = journaled (indexedRequest cmd s) := rfl

/-- C29: each query hands the transaction a request with a fixed command code and
either no data or the single index byte 0: model name 0x10, product name 0x11,
firmware version 0x12, serial number 0x13 and run time 0x14 without data;
measurement 0x21, temperature 0x22, data format 0x23 (also when `main` stores
the format into the sensor itself) and sensor name 0x26 with the index byte 0.
On a transport whose callbacks journal their own applications, a query returns
exactly when the transaction on its request returns, and it leaves the packet,
the buffers and the transport, journal included, as that transaction leaves
them; the sensor-name query alone has no defined result when the response is
accepted with a data length of 0.  The journal of the transaction holds, after
the arming, at most one application of the transmit callback, to the frame
`ELCOM_prepareSendPacket` builds for the request and to its size; the
transaction returns when the callbacks do, and the transmit callback is applied
when moreover the arming succeeds.  The frames are
`[0x5B, 0x01, cmd, 0, crcLow, crcHigh, 0x5D]` (7 bytes) and
`[0x5B, 0x01, cmd, 1, 0, crcLow, crcHigh, 0x5D]` (8 bytes). -/
theorem queries_hand_request {W F : Type} (crc : List Nat → Nat) (overflow : Int → Int)
    (divide100 : Int → F) (s : ELICHENS_Sensor_t W) (w : W) (journal : List Applied)
    (text : Buffer) (runtime : Nat) (d : ELICHENS_SensorData_t) (t : F)
    (fmt : ELCOM_DataFormat_t) :
    (leftBy (ELCOM_getSysModelName crc (journaled s) (w, journal) text)
        = leftBy (EL_sendAndReceivePacket crc (journaled (plainRequest 0x10 s)) (w, journal))
    ∧ leftBy (ELCOM_getSysProdName crc (journaled s) (w, journal) text)
        = leftBy (EL_sendAndReceivePacket crc (journaled (plainRequest 0x11 s)) (w, journal))
    ∧ leftBy (ELCOM_getSysFwVer crc (journaled s) (w, journal) text)
        = leftBy (EL_sendAndReceivePacket crc (journaled (plainRequest 0x12 s)) (w, journal))
    ∧ leftBy (ELCOM_getSysSn crc (journaled s) (w, journal))
        = leftBy (EL_sendAndReceivePacket crc (journaled (plainRequest 0x13 s)) (w, journal))
    ∧ leftBy (ELCOM_getSysRunTime crc (journaled s) (w, journal) runtime)
        = leftBy (EL_sendAndReceivePacket crc (journaled (plainRequest 0x14 s)) (w, journal))
    ∧ leftBy (ELCOM_getSenData crc overflow (journaled s) (w, journal) d)
        = leftBy (EL_sendAndReceivePacket crc (journaled (indexedRequest 0x21 s)) (w, journal))
    ∧ leftBy (ELCOM_getSenTemp crc divide100 (journaled s) (w, journal) t)
        = leftBy (EL_sendAndReceivePacket crc (journaled (indexedRequest 0x22 s)) (w, journal))
    ∧ leftBy (ELCOM_getSenDataFmt crc (journaled s) (w, journal) fmt)
        = leftBy (EL_sendAndReceivePacket crc (journaled (indexedRequest 0x23 s)) (w, journal))
    ∧ leftBy (main_getSenDataFmt crc (journaled s) (w, journal))
        = leftBy (EL_sendAndReceivePacket crc (journaled (indexedRequest 0x23 s)) (w, journal))
    ∧ leftBy (ELCOM_getSenName crc (journaled s) (w, journal) text)
        = leftBy
            ((EL_sendAndReceivePacket crc (journaled (indexedRequest 0x26 s)) (w, journal)).bind
              (fun r =>
                if r.1 = ELCOM_NO_ERROR ∧ r.2.1.packet.dataLength = 0 then none else some r)))
    ∧ (∀ cmd, (plainRequest cmd s).packet.cmd = cmd ∧ (plainRequest cmd s).packet.dataLength = 0
        ∧ (plainRequest cmd s).bufferTx = s.bufferTx
        ∧ (ELCOM_prepareSendPacket crc (plainRequest cmd s).packet s.bufferTx).1 = 7
        ∧ bytesOf (ELCOM_prepareSendPacket crc (plainRequest cmd s).packet s.bufferTx).2 7
            = [0x5B, 0x01, cmd, 0, crc [0x5B, 0x01, cmd, 0] % 65536 % 256,
                crc [0x5B, 0x01, cmd, 0] % 65536 / 256 % 256, 0x5D])
    ∧ (∀ cmd, (indexedRequest cmd s).packet.cmd = cmd
        ∧ (indexedRequest cmd s).packet.dataLength = 1
        ∧ (indexedRequest cmd s).packet.data 0 = 0
        ∧ (indexedRequest cmd s).bufferTx = s.bufferTx
        ∧ (ELCOM_prepareSendPacket crc (indexedRequest cmd s).packet s.bufferTx).1 = 8
        ∧ bytesOf (ELCOM_prepareSendPacket crc (indexedRequest cmd s).packet s.bufferTx).2 8
            = [0x5B, 0x01, cmd, 1, 0, crc [0x5B, 0x01, cmd, 1, 0] % 65536 % 256,
                crc [0x5B, 0x01, cmd, 1, 0] % 65536 / 256 % 256, 0x5D])
    ∧ (∀ (req : ELICHENS_Sensor_t W) r,
        EL_sendAndReceivePacket crc (journaled req) (w, journal) = some r →
          (r.2.2.1.2 = journal ++ [Applied.uartReceive req.bufferRx]
          ∨ ∃ rest, r.2.2.1.2 = journal ++ Applied.uartReceive req.bufferRx
                :: Applied.uartTransmit (ELCOM_prepareSendPacket crc req.packet req.bufferTx).2
                    (ELCOM_prepareSendPacket crc req.packet req.bufferTx).1 :: rest
              ∧ ∀ data size, Applied.uartTransmit data size ∉ rest))
    ∧ (∀ req : ELICHENS_Sensor_t W, Responsive req →
        (EL_sendAndReceivePacket crc (journaled req) (w, journal)).isSome = true)
    ∧ (∀ (req : ELICHENS_Sensor_t W) w1 rx1, Responsive req →
        req.uartReceive w req.bufferRx = some (ELCOM_NO_ERROR, w1, rx1) →
        ∃ r rest, EL_sendAndReceivePacket crc (journaled req) (w, journal) = some r
          ∧ r.2.2.1.2 = journal ++ Applied.uartReceive req.bufferRx
              :: Applied.uartTransmit (ELCOM_prepareSendPacket crc req.packet req.bufferTx).2
                  (ELCOM_prepareSendPacket crc req.packet req.bufferTx).1 :: rest) := by
  refine ⟨⟨?_, ?_, ?_, ?_, ?_, ?_, ?_, ?_, ?_, ?_⟩, fun cmd => plainRequest_frame crc s cmd,
    fun cmd => indexedRequest_frame crc s cmd,
    fun req r h => journal_transmit crc req w journal r h,
    fun req h => send_receive_returns crc (journaled req) (w, journal) (journaled_responsive req h),
    fun req w1 rx1 h hR => journal_transmit_applied crc req w w1 rx1 journal h hR⟩
  · rw [getSysModelName_eq]
    exact leftBy_bind _ _ (fun r => by
      split <;> exact ⟨_, _, rfl⟩)
  · rw [getSysProdName_eq]
    exact leftBy_bind _ _ (fun r => by
      split <;> exact ⟨_, _, rfl⟩)
  · rw [getSysFwVer_eq]
    exact leftBy_bind _ _ (fun r => by
      split
      · exact ⟨_, _, rfl⟩
      · split <;> exact ⟨_, _, rfl⟩)
  · rw [getSysSn_eq]
    exact leftBy_bind _ _ (fun r => by
      split <;> exact ⟨_, _, rfl⟩)
  · rw [getSysRunTime_eq]
    exact leftBy_bind _ _ (fun r => by
      split <;> exact ⟨_, _, rfl⟩)
  · rw [getSenData_eq]
    exact leftBy_bind _ _ (fun r => by
      split <;> exact ⟨_, _, rfl⟩)
  · rw [getSenTemp_eq]
    exact leftBy_bind _ _ (fun r => by
      split <;> exact ⟨_, _, rfl⟩)
  · rw [getSenDataFmt_eq]
    exact leftBy_bind _ _ (fun r => by
      split <;> exact ⟨_, _, rfl⟩)
  · unfold main_getSenDataFmt
    rw [getSenDataFmt_eq, indexedRequest_journaled]
    cases EL_sendAndReceivePacket crc (journaled (indexedRequest 0x23 s)) (w, journal) with
    | none => rfl
    | some r =>
      simp only [Option.bind]
      by_cases he : ELCOM_NO_ERROR ≠ r.1
      · rw [if_pos he]
        rfl
      · rw [if_neg he]
        rfl
  · rw [getSenName_eq, indexedRequest_journaled]
    cases EL_sendAndReceivePacket crc (journaled (indexedRequest 0x26 s)) (w, journal) with
    | none => rfl
    | some r =>
      simp only [Option.bind]
      by_cases he : ELCOM_NO_ERROR ≠ r.1
      · have he2 : ¬ (r.1 = ELCOM_NO_ERROR ∧ r.2.1.packet.dataLength = 0) :=
          fun h => he h.1.symm
        rw [if_pos he, if_neg he2]
        rfl
      · have he1 : r.1 = ELCOM_NO_ERROR := by
          by_contra h
          exact he (fun h2 => h h2.symm)
        rw [if_neg he]
        by_cases hl : r.2.1.packet.dataLength = 0
        · rw [if_pos hl, if_pos ⟨he1, hl⟩]
          rfl
        · have he2 : ¬ (r.1 = ELCOM_NO_ERROR ∧ r.2.1.packet.dataLength = 0) :=
            fun h => hl h.2
          rw [if_neg hl, if_neg he2]
          rfl

/-- Witness of C29: the model-name query on a transport whose callbacks succeed,
started with an empty journal: the transaction on the request 0x10 returns, and
the query leaves the journal `uartReceive`, `uartTransmit` of the 7-byte frame
of the request, `uartWaitUntilReceived`. -/
theorem queries_hand_request_witness :
    Responsive (plainRequest 0x10 unitSensor)
    ∧ (plainRequest 0x10 unitSensor).uartReceive () (plainRequest 0x10 unitSensor).bufferRx
        = some (ELCOM_NO_ERROR, (), unitSensor.bufferRx)
    ∧ (EL_sendAndReceivePacket sumCrc (journaled (plainRequest 0x10 unitSensor))
        ((), [])).isSome = true
    ∧ (leftBy (ELCOM_getSysModelName sumCrc (journaled unitSensor) ((), []) staleText)).map
        (fun x => x.2.2.2.2)
        = some [Applied.uartReceive unitSensor.bufferRx,
            Applied.uartTransmit
              (ELCOM_prepareSendPacket sumCrc (plainRequest 0x10 unitSensor).packet
                unitSensor.bufferTx).2 7,
            Applied.uartWaitUntilReceived]
    ∧ bytesOf (ELCOM_prepareSendPacket sumCrc (plainRequest 0x10 unitSensor).packet
        unitSensor.bufferTx).2 7 = [0x5B, 0x01, 0x10, 0, 0x6C, 0x00, 0x5D] :=
  ⟨⟨fun _ _ => rfl, fun _ _ _ _ => rfl, fun _ _ => rfl, fun _ _ => rfl⟩, rfl,
    (queries_hand_request sumCrc wrapInt32 (fun z => z) unitSensor () [] staleText 0 staleData
      0 unitSensor.dataFormat).2.2.2.2.1 (plainRequest 0x10 unitSensor)
      ⟨fun _ _ => rfl, fun _ _ _ _ => rfl, fun _ _ => rfl, fun _ _ => rfl⟩,
    rfl, by decide⟩

/-! ## Temperature: the quotient by 100 in floating point -/

theorem roundTiesEven_intCast (n : Int) : roundTiesEven (n : ℚ) = n := by
  unfold roundTiesEven
  rw [Int.floor_intCast]
  have h : ((n : ℚ) - (n : ℚ) < 1 / 2) := by norm_num
  rw [if_pos h]

theorem roundTiesEven_bounds (x : ℚ) :
    roundTiesEven x = ⌊x⌋ ∨ (roundTiesEven x = ⌊x⌋ + 1 ∧ (⌊x⌋ : ℚ) < x) := by
  unfold roundTiesEven
  split
  · exact Or.inl rfl
  · rename_i h
    have hx : (⌊x⌋ : ℚ) < x := by
      have := not_lt.mp h
      linarith
    split
    · exact Or.inr ⟨rfl, hx⟩
    · split
      · exact Or.inl rfl
      · exact Or.inr ⟨rfl, hx⟩

theorem isFloat_mono (p p' : Nat) (q : ℚ) (hp : p ≤ p') (h : IsFloat p q) : IsFloat p' q := by
  obtain ⟨m, k, hm, hq⟩ := h
  refine ⟨m, k, lt_of_lt_of_le hm ?_, hq⟩
  exact pow_le_pow_right₀ (by norm_num) hp

theorem roundBinary_of_isFloat (p : Nat) (q : ℚ) (h : IsFloat p q) : roundBinary p q = q := by
  obtain ⟨m, k, hm, hq⟩ := h
  unfold roundBinary
  by_cases h0 : q = 0
  · rw [if_pos h0, h0]
  · rw [if_neg h0]
    have hpos : 0 < |q| := abs_pos.mpr h0
    have h2 : (0 : ℚ) < 2 := by norm_num
    have h2' : (2 : ℚ) ≠ 0 := by norm_num
    have hle : (2 : ℚ) ^ Int.log 2 |q| ≤ |q| := by
      have := Int.zpow_log_le_self (R := ℚ) (b := 2) (by norm_num) hpos
      exact_mod_cast this
    have habs : |q| = |(m : ℚ)| * 2 ^ k := by
      rw [hq, abs_mul, abs_of_pos (zpow_pos h2 k)]
    have hmq : |(m : ℚ)| < 2 ^ (p : Int) := by
      have : ((|m| : Int) : ℚ) < ((2 ^ p : Int) : ℚ) := by exact_mod_cast hm
      rw [Int.cast_abs] at this
      rw [zpow_natCast]
      exact_mod_cast this
    have hlt : (2 : ℚ) ^ Int.log 2 |q| < 2 ^ ((p : Int) + k) := by
      calc (2 : ℚ) ^ Int.log 2 |q| ≤ |q| := hle
        _ = |(m : ℚ)| * 2 ^ k := habs
        _ < 2 ^ (p : Int) * 2 ^ k := by
          exact mul_lt_mul_of_pos_right hmq (zpow_pos h2 k)
        _ = 2 ^ ((p : Int) + k) := (zpow_add₀ h2' _ _).symm
    have he : Int.log 2 |q| < (p : Int) + k := (zpow_lt_zpow_iff_right₀ (by norm_num)).mp hlt
    obtain ⟨j, hj⟩ : ∃ j : Nat, k - (Int.log 2 |q| - ((p : Int) - 1)) = j :=
      ⟨(k - (Int.log 2 |q| - ((p : Int) - 1))).toNat, by omega⟩
    generalize Int.log 2 |q| - ((p : Int) - 1) = c at hj ⊢
    have hk : k = (j : Int) + c := by omega
    have hcne : (2 : ℚ) ^ c ≠ 0 := zpow_ne_zero _ h2'
    have hq' : q = ((m * 2 ^ j : Int) : ℚ) * 2 ^ c := by
      rw [hq, hk, zpow_add₀ h2', zpow_natCast]
      push_cast
      ring
    have hx : q / 2 ^ c = ((m * 2 ^ j : Int) : ℚ) := by
      rw [div_eq_iff hcne]
      exact hq'
    rw [hx, roundTiesEven_intCast]
    exact hq'.symm

theorem roundBinary_isFloat (p : Nat) (q : ℚ) (hp : 1 ≤ p) : IsFloat p (roundBinary p q) := by
  unfold roundBinary
  by_cases h0 : q = 0
  · rw [if_pos h0]
    exact ⟨0, 0, by positivity, by norm_num⟩
  · rw [if_neg h0]
    have hpos : 0 < |q| := abs_pos.mpr h0
    have h2 : (0 : ℚ) < 2 := by norm_num
    have h2' : (2 : ℚ) ≠ 0 := by norm_num
    have hupos : (0 : ℚ) < 2 ^ (Int.log 2 |q| - ((p : Int) - 1)) := zpow_pos h2 _
    have hlt : |q| < 2 ^ (Int.log 2 |q| + 1) := by
      have := Int.lt_zpow_succ_log_self (R := ℚ) (b := 2) (by norm_num) |q|
      exact_mod_cast this
    have hsplit : (2 : ℚ) ^ (Int.log 2 |q| + 1)
        = 2 ^ (p : Int) * 2 ^ (Int.log 2 |q| - ((p : Int) - 1)) := by
      rw [← zpow_add₀ h2']
      congr 1
      omega
    have hx : |q / 2 ^ (Int.log 2 |q| - ((p : Int) - 1))| < 2 ^ p := by
      rw [abs_div, abs_of_pos hupos, div_lt_iff₀ hupos]
      rw [hsplit, zpow_natCast] at hlt
      exact hlt
    generalize q / 2 ^ (Int.log 2 |q| - ((p : Int) - 1)) = x at hx
    have hx1 : -(2 : ℚ) ^ p < x := (abs_lt.mp hx).1
    have hx2 : x < (2 : ℚ) ^ p := (abs_lt.mp hx).2
    have hf1 : -(2 : Int) ^ p ≤ ⌊x⌋ := by
      apply Int.le_floor.mpr
      push_cast
      exact le_of_lt hx1
    have hf2 : ⌊x⌋ < (2 : Int) ^ p := by
      have : ((⌊x⌋ : Int) : ℚ) < ((2 ^ p : Int) : ℚ) := by
        push_cast
        exact lt_of_le_of_lt (Int.floor_le x) hx2
      exact_mod_cast this
    have hn : -(2 : Int) ^ p ≤ roundTiesEven x ∧ roundTiesEven x ≤ (2 : Int) ^ p := by
      rcases roundTiesEven_bounds x with h | ⟨h, _⟩
      · rw [h]
        omega
      · rw [h]
        omega
    have hone : |(1 : Int)| < 2 ^ p := by
      rw [abs_one]
      exact one_lt_pow₀ (by norm_num) (by omega)
    by_cases hmax : roundTiesEven x = (2 : Int) ^ p
    · refine ⟨1, Int.log 2 |q| + 1, hone, ?_⟩
      rw [hmax, hsplit]
      push_cast
      rw [zpow_natCast]
      ring
    · by_cases hmin : roundTiesEven x = -(2 : Int) ^ p
      · refine ⟨-1, Int.log 2 |q| + 1, by rw [abs_neg]; exact hone, ?_⟩
        rw [hmin, hsplit]
        push_cast
        rw [zpow_natCast]
        ring
      · refine ⟨roundTiesEven x, Int.log 2 |q| - ((p : Int) - 1), ?_, rfl⟩
        rw [abs_lt]
        constructor
        · omega
        · omega

theorem isFloat_hundredth (p : Nat) (r : Int) (h : IsFloat p ((r : ℚ) / 100)) : 25 ∣ r := by
  obtain ⟨m, k, _, hq⟩ := h
  have h2' : (2 : ℚ) ≠ 0 := by norm_num
  obtain ⟨j, rfl | rfl⟩ := Int.eq_nat_or_neg k
  · rw [zpow_natCast] at hq
    have e : (r : ℚ) = ((100 * m * 2 ^ j : Int) : ℚ) := by
      push_cast
      linarith
    have e' : r = 100 * m * 2 ^ j := by exact_mod_cast e
    exact ⟨4 * m * 2 ^ j, by rw [e']; ring⟩
  · rw [zpow_neg, zpow_natCast] at hq
    have hne : (2 : ℚ) ^ j ≠ 0 := pow_ne_zero _ h2'
    have e : ((r * 2 ^ j : Int) : ℚ) = ((100 * m : Int) : ℚ) := by
      push_cast
      field_simp at hq
      linarith
    have e' : r * 2 ^ j = 100 * m := by exact_mod_cast e
    have hd : (25 : Int) ∣ r * 2 ^ j := ⟨4 * m, by rw [e']; ring⟩
    have hc : IsCoprime (25 : Int) (2 ^ j) := by
      apply IsCoprime.pow_right
      exact ⟨1, -12, by norm_num⟩
    exact hc.dvd_of_dvd_mul_right hd

theorem roundTiesEven_eq (x : ℚ) (n : Int) (h1 : (n : ℚ) - 1 / 2 < x) (h2 : x < n + 1 / 2) :
    roundTiesEven x = n := by
  have hf1 : (⌊x⌋ : ℚ) ≤ x := Int.floor_le x
  have hf2 : x < ⌊x⌋ + 1 := Int.lt_floor_add_one x
  unfold roundTiesEven
  split
  · rename_i h
    have a : (n : ℚ) < ⌊x⌋ + 1 := by linarith
    have b : (⌊x⌋ : ℚ) < n + 1 := by linarith
    have a' : n < ⌊x⌋ + 1 := by exact_mod_cast a
    have b' : ⌊x⌋ < n + 1 := by exact_mod_cast b
    omega
  · split
    · rename_i h h'
      have a : (⌊x⌋ : ℚ) < n := by linarith
      have b : (n : ℚ) < ⌊x⌋ + 2 := by linarith
      have a' : ⌊x⌋ < n := by exact_mod_cast a
      have b' : n < ⌊x⌋ + 2 := by exact_mod_cast b
      omega
    · rename_i h h'
      have e : x - ⌊x⌋ = 1 / 2 := le_antisymm (not_lt.mp h') (not_lt.mp h)
      have a : (n : ℚ) < ⌊x⌋ + 1 := by linarith
      have b : (⌊x⌋ : ℚ) < n := by linarith
      have a' : n < ⌊x⌋ + 1 := by exact_mod_cast a
      have b' : ⌊x⌋ < n := by exact_mod_cast b
      omega

theorem int_log_eq (q : ℚ) (e : Int) (h1 : (2 : ℚ) ^ e ≤ |q|) (h2 : |q| < 2 ^ (e + 1)) :
    Int.log 2 |q| = e := by
  have hpos : 0 < |q| := lt_of_lt_of_le (zpow_pos (by norm_num) e) h1
  have a : e ≤ Int.log 2 |q| := (Int.zpow_le_iff_le_log (by norm_num) hpos).mp (by exact_mod_cast h1)
  have b : Int.log 2 |q| < e + 1 := (Int.lt_zpow_iff_log_lt (by norm_num) hpos).mp (by exact_mod_cast h2)
  omega

theorem roundBinary_eq (p : Nat) (q : ℚ) (e n : Int) (h1 : (2 : ℚ) ^ e ≤ |q|)
    (h2 : |q| < 2 ^ (e + 1)) (hn1 : (n : ℚ) - 1 / 2 < q / 2 ^ (e - ((p : Int) - 1)))
    (hn2 : q / 2 ^ (e - ((p : Int) - 1)) < n + 1 / 2) :
    roundBinary p q = n * 2 ^ (e - ((p : Int) - 1)) := by
  have hpos : 0 < |q| := lt_of_lt_of_le (zpow_pos (by norm_num) e) h1
  have hq : q ≠ 0 := abs_pos.mp hpos
  unfold roundBinary
  rw [if_neg hq, int_log_eq q e h1 h2, roundTiesEven_eq _ n hn1 hn2]

/-- An integer below `2 ^ p` in absolute value is a binary floating-point number
with `p` significant bits. -/
theorem isFloat_intCast (p : Nat) (r : Int) (hr : |r| < 2 ^ p) : IsFloat p (r : ℚ) :=
  ⟨r, 0, hr, by norm_num⟩

/-- For a raw value that converts to `double` exactly, the quotient is stored
exactly if and only if it is a `float`. -/
theorem floatDivide100_exact_iff (pd : Nat) (hpd : 24 ≤ pd) (r : Int) (hr : |r| < 2 ^ pd) :
    floatDivide100 pd r = (r : ℚ) / 100 ↔ IsFloat 24 ((r : ℚ) / 100) := by
  constructor
  · intro h
    rw [← h]
    exact roundBinary_isFloat 24 _ (by decide)
  · intro h
    unfold floatDivide100
    rw [roundBinary_of_isFloat pd _ (isFloat_intCast pd r hr),
      roundBinary_of_isFloat pd _ (isFloat_mono 24 pd _ hpd h), roundBinary_of_isFloat 24 _ h]

/-- The value stored for the raw value 1, with a `double` of 53 bits: 0.01 rounds
to 5764607523034235 / 2 ^ 59 and then to 10737418 / 2 ^ 30. -/
theorem floatDivide100_one : floatDivide100 53 1 = 10737418 / 2 ^ 30 := by
  have h0 : roundBinary 53 (((1 : Int) : ℚ)) = 1 := by
    rw [roundBinary_of_isFloat 53 _ (isFloat_intCast 53 1 (by norm_num))]
    norm_num
  have h1 : roundBinary 53 ((1 : ℚ) / 100) = 5764607523034235 / 2 ^ 59 := by
    have h := roundBinary_eq 53 ((1 : ℚ) / 100) (-7) 5764607523034235
      (by norm_num [abs_of_pos]) (by norm_num [abs_of_pos]) (by norm_num) (by norm_num)
    rw [h]
    norm_num
  have h2 : roundBinary 24 (5764607523034235 / 2 ^ 59) = 10737418 / 2 ^ 30 := by
    have h := roundBinary_eq 24 (5764607523034235 / 2 ^ 59) (-7) 10737418
      (by norm_num [abs_of_pos]) (by norm_num [abs_of_pos]) (by norm_num) (by norm_num)
    rw [h]
    norm_num
  unfold floatDivide100
  rw [h0, h1, h2]

/-- C24, refuted on a successful temperature response whose raw value is 1 (data
bytes 00 01 00 00 00): `tmp / 100.` is rounded to a `double` and then to a
`float`, and `ELCOM_getSenTemp` stores 10737418 / 2 ^ 30 (0.00999999977648...),
which is not the real number 1 / 100. -/
theorem getSenTemp_value_rounded :
    i32OfBytes
        (ELCOM_parseReceivedPacket sumCrc (textResponse 0x22 [0, 1, 0, 0, 0])
          stalePacket).2.data 1 = 1
    ∧ (ELCOM_getSenTemp sumCrc (floatDivide100 53)
          (respondingSensor (textResponse 0x22 [0, 1, 0, 0, 0])) () 0).map
        (fun r => (r.1, r.2.2.2.2)) = some (ELCOM_NO_ERROR, 10737418 / 2 ^ 30)
    ∧ (10737418 / 2 ^ 30 : ℚ) ≠ 1 / 100 := by
  have hraw : i32OfBytes
      (ELCOM_parseReceivedPacket sumCrc (textResponse 0x22 [0, 1, 0, 0, 0])
        stalePacket).2.data 1 = 1 := by decide
  have hrun : (ELCOM_getSenTemp sumCrc (floatDivide100 53)
        (respondingSensor (textResponse 0x22 [0, 1, 0, 0, 0])) () 0).map
      (fun r => (r.1, r.2.2.2.2))
      = some (ELCOM_NO_ERROR, floatDivide100 53
          (i32OfBytes (ELCOM_parseReceivedPacket sumCrc (textResponse 0x22 [0, 1, 0, 0, 0])
            stalePacket).2.data 1)) := rfl
  refine ⟨hraw, ?_, by norm_num⟩
  rw [hrun, hraw, floatDivide100_one]

/-- C24 as amended: on every successful temperature transaction
`ELCOM_getSenTemp` returns `ELCOM_NO_ERROR` and sets the temperature to the
quotient `r / 100` computed in `double` and rounded to a `float`, where `r` is
the little-endian signed 32-bit value held in response data bytes 1 to 4 (after
the index byte), whatever the precision `pd ≥ 24` of `double`.  The value stored
is a `float`; for a raw value that converts to `double` exactly (every
`int32_t` when `double` has 53 bits) it is `r / 100` itself if and only if
`r / 100` is a `float`, which requires `r` to be a multiple of 25; the raw value
-2050 gives -20.5. -/
theorem getSenTemp_success {W : Type} (crc : List Nat → Nat) (pd : Nat) (hpd : 24 ≤ pd)
    (s s' : ELICHENS_Sensor_t W) (w w' : W) (calls : List Call) (t : ℚ)
    (hok : EL_sendAndReceivePacket crc (indexedRequest ELCOM_CMD_GET_SEN_TEMP s) w
      = some (ELCOM_NO_ERROR, s', w', calls)) :
    ELCOM_getSenTemp crc (floatDivide100 pd) s w t =
        some (ELCOM_NO_ERROR, s', w', calls,
          roundBinary 24
            (roundBinary pd (roundBinary pd ((i32OfBytes s'.packet.data 1 : Int) : ℚ) / 100)))
    ∧ i32OfBytes s'.packet.data 1 =
        (if s'.packet.data 1 + 2 ^ 8 * s'.packet.data 2 + 2 ^ 16 * s'.packet.data 3
            + 2 ^ 24 * s'.packet.data 4 < 2 ^ 31 then
          ((s'.packet.data 1 + 2 ^ 8 * s'.packet.data 2 + 2 ^ 16 * s'.packet.data 3
            + 2 ^ 24 * s'.packet.data 4 : Nat) : Int)
        else
          ((s'.packet.data 1 + 2 ^ 8 * s'.packet.data 2 + 2 ^ 16 * s'.packet.data 3
            + 2 ^ 24 * s'.packet.data 4 : Nat) : Int) - 2 ^ 32)
    ∧ IsFloat 24 (floatDivide100 pd (i32OfBytes s'.packet.data 1))
    ∧ (∀ r : Int, |r| < 2 ^ pd →
        (floatDivide100 pd r = (r : ℚ) / 100 ↔ IsFloat 24 ((r : ℚ) / 100)))
    ∧ (∀ r : Int, -2 ^ 31 ≤ r → r < 2 ^ 31 →
        (floatDivide100 53 r = (r : ℚ) / 100 ↔ IsFloat 24 ((r : ℚ) / 100)))
    ∧ (∀ r : Int, IsFloat 24 ((r : ℚ) / 100) → 25 ∣ r)
    ∧ floatDivide100 pd (-2050) = -41 / 2
    ∧ (-41 / 2 : ℚ) = -2050 / 100 := by
  refine ⟨?_, rfl, roundBinary_isFloat 24 _ (by decide),
    fun r hr => floatDivide100_exact_iff pd hpd r hr, ?_,
    fun r h => isFloat_hundredth 24 r h, ?_, by norm_num⟩
  · rw [getSenTemp_eq, hok]
    rfl
  · intro r h1 h2
    apply floatDivide100_exact_iff 53 (by decide) r
    rw [abs_lt]
    constructor
    · have : (-2 : Int) ^ 53 < -2 ^ 31 := by norm_num
      omega
    · have : (2 : Int) ^ 31 < 2 ^ 53 := by norm_num
      omega
  · have h : IsFloat 24 (((-2050 : Int) : ℚ) / 100) := ⟨-41, -1, by norm_num, by norm_num⟩
    have hr : |(-2050 : Int)| < 2 ^ pd := by
      have h24 : (2 : Int) ^ 24 ≤ 2 ^ pd := pow_le_pow_right₀ (by norm_num) hpd
      have : |(-2050 : Int)| < 2 ^ 24 := by norm_num
      omega
    rw [(floatDivide100_exact_iff pd hpd (-2050) hr).mpr h]
    norm_num

/-- Witness of amended C24: a response carrying the raw value -2050 (bytes FE F7
FF FF), with a `double` of 53 bits: the temperature stored is -41 / 2. -/
theorem getSenTemp_success_witness :
    (24 ≤ 53)
    ∧ i32OfBytes
        (ELCOM_parseReceivedPacket sumCrc (textResponse 0x22 [0, 0xFE, 0xF7, 0xFF, 0xFF])
          stalePacket).2.data 1 = -2050
    ∧ (∃ s' calls,
        ELCOM_getSenTemp sumCrc (floatDivide100 53)
            (respondingSensor (textResponse 0x22 [0, 0xFE, 0xF7, 0xFF, 0xFF])) () 0
          = some (ELCOM_NO_ERROR, s', (), calls,
              roundBinary 24
                (roundBinary 53
                  (roundBinary 53 ((i32OfBytes s'.packet.data 1 : Int) : ℚ) / 100))))
    ∧ floatDivide100 53 (-2050) = -41 / 2 :=
  ⟨by decide, by decide,
    ⟨_, _, (getSenTemp_success sumCrc 53 (by decide)
      (respondingSensor (textResponse 0x22 [0, 0xFE, 0xF7, 0xFF, 0xFF])) _ () () _ 0 rfl).1⟩,
    (getSenTemp_success sumCrc 53 (by decide)
      (respondingSensor (textResponse 0x22 [0, 0xFE, 0xF7, 0xFF, 0xFF])) _ () () _ 0
      rfl).2.2.2.2.2.2.1⟩

end Elcom
